import Mathlib

/-!
# TrendingTaskTPC: a shallow embedding

Embedding of `Modules/TPC/src/TrendingTaskTPC.cxx` (the TPC trending
post-processing task) and of the small value classes it drives.

Conventions of the embedding

* `std::string` is `String`; positions are `size_t`, i.e. naturals below
  `2 ^ 64` with wrap-around arithmetic, and `std::string::npos` is `2 ^ 64 - 1`.
* `double` values are only copied and compared with constants by the code
  embedded here, never combined arithmetically, so they are modelled by `ℚ`
  (every finite double is a rational; NaN and infinities are not modelled).
* `std::unordered_map` members that are only accessed through `operator[]`
  are total functions returning the value-initialised default on unset keys.
* An operation that can end by a C++ exception or an invalid access returns
  `Option`, or a `Step` when it has already written to the task's members.
-/

namespace TrendingTaskTPC

/-! ## Strings

A `std::string` is modelled by a `String` whose characters stand for its
bytes: positions and sizes are those of the code for ASCII text. -/

/-- The value of `std::string::npos` for a 64-bit `size_t`. -/
def npos : Nat := 2 ^ 64 - 1

/-- Addition of two `size_t` values. -/
def sizeAdd (a b : Nat) : Nat := (a + b) % 2 ^ 64

/-- Subtraction of two `size_t` values (wraps below zero). -/
def sizeSub (a b : Nat) : Nat := (a % 2 ^ 64 + 2 ^ 64 - b % 2 ^ 64) % 2 ^ 64

/-- Search loop of `std::string::find(pat)`: `i` is the position of the head
of the remaining text. -/
def findFrom (pat : List Char) : List Char → Nat → Nat
  | [], i => if pat = [] then i else npos
  | c :: cs, i => if pat.isPrefixOf (c :: cs) then i else findFrom pat cs (i + 1)

/-- Model of `s.find(pat)`: position of the first occurrence of `pat`, or `npos`. -/
def find (s pat : String) : Nat := findFrom pat.data s.data 0

/-- Model of `s.substr(pos, n)`: throws `std::out_of_range` (here `none`) when
`pos > s.size()`, otherwise the at most `n` characters from `pos` on. -/
def substr (s : String) (pos n : Nat) : Option String :=
  if s.length < pos then none else some ⟨(s.data.drop pos).take n⟩

/-- Model of `std::count(var.begin(), var.end(), c)`. -/
def count (s : String) (c : Char) : Nat := s.data.count c

/-- Output arguments of `getTrendVariables`. -/
structure TrendVariables where
  sourceName : String
  variableName : String
  trend : String
  deriving DecidableEq, Repr

/-- Output arguments of `getTrendErrors`. -/
structure TrendErrors where
  errorX : String
  errorY : String
  deriving DecidableEq, Repr

/-- Model of `TrendingTaskTPC::getTrendVariables` (TrendingTaskTPC.cxx:520-527). -/
def getTrendVariables (inputvar : String) : Option TrendVariables := do
  let posEndVar := find inputvar "."
  let posEndType := find inputvar ":"
  let sourceName ← substr inputvar 0 posEndVar
  let variableName ← substr inputvar (sizeAdd posEndVar 1) (sizeSub (sizeSub posEndType posEndVar) 1)
  let trend ← substr inputvar (sizeAdd posEndType 1) npos
  pure { sourceName := sourceName, variableName := variableName, trend := trend }

/-- Model of `TrendingTaskTPC::getTrendErrors` (TrendingTaskTPC.cxx:529-534). -/
def getTrendErrors (inputvar : String) : Option TrendErrors := do
  let posEndType_err := find inputvar ":"
  let errorX ← substr inputvar (sizeAdd posEndType_err 1) npos
  let errorY ← substr inputvar 0 posEndType_err
  pure { errorX := errorX, errorY := errorY }

/-! ## Records, configuration and collaborators -/

/-- Model of `SliceInfo` (TPC/SliceInfo.h): one record per slice of a source,
given by what the task reads from it, the member `title` and the method
`RetrieveValue`. -/
structure SliceInfo where
  RetrieveValue : String → ℚ
  title : String

/-- Model of `SliceInfoQuality` (TPC/SliceInfo.h): the record of a quality
source, given by what the task reads from it, the member `title` and the
method `RetrieveValue`. -/
structure SliceInfoQuality where
  RetrieveValue : String → ℚ
  title : String

/-- Model of `TrendingTaskConfigTPC::DataSource`: the members read by the task. -/
structure DataSource where
  type : String
  path : String
  name : String
  reductorName : String
  moduleName : String
  axisDivision : List (List ℚ)
  deriving DecidableEq

/-- Model of `TrendingTaskConfigTPC::Plot`: the members read by the task. -/
structure Plot where
  name : String
  title : String
  varexp : String
  option : String
  graphErrors : String
  graphAxisLabel : String
  graphYRange : String
  graphXRange : String
  deriving DecidableEq

/-- Model of `TrendingTaskConfigTPC`: the members read by the task. -/
structure TrendingTaskConfigTPC where
  producePlotsOnUpdate : Bool
  plots : List Plot
  dataSources : List DataSource

/-- Model of `Activity`, with the members set in PostProcessingConfig.cxx:29-35. -/
structure Activity where
  number : Int
  type : Int
  periodName : String
  passName : String
  provenance : String
  validity : Nat × Nat
  deriving DecidableEq

/-- Model of `Trigger`: the members read by the task (`timestamp` is a `uint64_t`). -/
structure Trigger where
  timestamp : Nat
  activity : Activity

/-- Model of `MonitorObject`: `getObject()` may return a null pointer. -/
structure MonitorObject (Obj : Type) where
  getObject : Option Obj

/-- Model of `repository::DatabaseInterface`: `retrieveMO(path, name, timestamp, activity)`
and `retrieveQO(path, timestamp, activity)`; `none` is the null pointer. -/
structure DatabaseInterface (Obj QObj : Type) where
  retrieveMO : String → String → Nat → Activity → Option (MonitorObject Obj)
  retrieveQO : String → Nat → Activity → Option QObj

/-- Model of `ReductorTPC` (TPC/ReductorTPC.h). `update(obj, reducedSource, axis,
finalNumberPads)` receives the vector and the counter by reference: the model
passes their values in and gets their values back. `updateQuality(qo,
reducedSource)` likewise for the quality record. -/
structure ReductorTPC (Obj QObj : Type) where
  update : Obj → List SliceInfo → List (List ℚ) → Int → List SliceInfo × Int
  updateQuality : QObj → SliceInfoQuality → SliceInfoQuality

/-- Collaborators defined outside TrendingTaskTPC.cxx:
`root_class_factory::create<ReductorTPC>(moduleName, reductorName)` (`none`:
the fatal exception of an unknown class), the value of a default-constructed
`SliceInfoQuality`, and `std::stof` (`none`: `std::invalid_argument` or
`std::out_of_range`). -/
structure Env (Obj QObj : Type) where
  create : String → String → Option (ReductorTPC Obj QObj)
  defaultQuality : SliceInfoQuality
  stof : String → Option ℚ

/-! ## The trending tree -/

/-- Type of a branch of the trending tree. -/
inductive BranchKind
  | metaData
  | time
  | slices
  | quality
  deriving DecidableEq, Repr

/-- Value stored by one entry for one source branch. -/
inductive Column
  | slices (v : List SliceInfo)
  | quality (q : SliceInfoQuality)

/-- One entry (row) of the trending tree: the values the branch addresses
held when `TTree::Fill` was called. -/
structure Entry where
  runNumber : Int
  time : Nat
  columns : String → Option Column

/-- Model of `TTree`: name, branches by name, entries in insertion order. -/
structure TTree where
  fName : String
  branches : String → Option BranchKind
  entries : List Entry

/-- Model of `TTree::Branch(name, address)`: a lookup by name finds the branch that
was created first under that name. -/
def TTree.Branch (t : TTree) (name : String) (kind : BranchKind) : TTree :=
  if (t.branches name).isSome then t
  else { t with branches := Function.update t.branches name (some kind) }

/-- Model of `TTree::GetEntries` / `GetEntriesFast`. -/
def TTree.GetEntries (t : TTree) : Nat := t.entries.length

/-- Model of `TTreeReaderValue<std::vector<SliceInfo>>` on branch `name`, dereferenced
at entry `e`: `none` when the entry has no such column of that type. -/
def Entry.slices (e : Entry) (name : String) : Option (List SliceInfo) :=
  match e.columns name with
  | some (Column.slices v) => some v
  | _ => none

/-- Model of `TTreeReaderValue<SliceInfoQuality>` on branch `name`, dereferenced at
entry `e`: `none` when the entry has no such column of that type. -/
def Entry.quality (e : Entry) (name : String) : Option SliceInfoQuality :=
  match e.columns name with
  | some (Column.quality q) => some q
  | _ => none

/-! ## Plot objects -/

/-- One point of a `TGraphErrors`: coordinates and errors. -/
structure Point where
  x : ℚ
  y : ℚ
  ex : ℚ
  ey : ℚ
  deriving DecidableEq

/-- Model of `TGraphErrors`: name, title and points. -/
structure TGraphErrors where
  fName : String
  fTitle : String
  points : List Point
  deriving DecidableEq

/-- Model of `new TGraphErrors(n)`: `n` points at the origin with zero errors, named
"Graph" (no point for a negative `n`). -/
def TGraphErrors.new (n : Int) : TGraphErrors :=
  { fName := "Graph", fTitle := "", points := List.replicate n.toNat ⟨0, 0, 0, 0⟩ }

/-- Points `0..i` exist after a call of `SetPoint(i, ..)` or
`SetPointError(i, ..)`: new points are at the origin with zero errors. -/
def growTo (pts : List Point) (i : Nat) : List Point :=
  pts ++ List.replicate (i + 1 - pts.length) ⟨0, 0, 0, 0⟩

/-- Model of `TGraphErrors::SetPoint(i, x, y)`. -/
def TGraphErrors.SetPoint (g : TGraphErrors) (i : Nat) (x y : ℚ) : TGraphErrors :=
  { g with points := (growTo g.points i).modify (fun p => { p with x := x, y := y }) i }

/-- Model of `TGraphErrors::SetPointError(i, ex, ey)`. -/
def TGraphErrors.SetPointError (g : TGraphErrors) (i : Nat) (ex ey : ℚ) : TGraphErrors :=
  { g with points := (growTo g.points i).modify (fun p => { p with ex := ex, ey := ey }) i }

/-- One call `Fill(x, y, w)` followed by `SetBinError(.., error)` on a `TH2F`. -/
structure Cell where
  x : ℚ
  y : ℚ
  w : ℚ
  error : ℚ
  deriving DecidableEq

/-- Model of `TH2F` of the `slices2D` mode: axis boundaries and the cells filled. -/
structure TH2F where
  fName : String
  fTitle : String
  xBoundaries : List ℚ
  yBoundaries : List ℚ
  cells : List Cell
  deriving DecidableEq

/-- Object held in the list of primitives of a pad. -/
inductive Primitive
  | graph (g : TGraphErrors)
  | multiGraph (name : String) (title : String) (graphs : List TGraphErrors)
  | legend (name : String) (entries : List String)
  | hist (h : TH2F)
  deriving DecidableEq

/-- Model of `TCanvas`: name, title and the primitives of its numbered sub-pads (pad
`k` is `pads[k - 1]`). -/
structure TCanvas where
  fName : String
  fTitle : String
  pads : List (List Primitive)
  deriving DecidableEq

/-- Model of `TCanvas::DivideSquare(n)`: the sub-pads `1..n`. ROOT completes
the grid with further pads, and makes one pad for `n = 0`; these pads are not
listed: the task draws into the pads `1..n` only and reads no pad beyond
them. -/
def TCanvas.DivideSquare (c : TCanvas) (n : Int) : TCanvas :=
  { c with pads := List.replicate n.toNat [] }

/-- Model of `TCanvas::Divide(nx, ny)`. -/
def TCanvas.Divide (c : TCanvas) (nx ny : Nat) : TCanvas :=
  { c with pads := List.replicate (nx * ny) [] }

/-- Model of `TrendingTaskTPC::saveObjectToPrimitives` (TrendingTaskTPC.cxx:536-543). -/
def saveObjectToPrimitives (canvas : TCanvas) (padNumber : Nat) (object : Primitive) : TCanvas :=
  if 1 ≤ padNumber ∧ padNumber ≤ canvas.pads.length then
    { canvas with pads := canvas.pads.modify (fun prims => prims ++ [object]) (padNumber - 1) }
  else canvas

/-! ## The task -/

/-- Call received by the objects manager. -/
inductive PublishCall
  | startPublishingTree (name : String)
  | startPublishing (c : TCanvas)
  | stopPublishing (name : String)
  deriving DecidableEq

/-- Value of `mPlots[name]`: the canvas pointed to and whether it has been
deleted. -/
structure PlotSlot where
  canvas : TCanvas
  deleted : Bool

/-- Model of `TrendingTaskTPC::MetaData`. -/
structure MetaData where
  runNumber : Int
  deriving DecidableEq

/-- Members of `TrendingTaskTPC` (TrendingTaskTPC.h:83-93) and the calls
received so far by `getObjectsManager()`. -/
structure State (Obj QObj : Type) where
  mConfig : TrendingTaskConfigTPC
  mMetaData : MetaData
  mTime : Nat
  mTrend : TTree
  mPlots : String → Option PlotSlot
  mReductors : String → Option (ReductorTPC Obj QObj)
  mSources : String → List SliceInfo
  mSourcesQuality : String → SliceInfoQuality
  mIsMoObject : String → Bool
  mNumberPads : String → Int
  mAxisDivision : String → List (List ℚ)
  objectsManager : List PublishCall

/-- Result of an operation that writes to the members and may end by an
exception or an invalid access: the members as the operation left them, and
whether it ended that way. -/
structure Step (σ : Type) where
  state : σ
  failed : Bool

/-- Normal completion. -/
def Step.ok {σ : Type} (s : σ) : Step σ := ⟨s, false⟩

/-- Completion by an exception or an invalid access. -/
def Step.fail {σ : Type} (s : σ) : Step σ := ⟨s, true⟩

/-- Sequencing: nothing runs after a failure. -/
def Step.andThen {σ : Type} (r : Step σ) (f : σ → Step σ) : Step σ :=
  if r.failed then r else f r.state

/-- Range-based `for` loop whose body may fail. -/
def forEach {σ α : Type} (f : σ → α → Step σ) : List α → σ → Step σ
  | [], s => Step.ok s
  | x :: xs, s => (f s x).andThen (forEach f xs)

/-! ## The objects manager -/

/-- Modelled from the spec: the publishing collaborator "accepts a named plot
object for start publishing / stop publishing, and a named time-series object
for the same" (the objects manager is defined outside TrendingTaskTPC.cxx).
Effect of one call on the plot objects being published: a start adds the
canvas, a stop removes the canvas published under that name. -/
def applyCall (published : List TCanvas) : PublishCall → List TCanvas
  | PublishCall.startPublishingTree _ => published
  | PublishCall.startPublishing c => published ++ [c]
  | PublishCall.stopPublishing n => published.eraseP (fun c => decide (c.fName = n))

/-- Modelled from the spec: the plot objects being published after the calls
`calls` received by the objects manager, oldest first. -/
def publishedPlots (calls : List PublishCall) : List TCanvas :=
  calls.foldl applyCall []

/-- The canvases whose publication is started by the calls `calls`. -/
def startedCanvases : List PublishCall → List TCanvas
  | [] => []
  | PublishCall.startPublishing c :: calls => c :: startedCanvases calls
  | _ :: calls => startedCanvases calls

/-- The number of calls among `calls` that start the publication of the
trending tree. -/
def treeStarts : List PublishCall → Nat
  | [] => 0
  | PublishCall.startPublishingTree _ :: calls => treeStarts calls + 1
  | _ :: calls => treeStarts calls

section Task

variable {Obj QObj : Type}

/-- Body of the loop over the data sources in `initialize`
(TrendingTaskTPC.cxx:61-75). -/
def initSource (env : Env Obj QObj) (s : State Obj QObj) (source : DataSource) :
    Step (State Obj QObj) :=
  let s1 := { s with
    mSources := Function.update s.mSources source.name [],
    mSourcesQuality := Function.update s.mSourcesQuality source.name env.defaultQuality }
  match env.create source.moduleName source.reductorName with
  | none => Step.fail s1
  | some reductor =>
    let s2 :=
      if source.type = "repository" then
        { s1 with
          mTrend := s1.mTrend.Branch source.name BranchKind.slices,
          mIsMoObject := Function.update s1.mIsMoObject source.name true }
      else if source.type = "repository-quality" then
        { s1 with
          mTrend := s1.mTrend.Branch source.name BranchKind.quality,
          mIsMoObject := Function.update s1.mIsMoObject source.name false }
      else s1
    Step.ok { s2 with mReductors := Function.update s2.mReductors source.name (some reductor) }

/-- A task on which `configure(name, config)` has stored the configuration
and `initialize` has created the empty tree with its branches "meta" and
"time" (TrendingTaskTPC.cxx:47-59); the other members are default-constructed. -/
def configured (env : Env Obj QObj) (name : String) (config : TrendingTaskConfigTPC) :
    State Obj QObj :=
  { mConfig := config
    mMetaData := ⟨0⟩
    mTime := 0
    mTrend := (TTree.mk name (fun _ => none) []
      |>.Branch "meta" BranchKind.metaData).Branch "time" BranchKind.time
    mPlots := fun _ => none
    mReductors := fun _ => none
    mSources := fun _ => []
    mSourcesQuality := fun _ => env.defaultQuality
    mIsMoObject := fun _ => false
    mNumberPads := fun _ => 0
    mAxisDivision := fun _ => []
    objectsManager := [] }

/-- Model of `TrendingTaskTPC::configure` followed by `TrendingTaskTPC::initialize`
(TrendingTaskTPC.cxx:47-79) on a new task. -/
def initializeTask (env : Env Obj QObj) (name : String) (config : TrendingTaskConfigTPC) :
    Step (State Obj QObj) :=
  (forEach (initSource env) config.dataSources (configured env name config)).andThen fun s =>
    if s.mConfig.producePlotsOnUpdate then
      Step.ok { s with
        objectsManager := s.objectsManager ++ [PublishCall.startPublishingTree s.mTrend.fName] }
    else Step.ok s

/-- The values at the branch addresses: the run number, the time, and for
every source branch `mSources[name]` or `mSourcesQuality[name]`. -/
def currentEntry (s : State Obj QObj) : Entry :=
  { runNumber := s.mMetaData.runNumber
    time := s.mTime
    columns := fun n =>
      match s.mTrend.branches n with
      | some BranchKind.slices => some (Column.slices (s.mSources n))
      | some BranchKind.quality => some (Column.quality (s.mSourcesQuality n))
      | _ => none }

/-- Model of `mTrend->Fill()`: a new entry with the values at the branch addresses. -/
def fill (s : State Obj QObj) : State Obj QObj :=
  { s with mTrend := { s.mTrend with entries := s.mTrend.entries ++ [currentEntry s] } }

/-- Body of the loop over the data sources in `trendValues`
(TrendingTaskTPC.cxx:104-125). -/
def trendSource (qcdb : DatabaseInterface Obj QObj) (t : Trigger) (s : State Obj QObj)
    (dataSource : DataSource) : Step (State Obj QObj) :=
  let s0 := { s with mNumberPads := Function.update s.mNumberPads dataSource.name 0 }
  if dataSource.type = "repository" then
    let mo := qcdb.retrieveMO dataSource.path dataSource.name t.timestamp t.activity
    let obj := mo.bind MonitorObject.getObject
    let s1 := { s0 with
      mAxisDivision := Function.update s0.mAxisDivision dataSource.name dataSource.axisDivision }
    match obj with
    | some o =>
      match s1.mReductors dataSource.name with
      | some reductor =>
        let out := reductor.update o (s1.mSources dataSource.name) dataSource.axisDivision
          (s1.mNumberPads dataSource.name)
        Step.ok { s1 with
          mSources := Function.update s1.mSources dataSource.name out.1,
          mNumberPads := Function.update s1.mNumberPads dataSource.name out.2 }
      | none => Step.fail s1
    | none => Step.ok s1
  else if dataSource.type = "repository-quality" then
    match qcdb.retrieveQO (dataSource.path ++ "/" ++ dataSource.name) t.timestamp t.activity with
    | some qo =>
      match s0.mReductors dataSource.name with
      | some reductor =>
        Step.ok { s0 with
          mSourcesQuality := Function.update s0.mSourcesQuality dataSource.name
            (reductor.updateQuality qo (s0.mSourcesQuality dataSource.name)),
          mNumberPads := Function.update s0.mNumberPads dataSource.name 1 }
      | none => Step.fail s0
    | none => Step.ok s0
  else Step.ok s0

/-- Model of `TrendingTaskTPC::trendValues` (TrendingTaskTPC.cxx:98-128). `mTime` is a
32-bit `UInt_t`. -/
def trendValues (s : State Obj QObj) (t : Trigger) (qcdb : DatabaseInterface Obj QObj) :
    Step (State Obj QObj) :=
  let s0 := { s with mTime := (t.timestamp / 1000) % 2 ^ 32, mMetaData := ⟨-1⟩ }
  (forEach (trendSource qcdb t) s0.mConfig.dataSources s0).andThen fun s1 => Step.ok (fill s1)

/-! ## Plot generation: object sources -/

/-- Errors of the point taken from record `r`: the fields named by the error
expression when it is not empty, zero otherwise (TrendingTaskTPC.cxx:269-275,
309-315, 356-361). -/
def pointError (err errXName errYName : String) (r : SliceInfo) : ℚ × ℚ :=
  if err ≠ "" then (r.RetrieveValue errXName, r.RetrieveValue errYName) else (0, 0)

/-- The loop `while (myReader.Next())` over the entries for slice `p`
(TrendingTaskTPC.cxx:266-281 and 306-320): `at(p)` throws on a vector with no
element `p`. -/
def readLoop (varName typeName errXName errYName err : String) (p : Nat) :
    List Entry → Nat → TGraphErrors → Option TGraphErrors
  | [], _, g => some g
  | e :: es, iEntry, g =>
    match e.slices varName with
    | none => none
    | some v =>
      match v[p]? with
      | none => none
      | some r =>
        let timeStamp : ℚ := (e.time : ℚ)
        let dataPoint := r.RetrieveValue typeName
        let errs := pointError err errXName errYName r
        readLoop varName typeName errXName errYName err p es (iEntry + 1)
          ((g.SetPoint iEntry timeStamp dataPoint).SetPointError iEntry errs.1 errs.2)

/-- The expression `dataRetrieveVector->at(p)` once the reader stands on the
last entry of the tree. -/
def lastSlice (rows : List Entry) (varName : String) (p : Nat) : Option SliceInfo :=
  match rows.getLast? with
  | none => none
  | some e =>
    match e.slices varName with
    | none => none
    | some v => v[p]?

/-- The graph built for slice `p` by the branch `time`
(TrendingTaskTPC.cxx:264-283). -/
def timeGraph (rows : List Entry) (varName typeName errXName errYName err : String)
    (p : Nat) : Option TGraphErrors :=
  match readLoop varName typeName errXName errYName err p rows 0
      (TGraphErrors.new rows.length) with
  | none => none
  | some g =>
    match lastSlice rows varName p with
    | none => none
    | some r => some { g with fTitle := r.title }

/-- The guard under which a graph is drawn and saved to its pad
(TrendingTaskTPC.cxx:285-294 and 376-385). -/
def attachGraph (c : TCanvas) (err : String) (plotOrder padNumber : Nat)
    (g : TGraphErrors) : TCanvas :=
  if err ≠ "" then
    if plotOrder ≠ 2 then c else saveObjectToPrimitives c padNumber (Primitive.graph g)
  else c

/-- The loop over the slices of the branch `time`
(TrendingTaskTPC.cxx:260-295). -/
def timeBranch (rows : List Entry) (varName typeName errXName errYName err : String)
    (plotOrder : Nat) : List Nat → TCanvas → Option TCanvas
  | [], c => some c
  | p :: ps, c =>
    match timeGraph rows varName typeName errXName errYName err p with
    | none => none
    | some g =>
      timeBranch rows varName typeName errXName errYName err plotOrder ps
        (attachGraph c err plotOrder (p + 1) g)

/-- The graph built for slice `p` by the branch `multigraphtime`
(TrendingTaskTPC.cxx:303-326); `std::string_view::substr` throws when
"RangeX" is not found. -/
def multiGraphSeries (rows : List Entry) (varName typeName errXName errYName err : String)
    (p : Nat) : Option TGraphErrors :=
  match readLoop varName typeName errXName errYName err p rows 0
      (TGraphErrors.new rows.length) with
  | none => none
  | some gr =>
    match lastSlice rows varName p with
    | none => none
    | some r =>
      match substr r.title (find r.title "RangeX") npos with
      | none => none
      | some label => some { gr with fName := label }

/-- The loop over the slices of the branch `multigraphtime`
(TrendingTaskTPC.cxx:302-328): the graphs added to the multigraph. -/
def multiGraphLoop (rows : List Entry) (varName typeName errXName errYName err : String) :
    List Nat → List TGraphErrors → Option (List TGraphErrors)
  | [], graphs => some graphs
  | p :: ps, graphs =>
    match multiGraphSeries rows varName typeName errXName errYName err p with
    | none => none
    | some gr =>
      multiGraphLoop rows varName typeName errXName errYName err ps (graphs ++ [gr])

/-- The loop over the slices of the branch `slices`
(TrendingTaskTPC.cxx:352-368), reading the last entry of the tree. -/
def slicesLoop (rows : List Entry) (varName typeName errXName errYName err : String) :
    List Nat → Nat → TGraphErrors → Option TGraphErrors
  | [], _, g => some g
  | p :: ps, iEntry, g =>
    match lastSlice rows varName p with
    | none => none
    | some r =>
      let dataPoint := r.RetrieveValue typeName
      let errs := pointError err errXName errYName r
      let xLabel := r.RetrieveValue "sliceLabelX"
      slicesLoop rows varName typeName errXName errYName err ps (iEntry + 1)
        ((g.SetPoint iEntry xLabel dataPoint).SetPointError iEntry errs.1 errs.2)

/-- The graph built by the branch `slices` (TrendingTaskTPC.cxx:347-368). -/
def slicesGraph (rows : List Entry) (varName typeName errXName errYName err : String)
    (nuPa : Int) : Option TGraphErrors :=
  slicesLoop rows varName typeName errXName errYName err (List.range nuPa.toNat) 0
    (TGraphErrors.new nuPa)

/-- The loop over the slices of the branch `slices2D`
(TrendingTaskTPC.cxx:406-421), reading the last entry of the tree. -/
def slices2DLoop (rows : List Entry) (varName typeName errYName err : String) :
    List Nat → TH2F → Option TH2F
  | [], h => some h
  | p :: ps, h =>
    match lastSlice rows varName p with
    | none => none
    | some r =>
      let dataPoint := r.RetrieveValue typeName
      let error : ℚ := if err ≠ "" then r.RetrieveValue errYName else 0
      let xLabel := r.RetrieveValue "sliceLabelX"
      let yLabel := r.RetrieveValue "sliceLabelY"
      slices2DLoop rows varName typeName errYName err ps
        { h with cells := h.cells ++ [⟨xLabel, yLabel, dataPoint, error⟩] }

/-- Model of `TrendingTaskTPC::drawCanvasMO` (TrendingTaskTPC.cxx:223-433). An object
that is drawn and saved to the same pad is listed once in that pad. -/
def drawCanvasMO (s : State Obj QObj) (thisCanvas : TCanvas) (var _name _opt err : String)
    (axis : List (List ℚ)) : Option TCanvas :=
  let plotOrder := count var ':' + 1
  match getTrendVariables var with
  | none => none
  | some tv =>
    match getTrendErrors err with
    | none => none
    | some te =>
      let varName := tv.sourceName
      let typeName := tv.variableName
      let trendType := tv.trend
      let errXName := te.errorX
      let errYName := te.errorY
      let canvas :=
        if trendType = "time" then thisCanvas.DivideSquare (s.mNumberPads varName)
        else if trendType = "multigraphtime" then thisCanvas.Divide 2 1
        else thisCanvas.DivideSquare 1
      let rows := s.mTrend.entries
      let nuPa := s.mNumberPads varName
      if trendType = "time" then
        timeBranch rows varName typeName errXName errYName err plotOrder
          (List.range nuPa.toNat) canvas
      else if trendType = "multigraphtime" then
        match multiGraphLoop rows varName typeName errXName errYName err
            (List.range nuPa.toNat) [] with
        | none => none
        | some graphs =>
          let legend := Primitive.legend "MultiGraphLegend" (graphs.map TGraphErrors.fName)
          some (saveObjectToPrimitives
            (saveObjectToPrimitives canvas 1 (Primitive.multiGraph "MultiGraph" "" graphs))
            2 legend)
      else if trendType = "slices" then
        match slicesGraph rows varName typeName errXName errYName err nuPa with
        | none => none
        | some graphErrors => some (attachGraph canvas err plotOrder 1 graphErrors)
      else if trendType = "slices2D" then
        match axis[0]?, axis[1]? with
        | some xBoundaries, some yBoundaries =>
          match slices2DLoop rows varName typeName errYName err (List.range nuPa.toNat)
              { fName := "Graph2D", fTitle := "", xBoundaries := xBoundaries,
                yBoundaries := yBoundaries, cells := [] } with
          | none => none
          | some graph2D => some (saveObjectToPrimitives canvas 1 (Primitive.hist graph2D))
        | _, _ => none
      else some canvas

/-! ## Plot generation: quality sources -/

/-- The coercion of a quality value (TrendingTaskTPC.cxx:478-480). -/
def coerceQuality (dataPoint : ℚ) : ℚ :=
  if dataPoint < 1 ∨ dataPoint > 3 then 0 else dataPoint

/-- The loop `while (myReader.Next())` of `drawCanvasQO`
(TrendingTaskTPC.cxx:472-486). -/
def qualityLoop (varName typeName : String) :
    List Entry → Nat → TGraphErrors → Option TGraphErrors
  | [], _, g => some g
  | e :: es, iEntry, g =>
    match e.quality varName with
    | none => none
    | some q =>
      let timeStamp : ℚ := (e.time : ℚ)
      let dataPoint := coerceQuality (q.RetrieveValue typeName)
      qualityLoop varName typeName es (iEntry + 1)
        ((g.SetPoint iEntry timeStamp dataPoint).SetPointError iEntry 0 0)

/-- The graph built by `drawCanvasQO` (TrendingTaskTPC.cxx:469-487). -/
def qualityGraph (rows : List Entry) (varName typeName : String) : Option TGraphErrors :=
  match qualityLoop varName typeName rows 0 (TGraphErrors.new rows.length) with
  | none => none
  | some g =>
    match rows.getLast? with
    | none => none
    | some e =>
      match e.quality varName with
      | none => none
      | some q => some { g with fTitle := q.title }

/-- Model of `TrendingTaskTPC::drawCanvasQO` (TrendingTaskTPC.cxx:435-498). The two
messages (trend other than "time", slice count other than 1) are only logged. -/
def drawCanvasQO (s : State Obj QObj) (thisCanvas : TCanvas) (var _name _opt : String) :
    Option TCanvas :=
  let plotOrder := count var ':' + 1
  match getTrendVariables var with
  | none => none
  | some tv =>
    let canvas := thisCanvas.DivideSquare 1
    match qualityGraph s.mTrend.entries tv.sourceName tv.variableName with
    | none => none
    | some graphErrors =>
      if plotOrder ≠ 2 then some canvas
      else some (saveObjectToPrimitives canvas 1 (Primitive.graph graphErrors))

/-! ## Plot generation: the loop over the plots -/

/-- Model of `TrendingTaskTPC::getUserAxisRange` (TrendingTaskTPC.cxx:500-508). -/
def getUserAxisRange (env : Env Obj QObj) (graphAxisRange : String) : Option (ℚ × ℚ) :=
  let posDivider := find graphAxisRange ":"
  match substr graphAxisRange 0 posDivider,
        substr graphAxisRange (sizeAdd posDivider 1) npos with
  | some minString, some maxString =>
    match env.stof minString, env.stof maxString with
    | some limitLow, some limitUp => some (limitLow, limitUp)
    | _, _ => none
  | _, _ => none

/-- Model of `TrendingTaskTPC::beautifyGraph` (TrendingTaskTPC.cxx:545-608): the title
it gives to a graph whose title was `graphTitle`. Axis ranges, labels and the
time display are drawing attributes that the model does not keep, but a range
that does not parse ends the call. -/
def beautifyGraph (env : Env Obj QObj) (graphTitle : String) (plotconfig : Plot) :
    Option String :=
  let thisTitle :=
    if find plotconfig.varexp ":time" ≠ npos then plotconfig.title ++ " - " ++ graphTitle
    else plotconfig.title
  let yOk := plotconfig.graphYRange = "" ∨ (getUserAxisRange env plotconfig.graphYRange).isSome
  let xOk := plotconfig.graphXRange = "" ∨ (getUserAxisRange env plotconfig.graphXRange).isSome
  if yOk ∧ xOk then some thisTitle else none

/-- Model of `TObject::GetName` of a primitive. -/
def Primitive.GetName : Primitive → String
  | Primitive.graph g => g.fName
  | Primitive.multiGraph name _ _ => name
  | Primitive.legend name _ => name
  | Primitive.hist h => h.fName

/-- Model of `TPad::GetPrimitive(name)`: the first primitive of that name. -/
def GetPrimitive (prims : List Primitive) (name : String) : Option Primitive :=
  prims.find? (fun o => o.GetName = name)

/-- Replaces the first primitive named `name` (the object `GetPrimitive`
returned, after it has been modified in place). -/
def setPrimitive (name : String) (o : Primitive) : List Primitive → List Primitive
  | [] => []
  | q :: qs => if q.GetName = name then o :: qs else q :: setPrimitive name o qs

/-- Body of the loop over the pads in `generatePlots`
(TrendingTaskTPC.cxx:164-216) for pad `p + 1`, on the primitives of that pad. -/
def beautifyPad (env : Env Obj QObj) (plot : Plot) (prims : List Primitive) :
    Option (List Primitive) :=
  match GetPrimitive prims "Graph" with
  | some (Primitive.graph histo) =>
    match beautifyGraph env histo.fTitle plot with
    | none => none
    | some t => some (setPrimitive "Graph" (Primitive.graph { histo with fTitle := t }) prims)
  | _ =>
    match GetPrimitive prims "MultiGraph" with
    | some (Primitive.multiGraph nm title graphs) =>
      match beautifyGraph env title plot with
      | none => none
      | some t => some (setPrimitive "MultiGraph" (Primitive.multiGraph nm t graphs) prims)
    | _ =>
      match GetPrimitive prims "Graph2D" with
      | some (Primitive.hist histo) =>
        if plot.graphYRange = "" ∨ (getUserAxisRange env plot.graphYRange).isSome then
          some (setPrimitive "Graph2D" (Primitive.hist { histo with fTitle := plot.title }) prims)
        else none
      | _ => some prims

/-- The loop over the pads in `generatePlots` (TrendingTaskTPC.cxx:164-216).
For a pad number beyond the pads of the canvas `c->cd(p + 1)` is null, and
`c->cd(p + 1)->GetPrimitive` is an invalid access. -/
def beautifyLoop (env : Env Obj QObj) (plot : Plot) : List Nat → TCanvas → Option TCanvas
  | [], c => some c
  | p :: ps, c =>
    match c.pads[p]? with
    | none => none
    | some prims =>
      match beautifyPad env plot prims with
      | none => none
      | some prims1 => beautifyLoop env plot ps { c with pads := c.pads.set p prims1 }

/-- Body of the loop over the plots in `generatePlots`
(TrendingTaskTPC.cxx:138-220). Deleting a canvas leaves its pointer in
`mPlots`; deleting it a second time is an invalid access. -/
def generatePlot (env : Env Obj QObj) (s : State Obj QObj) (plot : Plot) :
    Step (State Obj QObj) :=
  let released : Step (State Obj QObj) :=
    match s.mPlots plot.name with
    | none => Step.ok s
    | some slot =>
      let s0 := { s with
        objectsManager := s.objectsManager ++ [PublishCall.stopPublishing plot.name] }
      if slot.deleted then Step.fail s0
      else Step.ok { s0 with
        mPlots := Function.update s0.mPlots plot.name (some { slot with deleted := true }) }
  released.andThen fun s1 =>
    let posEndVar := find plot.varexp "."
    match substr plot.varexp 0 posEndVar with
    | none => Step.fail s1
    | some varName =>
      let c : TCanvas := { fName := plot.name, fTitle := plot.title, pads := [] }
      let drawn :=
        if s1.mIsMoObject varName then
          drawCanvasMO s1 c plot.varexp plot.name plot.option plot.graphErrors
            (s1.mAxisDivision varName)
        else drawCanvasQO s1 c plot.varexp plot.name plot.option
      match drawn with
      | none => Step.fail s1
      | some c1 =>
        let NumberPlots : Int :=
          if find plot.varexp ":time" ≠ npos then s1.mNumberPads varName else 1
        match beautifyLoop env plot (List.range NumberPlots.toNat) c1 with
        | none => Step.fail s1
        | some c2 =>
          Step.ok { s1 with
            mPlots := Function.update s1.mPlots plot.name (some { canvas := c2, deleted := false }),
            objectsManager := s1.objectsManager ++ [PublishCall.startPublishing c2] }

/-- Model of `TrendingTaskTPC::generatePlots` (TrendingTaskTPC.cxx:130-221). -/
def generatePlots (env : Env Obj QObj) (s : State Obj QObj) : Step (State Obj QObj) :=
  if s.mTrend.GetEntries < 1 then Step.ok s
  else forEach (generatePlot env) s.mConfig.plots s

/-- Model of `TrendingTaskTPC::update` (TrendingTaskTPC.cxx:81-88). -/
def update (env : Env Obj QObj) (s : State Obj QObj) (t : Trigger)
    (qcdb : DatabaseInterface Obj QObj) : Step (State Obj QObj) :=
  (trendValues s t qcdb).andThen fun s1 =>
    if s1.mConfig.producePlotsOnUpdate then generatePlots env s1 else Step.ok s1

/-- Model of `TrendingTaskTPC::finalize` (TrendingTaskTPC.cxx:90-96). -/
def finalize (env : Env Obj QObj) (s : State Obj QObj) (_t : Trigger) :
    Step (State Obj QObj) :=
  let s1 :=
    if ¬ s.mConfig.producePlotsOnUpdate then
      { s with
        objectsManager := s.objectsManager ++ [PublishCall.startPublishingTree s.mTrend.fName] }
    else s
  generatePlots env s1

/-- A run of the task after `initialize`: the update calls in the order they
are delivered, each on the members left by the previous one. -/
def runUpdates (env : Env Obj QObj) :
    State Obj QObj → List (Trigger × DatabaseInterface Obj QObj) → State Obj QObj
  | s, [] => s
  | s, u :: us => runUpdates env (update env s u.1 u.2).state us

/-! ## Plot generation: derived notions -/

/-- The canvas that the body of the loop over the plots builds for `plot`
(TrendingTaskTPC.cxx:146-216): the new canvas, drawn by `drawCanvasMO` or
`drawCanvasQO`, then post-processed pad by pad; `none` when one of these ends
by an error. -/
def plotCanvas (env : Env Obj QObj) (s : State Obj QObj) (plot : Plot) : Option TCanvas :=
  match substr plot.varexp 0 (find plot.varexp ".") with
  | none => none
  | some varName =>
    let c : TCanvas := { fName := plot.name, fTitle := plot.title, pads := [] }
    let drawn :=
      if s.mIsMoObject varName then
        drawCanvasMO s c plot.varexp plot.name plot.option plot.graphErrors
          (s.mAxisDivision varName)
      else drawCanvasQO s c plot.varexp plot.name plot.option
    match drawn with
    | none => none
    | some c1 =>
      let NumberPlots : Int :=
        if find plot.varexp ":time" ≠ npos then s.mNumberPads varName else 1
      beautifyLoop env plot (List.range NumberPlots.toNat) c1

/-- The release of the canvas held under the name of `plot`, first statement
of the body of the loop over the plots (TrendingTaskTPC.cxx:139-143):
`stopPublishing(plot.name)` then `delete mPlots[plot.name]`, when `mPlots`
counts the name. The pointer stays in `mPlots`, its canvas deleted; deleting
a canvas a second time is an invalid access. -/
def releasePlot (s : State Obj QObj) (plot : Plot) : Step (State Obj QObj) :=
  match s.mPlots plot.name with
  | none => Step.ok s
  | some slot =>
    let s0 := { s with
      objectsManager := s.objectsManager ++ [PublishCall.stopPublishing plot.name] }
    if slot.deleted then Step.fail s0
    else Step.ok { s0 with
      mPlots := Function.update s0.mPlots plot.name (some { slot with deleted := true }) }

/-- The rest of the body of the loop over the plots
(TrendingTaskTPC.cxx:145-219): the new canvas is drawn and post-processed,
then stored by `mPlots[plot.name] = c` and published by `startPublishing(c)`;
an error before line 218 leaves the members as they are. -/
def publishPlot (env : Env Obj QObj) (s1 : State Obj QObj) (plot : Plot) :
    Step (State Obj QObj) :=
  let posEndVar := find plot.varexp "."
  match substr plot.varexp 0 posEndVar with
  | none => Step.fail s1
  | some varName =>
    let c : TCanvas := { fName := plot.name, fTitle := plot.title, pads := [] }
    let drawn :=
      if s1.mIsMoObject varName then
        drawCanvasMO s1 c plot.varexp plot.name plot.option plot.graphErrors
          (s1.mAxisDivision varName)
      else drawCanvasQO s1 c plot.varexp plot.name plot.option
    match drawn with
    | none => Step.fail s1
    | some c1 =>
      let NumberPlots : Int :=
        if find plot.varexp ":time" ≠ npos then s1.mNumberPads varName else 1
      match beautifyLoop env plot (List.range NumberPlots.toNat) c1 with
      | none => Step.fail s1
      | some c2 =>
        Step.ok { s1 with
          mPlots := Function.update s1.mPlots plot.name (some { canvas := c2, deleted := false }),
          objectsManager := s1.objectsManager ++ [PublishCall.startPublishing c2] }

/-- The states of a task along its life: after `initialize`, and after any
further call of `update`, `generatePlots` or `finalize`, whether or not the
call ended by an error. -/
inductive Reachable (env : Env Obj QObj) (name : String) (config : TrendingTaskConfigTPC) :
    State Obj QObj → Prop
  | afterInit : (initializeTask env name config).failed = false →
      Reachable env name config (initializeTask env name config).state
  | afterUpdate (s : State Obj QObj) (t : Trigger) (qcdb : DatabaseInterface Obj QObj) :
      Reachable env name config s → Reachable env name config (update env s t qcdb).state
  | afterGeneratePlots (s : State Obj QObj) :
      Reachable env name config s → Reachable env name config (generatePlots env s).state
  | afterFinalize (s : State Obj QObj) (t : Trigger) :
      Reachable env name config s → Reachable env name config (finalize env s t).state

/-! ## Predicates on the members -/

/-- The members other than `mPlots` and the calls received by the objects
manager are equal in `s` and `s'`. -/
def SameData (s s' : State Obj QObj) : Prop :=
  s'.mConfig = s.mConfig ∧ s'.mMetaData = s.mMetaData ∧ s'.mTime = s.mTime ∧
  s'.mTrend = s.mTrend ∧ s'.mReductors = s.mReductors ∧ s'.mSources = s.mSources ∧
  s'.mSourcesQuality = s.mSourcesQuality ∧ s'.mIsMoObject = s.mIsMoObject ∧
  s'.mNumberPads = s.mNumberPads ∧ s'.mAxisDivision = s.mAxisDivision

/-- The members that the loop over the data sources of `trendValues` never
writes are equal in `s` and `s'`. -/
def SameFrame (s s' : State Obj QObj) : Prop :=
  s'.mConfig = s.mConfig ∧ s'.mMetaData = s.mMetaData ∧ s'.mTime = s.mTime ∧
  s'.mTrend = s.mTrend ∧ s'.mPlots = s.mPlots ∧ s'.mReductors = s.mReductors ∧
  s'.mIsMoObject = s.mIsMoObject ∧ s'.objectsManager = s.objectsManager

/-- Every configured data source has its reductor, as after `initialize`. -/
def HasReductors (s : State Obj QObj) : Prop :=
  ∀ ds ∈ s.mConfig.dataSources, ∃ r, s.mReductors ds.name = some r

/-- The plot objects being published are exactly the canvases held in
`mPlots` and not deleted, at most one per name, all under configured plot
names. -/
def PublishedHeld (s : State Obj QObj) : Prop :=
  ((publishedPlots s.objectsManager).map TCanvas.fName).Nodup ∧
  (∀ c ∈ publishedPlots s.objectsManager,
    s.mPlots c.fName = some { canvas := c, deleted := false } ∧
    c.fName ∈ s.mConfig.plots.map Plot.name) ∧
  (∀ n slot, s.mPlots n = some slot → slot.deleted = false →
    slot.canvas ∈ publishedPlots s.objectsManager ∧ slot.canvas.fName = n)

/-- A name that is not the name of a configured data source is not marked as
an object source, has no column of slice records or of quality in the tree,
and no row holds a value for it. -/
def NoUndeclared (s : State Obj QObj) : Prop :=
  ∀ n, n ∉ s.mConfig.dataSources.map DataSource.name →
    s.mIsMoObject n = false ∧ s.mTrend.branches n ≠ some BranchKind.slices ∧
    s.mTrend.branches n ≠ some BranchKind.quality ∧
    ∀ e ∈ s.mTrend.entries, e.columns n = none

end Task

/-! ## A concrete task -/

/-- A slice record with the fields "val", "sliceLabelX", "errX" and "errY". -/
def demoSlice (title : String) (val label : ℚ) : SliceInfo :=
  { RetrieveValue := fun field =>
      if field = "val" then val
      else if field = "sliceLabelX" then label
      else if field = "errX" then 1
      else if field = "errY" then 2
      else 0
    title := title }

/-- A reductor that replaces the records by those of the object at hand: an
object is the list of the values of its slices, slice `p` carrying the label
`10 * (p + 1)`; a quality verdict is its decoded value. -/
def demoReductor : ReductorTPC (List ℚ) ℚ :=
  { update := fun obj _ _ _ =>
      ((List.range obj.length).zipWith
        (fun p v => demoSlice "slice" v ((10 * (p + 1) : ℕ) : ℚ)) obj, obj.length)
    updateQuality := fun qo _ => { RetrieveValue := fun _ => qo, title := "quality" } }

/-- The collaborators of the concrete task: every reductor class resolves to
`demoReductor`, a default quality record has value 0, no range parses. -/
def demoEnv : Env (List ℚ) ℚ :=
  { create := fun _ _ => some demoReductor
    defaultQuality := { RetrieveValue := fun _ => 0, title := "" }
    stof := fun _ => none }

/-- The plot "src.val:time" with error expression `err`. -/
def demoPlot (varexp err : String) : Plot :=
  { name := "plot", title := "Plot", varexp := varexp, option := "", graphErrors := err,
    graphAxisLabel := "", graphYRange := "", graphXRange := "" }

/-- The object source of the concrete task. -/
def demoSource : DataSource :=
  { type := "repository", path := "TPC", name := "src", reductorName := "R",
    moduleName := "M", axisDivision := [] }

/-- The quality source of the concrete task. -/
def demoQuality : DataSource :=
  { type := "repository-quality", path := "TPC", name := "qual", reductorName := "Q",
    moduleName := "M", axisDivision := [] }

/-- Two sources, an object source "src" and a quality source "qual", and one
plot of mode `time` on the object source. -/
def demoConfig : TrendingTaskConfigTPC :=
  { producePlotsOnUpdate := false
    plots := [demoPlot "src.val:time" "errY:errX"]
    dataSources := [demoSource, demoQuality] }

/-- The activity carried by the triggers of the concrete runs. -/
def demoActivity : Activity :=
  { number := 7, type := 0, periodName := "", passName := "", provenance := "qc",
    validity := (0, 0) }

/-- A database holding the object `obj` and the quality verdict `qo`. -/
def demoFound (obj : List ℚ) (qo : ℚ) : DatabaseInterface (List ℚ) ℚ :=
  { retrieveMO := fun _ _ _ _ => some ⟨some obj⟩, retrieveQO := fun _ _ _ => some qo }

/-- A database holding nothing. -/
def demoAbsent : DatabaseInterface (List ℚ) ℚ :=
  { retrieveMO := fun _ _ _ _ => none, retrieveQO := fun _ _ _ => none }

/-- The concrete task after `initialize`. -/
def demoInit : State (List ℚ) ℚ := (initializeTask demoEnv "trend" demoConfig).state

/-- One trigger, at which the object has three slices. -/
def demoOne : State (List ℚ) ℚ :=
  runUpdates demoEnv demoInit [(⟨1000, demoActivity⟩, demoFound [4, 5, 6] 5)]

/-- Two triggers: the object is found at the first one and absent at the
second one. -/
def demoTwo : State (List ℚ) ℚ :=
  runUpdates demoEnv demoInit
    [(⟨1000, demoActivity⟩, demoFound [4, 5, 6] 5),
     (⟨2000, demoActivity⟩, demoAbsent)]

/-- Three triggers: the object is found at the first and the third one and
absent at the second one. -/
def demoThree : State (List ℚ) ℚ :=
  runUpdates demoEnv demoInit
    [(⟨1000, demoActivity⟩, demoFound [4, 5, 6] 5),
     (⟨2000, demoActivity⟩, demoAbsent),
     (⟨3000, demoActivity⟩, demoFound [7, 8, 9] 2)]

/-- Two triggers: the object is absent at the first one and has two slices
at the second one. -/
def demoLate : State (List ℚ) ℚ :=
  runUpdates demoEnv demoInit
    [(⟨1000, demoActivity⟩, demoAbsent),
     (⟨2000, demoActivity⟩, demoFound [4, 5] 1)]

/-- One trigger, then `finalize`: the canvas of the plot is held and
published. -/
def demoFinal : State (List ℚ) ℚ := (finalize demoEnv demoOne ⟨2000, demoActivity⟩).state

/-- A source of a type that is neither "repository" nor "repository-quality". -/
def demoOther : DataSource :=
  { type := "other", path := "TPC", name := "oth", reductorName := "R",
    moduleName := "M", axisDivision := [] }

/-- The object source of the concrete task and a source of another type. -/
def demoOtherConfig : TrendingTaskConfigTPC :=
  { producePlotsOnUpdate := false
    plots := []
    dataSources := [demoSource, demoOther] }

/-- One trigger, at which the object has a single slice. -/
def demoSingle : State (List ℚ) ℚ :=
  runUpdates demoEnv demoInit [(⟨1000, demoActivity⟩, demoFound [4] 5)]

/-- A plot on the source "nosuch", which `demoBadConfig` does not declare. -/
def demoBadPlot : Plot :=
  { name := "bad", title := "Bad", varexp := "nosuch.val:time", option := "",
    graphErrors := "errY:errX", graphAxisLabel := "", graphYRange := "", graphXRange := "" }

/-- A plot on the declared object source. -/
def demoGoodPlot : Plot :=
  { name := "good", title := "Good", varexp := "src.val:time", option := "",
    graphErrors := "errY:errX", graphAxisLabel := "", graphYRange := "", graphXRange := "" }

/-- The sources of the concrete task, with a plot on an undeclared source
configured before a plot on a declared one. -/
def demoBadConfig : TrendingTaskConfigTPC :=
  { producePlotsOnUpdate := false
    plots := [demoBadPlot, demoGoodPlot]
    dataSources := [demoSource, demoQuality] }

/-- The task configured by `demoBadConfig` after one trigger, at which the
object has three slices. -/
def demoBad : State (List ℚ) ℚ :=
  runUpdates demoEnv (initializeTask demoEnv "trend" demoBadConfig).state
    [(⟨1000, demoActivity⟩, demoFound [4, 5, 6] 5)]

end TrendingTaskTPC

/-! # The CPV histogram that is updated instead of merged -/

namespace CPV

/-- Model of the class `IntensiveTH2F` (PhysicsTask.h:37-69): the `TH2F` part, of
a type `H` that the model does not look into, and the two data members. -/
structure IntensiveTH2F (H : Type) where
  th2f : H
  mTreatMeAs : String
  mCycleNumber : Nat

/-- Model of the constructors of `IntensiveTH2F` (PhysicsTask.h:41-45, 65-66) on
the `TH2F` part `th2f`: the members take their default initialisers. -/
def IntensiveTH2F.new {H : Type} (th2f : H) : IntensiveTH2F H :=
  { th2f := th2f, mTreatMeAs := "TH2F", mCycleNumber := 0 }

/-- Model of `IntensiveTH2F::setCycleNumber` (PhysicsTask.h:54); the argument is a
`uint32_t`. -/
def IntensiveTH2F.setCycleNumber {H : Type} (this : IntensiveTH2F H) (cycleNumber : Nat) :
    IntensiveTH2F H :=
  { this with mCycleNumber := cycleNumber % 2 ^ 32 }

/-- Model of `IntensiveTH2F::merge` (PhysicsTask.h:56-62). The argument is the result
of `dynamic_cast<IntensiveTH2F*>(other)`: `none` when the incoming object is
not an `IntensiveTH2F`, in which case the null pointer is dereferenced (here
`none`). The copy assignment copies the `TH2F` part and both members. -/
def IntensiveTH2F.merge {H : Type} (this : IntensiveTH2F H) (other : Option (IntensiveTH2F H)) :
    Option (IntensiveTH2F H) :=
  match other with
  | none => none
  | some incoming =>
    if this.mCycleNumber < incoming.mCycleNumber then some incoming else some this

/-- The histogram `h` after the incoming histograms `incoming` have been
merged into it one after the other, in the order of the list. -/
def mergeAll {H : Type} (h : IntensiveTH2F H) (incoming : List (IntensiveTH2F H)) :
    Option (IntensiveTH2F H) :=
  incoming.foldl (fun acc x => acc.bind (fun this => this.merge (some x))) (some h)

/-- Two histograms with the cycle numbers 3 and 5 and one with the default
cycle number, over a `TH2F` part that is a list of bin contents. -/
def demoOld : IntensiveTH2F (List Nat) :=
  (IntensiveTH2F.new [1, 1]).setCycleNumber 3

/-- The second concrete histogram. -/
def demoNew : IntensiveTH2F (List Nat) :=
  (IntensiveTH2F.new [2, 7]).setCycleNumber 5

/-- The third concrete histogram. -/
def demoFresh : IntensiveTH2F (List Nat) := IntensiveTH2F.new [0, 0]

end CPV

/-! # The check of the pads of the TPC -/

namespace CheckOfPads

open TrendingTaskTPC (npos find substr sizeSub)

/-- Modelled from the spec: the "quality level", a "discretized verdict in
{none, good, medium, bad}", under the names the source gives to the four
constants of the framework class `Quality`. -/
inductive Quality
  | Null
  | Good
  | Medium
  | Bad
  deriving DecidableEq, Repr

/-- The arithmetic of `float` and `double`, which the model takes as given:
the value of a decimal literal `m * 10^(-e)`, the conversion of an `int`, the
operations and the comparisons (`isZero x` is `x == 0`). Conversions between
`float` and `double` are not modelled. -/
structure Arith (F : Type) where
  lit : Nat → Nat → F
  ofInt : Int → F
  add : F → F → F
  sub : F → F → F
  mul : F → F → F
  div : F → F → F
  pow : F → Nat → F
  sqrt : F → F
  fabs : F → F
  lt : F → F → Bool
  ge : F → F → Bool
  gt : F → F → Bool
  isZero : F → Bool

/-- The collaborators of `CheckOfPads`: the arithmetic, `std::atof`, the string
that the assignment of a `double` to a `std::string` stores, and
`Quality::isWorseThan` of the framework. -/
structure Env (F : Type) where
  arith : Arith F
  atof : String → F
  assignDouble : F → String
  isWorseThan : Quality → Quality → Bool

/-- Model of the `TH2F` drawn in a pad: name, title, numbers of bins and
`GetBinContent`. -/
structure TH2F (F : Type) where
  fName : String
  fTitle : String
  nbinsX : Nat
  nbinsY : Nat
  content : Nat → Nat → F

/-- Model of a `TPad` of the canvas: its name and its list of primitives. -/
structure TPad (F : Type) where
  fName : String
  primitives : List (TH2F F)

/-- Model of the `TCanvas` of a monitor object: its list of primitives, the pads. -/
structure TCanvas (F : Type) where
  primitives : List (TPad F)

/-- Model of `GetListOfPrimitives()->FindObject(name)` on a canvas. -/
def TCanvas.FindObject {F : Type} (c : TCanvas F) (name : String) : Option (TPad F) :=
  c.primitives.find? (fun p => p.fName = name)

/-- Model of `GetListOfPrimitives()->FindObject(name)` on a pad. -/
def TPad.FindObject {F : Type} (p : TPad F) (name : String) : Option (TH2F F) :=
  p.primitives.find? (fun h => h.fName = name)

/-- Model of the framework's `MonitorObject`: `getName()` and `getObject()` cast to a
canvas (`none` for a null pointer). -/
structure MonitorObject (F : Type) where
  name : String
  object : Option (TCanvas F)

/-- The data members that CheckOfPads.cxx reads and writes (the header that
declares them is not among the sources), and the messages passed to `ILOG`. -/
structure State (F : Type) where
  mCustomParameters : String → Option String
  mCheckChoice : String
  mFracEmptyPadsMedium : F
  mFracEmptyPadsBad : F
  mExpectedValue : F
  mExpectedValueMediumSigmas : F
  mExpectedValueBadSigmas : F
  mMeanMediumSigmas : F
  mMeanBadSigmas : F
  mErrorHandling : String
  mMOsToCheck2D : List String
  mSectorsName : List String
  mSectorsQuality : List Quality
  mSectorsQuality_EV : List Quality
  mSectorsQuality_Mean : List Quality
  mSectorsQuality_Empty : List Quality
  mPadMeans : List F
  mPadStdev : List F
  mEmptyPadsFracs : List F
  mTotalMean : F
  mTotalStdev : F
  log : List String

/-- Model of `ILOG(..) << message << ENDM`. -/
def State.ilog {F : Type} (s : State F) (message : String) : State F :=
  { s with log := s.log ++ [message] }

/-- The loop `while (std::getline(ss, token, ','))` (CheckOfPads.cxx:136-140) on
the characters left in the stream; `token` holds the characters of the token
being read, if one is being read. A call of `getline` that meets the end of
the stream before any character fails and ends the loop. -/
def getlineFrom : List Char → Option (List Char) → List String
  | [], none => []
  | [], some token => [⟨token⟩]
  | c :: rest, token =>
    if c = ',' then ⟨token.getD []⟩ :: getlineFrom rest none
    else getlineFrom rest (some (token.getD [] ++ [c]))

/-- The tokens read from `text` by the loop over `std::getline`. -/
def getlineTokens (text : String) : List String := getlineFrom text.data none

/-- The pattern by which `CheckOfPads::configure` loads a number: when the custom
parameter `key` is given the member takes `std::atof` of its value, otherwise
it takes `fallback` and `message` is logged (CheckOfPads.cxx:46-51, 52-57,
85-91, 93-98, 100-105, 110-115, 117-122). -/
def loadParam {F : Type} (env : Env F) (key : String) (set : State F → F → State F)
    (fallback : F) (message : String) (s : State F) : State F :=
  match s.mCustomParameters key with
  | some v => set s (env.atof v)
  | none => (set s fallback).ilog message

/-- The part of `CheckOfPads::configure` that reads "CheckChoice"
(CheckOfPads.cxx:40-82). -/
def configureChoice {F : Type} (env : Env F) (s : State F) : State F :=
  match s.mCustomParameters "CheckChoice" with
  | some CheckChoiceString =>
    let s1 :=
      if find CheckChoiceString "EmptyPads" ≠ npos then
        loadParam env "FracEmptyPadsBad" (fun a v => { a with mFracEmptyPadsBad := v })
          (env.arith.lit 3 1)
          "Chosen check requires FracEmptyPadsBad which is not given. Setting to default 0.3."
          (loadParam env "FracEmptyPadsMedium"
            (fun a v => { a with mFracEmptyPadsMedium := v }) (env.arith.lit 1 1)
            "Chosen check requires FracEmptyPadsMedium which is not given. Setting to default 0.3."
            { s with mCheckChoice := "EmptyPads" })
      else if find CheckChoiceString "ExpectedValue" ≠ npos then
        { s with mCheckChoice := "ExpectedValue" }
      else s
    let s2 :=
      if find CheckChoiceString "Mean" ≠ npos then
        if s1.mCheckChoice = "ExpectedValue" then { s1 with mCheckChoice := "Both" }
        else { s1 with mCheckChoice := "Mean" }
      else s1
    if s2.mCheckChoice = "NULL" then
      ({ s2 with mCheckChoice := "Both" }).ilog
        "This Check requires a CheckChoice. The given value is wrong or not readable."
    else s2
  | none =>
    ({ s with mCheckChoice := "Both" }).ilog
      "This Check requires a CheckChoice, but no parameter was given."

/-- The part of `CheckOfPads::configure` that loads the parameters of the
comparison with the expected value (CheckOfPads.cxx:83-106). -/
def configureExpectedValue {F : Type} (env : Env F) (s : State F) : State F :=
  if s.mCheckChoice = "ExpectedValue" ∨ s.mCheckChoice = "Both" then
    loadParam env "ExpectedValueSigmaBad" (fun a v => { a with mExpectedValueBadSigmas := v })
      (env.arith.lit 6 0)
      "Chosen check requires ExpectedValueSigmaBad which is not given. Setting to default 6 sigma ."
      (loadParam env "ExpectedValueSigmaMedium"
        (fun a v => { a with mExpectedValueMediumSigmas := v }) (env.arith.lit 3 0)
        "Chosen check requires ExpectedValueSigmaMedium which is not given. Setting to default 3 sigma ."
        (loadParam env "ExpectedValue" (fun a v => { a with mExpectedValue := v })
          (env.arith.lit 10 1)
          "Chosen check requires ExpectedValue which is not given. Setting to default 1 ."
          s))
  else s

/-- The part of `CheckOfPads::configure` that loads the parameters of the
comparison with the global mean (CheckOfPads.cxx:107-123). -/
def configureMean {F : Type} (env : Env F) (s : State F) : State F :=
  if s.mCheckChoice = "Mean" ∨ s.mCheckChoice = "Both" then
    loadParam env "MeanSigmaBad" (fun a v => { a with mMeanBadSigmas := v })
      (env.arith.ofInt 6)
      "Chosen check requires MeanSigmaBad which is not given. Setting to default 6 sigma ."
      (loadParam env "MeanSigmaMedium" (fun a v => { a with mMeanMediumSigmas := v })
        (env.arith.ofInt 3)
        "Chosen check requires MeanSigmaMedium which is not given. Setting to default 3 sigma ."
        s)
  else s

/-- The part of `CheckOfPads::configure` that reads "ErrorHandling"
(CheckOfPads.cxx:125-132). -/
def configureErrorHandling {F : Type} (env : Env F) (s : State F) : State F :=
  match s.mCustomParameters "ErrorHandling" with
  | some v => { s with mErrorHandling := env.assignDouble (env.atof v) }
  | none =>
    ({ s with mErrorHandling := "StandardDeviation" }).ilog
      ("This Check (" ++ s.mCheckChoice ++
        ") requires ErrorHandling. StandardDeviation is set as default.")

/-- The part of `CheckOfPads::configure` that reads the names of the objects to
check (CheckOfPads.cxx:134-141). -/
def configureNames {F : Type} (s : State F) : State F :=
  match s.mCustomParameters "MOsNames2D" with
  | some temp => { s with mMOsToCheck2D := s.mMOsToCheck2D ++ getlineTokens temp }
  | none => s

/-- Model of `CheckOfPads::configure` (CheckOfPads.cxx:37-142). The three long
messages (lines 77, 81 and 131) are kept up to their first sentence or
without their list of options. -/
def configure {F : Type} (env : Env F) (s : State F) : State F :=
  configureNames (configureErrorHandling env
    (configureMean env (configureExpectedValue env (configureChoice env s))))

/-- The local variables `result_Empty`, `result_EV`, `result_Mean` and
`result_Global` of `CheckOfPads::check` (CheckOfPads.cxx:148-151). -/
structure Results where
  result_Empty : Quality
  result_EV : Quality
  result_Mean : Quality
  result_Global : Quality
  deriving DecidableEq, Repr

/-- How a piece of `CheckOfPads::check` ends: it goes on with the next statement,
it executes a `return`, or it ends by an exception or an invalid access. -/
inductive Flow (σ : Type)
  | next (s : σ)
  | ret (q : Quality) (s : σ)
  | abort

/-- A loop whose body may return or abort. -/
def forFlow {σ α : Type} (f : σ → α → Flow σ) : List α → σ → Flow σ
  | [], s => Flow.next s
  | x :: xs, s =>
    match f s x with
    | Flow.next s1 => forFlow f xs s1
    | Flow.ret q s1 => Flow.ret q s1
    | Flow.abort => Flow.abort

/-- The bins visited by the two loops over `xBin` and `yBin`
(CheckOfPads.cxx:223-224), in the order they are visited. -/
def bins {F : Type} (h : TH2F F) : List (Nat × Nat) :=
  (List.range h.nbinsX).flatMap fun x => (List.range h.nbinsY).map fun y => (x + 1, y + 1)

/-- First run over the bins (CheckOfPads.cxx:220-239, `RunNo == 1`): `PadSum` and
`PadsCount`. -/
def padSum {F : Type} (A : Arith F) (h : TH2F F) : F × Int :=
  (bins h).foldl
    (fun acc b =>
      let Binvalue := h.content b.1 b.2
      if A.isZero Binvalue then acc else (A.add acc.1 Binvalue, acc.2 + 1))
    (A.lit 0 0, 0)

/-- Second run over the bins (CheckOfPads.cxx:220-239, `RunNo == 2`): the sum of
the squared deviations from `PadMean`. -/
def padDeviation {F : Type} (A : Arith F) (h : TH2F F) (PadMean : F) : F :=
  (bins h).foldl
    (fun acc b =>
      let Binvalue := h.content b.1 b.2
      if A.isZero Binvalue then acc else A.add acc (A.pow (A.sub Binvalue PadMean) 2))
    (A.lit 0 0)

/-- The decimal digits of `n` on at least two places (`:02d` of `fmt::format`). -/
def twoDigits (n : Nat) : String :=
  if n < 10 then "0" ++ toString n else toString n

/-- Body of the loop over the 72 pads of `CheckOfPads::check`
(CheckOfPads.cxx:174-247). -/
def checkPad {F : Type} (env : Env F) (moName histSubName : String) (canv : TCanvas F)
    (s : State F) (tpads : Nat) : Flow (State F) :=
  let A := env.arith
  let padName := moName ++ "_" ++ toString tpads
  let histName := "h_" ++ histSubName ++ "_ROC_" ++ twoDigits (tpads - 1)
  let missing : Flow (State F) :=
    Flow.next { s with
      mSectorsName := s.mSectorsName ++ ["notitle"],
      mSectorsQuality_EV := s.mSectorsQuality_EV ++ [Quality.Null] }
  match canv.FindObject padName with
  | none => missing
  | some pad =>
    match pad.FindObject histName with
    | none => missing
    | some h =>
      let titleh := h.fTitle
      let s1 := { s with mSectorsName := s.mSectorsName ++ [titleh] }
      let stats (totalPads : F) : Flow (State F) :=
        let run1 := padSum A h
        let PadsCount := run1.2
        let PadMean := A.div run1.1 (A.ofInt PadsCount)
        let PadStdev := A.sqrt (A.div (padDeviation A h PadMean) (A.ofInt (PadsCount - 1)))
        Flow.next { s1 with
          mEmptyPadsFracs := s1.mEmptyPadsFracs ++
            [A.sub (A.lit 1 0) (A.div (A.ofInt PadsCount) totalPads)],
          mPadMeans := s1.mPadMeans ++ [PadMean],
          mPadStdev := s1.mPadStdev ++ [PadStdev] }
      if find titleh "IROC" ≠ npos then stats (A.lit 5280 0)
      else if find titleh "OROC" ≠ npos then stats (A.lit 9280 0)
      else Flow.ret Quality.Null s1

/-- The loop that accumulates `mTotalMean` and `SumOfWeights`
(CheckOfPads.cxx:248-253) over the indices `it`; `operator[]` beyond the end of
a vector is an invalid access. -/
def weightsLoop {F : Type} (A : Arith F) (means stdevs : List F) :
    List Nat → F × F → Option (F × F)
  | [], acc => some acc
  | it :: its, acc =>
    match means[it]?, stdevs[it]? with
    | some mean, some stdev =>
      weightsLoop A means stdevs its
        (A.add acc.1 (A.div mean stdev), A.add acc.2 (A.div (A.ofInt 1) stdev))
    | _, _ => none

/-- The quality of a pad from the fraction of its empty pads
(CheckOfPads.cxx:260-269). -/
def emptyStep {F : Type} (env : Env F) (p : Results × State F) (it : Nat) :
    Option (Results × State F) :=
  let A := env.arith
  let s := p.2
  if s.mCheckChoice = "EmptyPads" then
    match s.mEmptyPadsFracs[it]? with
    | none => none
    | some frac =>
      let q :=
        if A.lt frac s.mFracEmptyPadsMedium then Quality.Good
        else if A.lt frac s.mFracEmptyPadsBad then Quality.Medium
        else Quality.Bad
      some ({ p.1 with result_Empty := q },
        { s with mSectorsQuality_Empty := s.mSectorsQuality_Empty ++ [q] })
  else some p

/-- The quality of a pad from the distance of its mean to the value
`reference`, in units of its standard deviation (CheckOfPads.cxx:273-279 and
284-290). -/
def sigmaQuality {F : Type} (A : Arith F) (mean stdev reference medium bad : F) : Quality :=
  let d := A.fabs (A.sub mean reference)
  if A.lt d (A.mul stdev medium) then Quality.Good
  else if A.ge d (A.mul stdev medium) && A.lt d (A.mul stdev bad) then Quality.Medium
  else Quality.Bad

/-- The comparison of a pad with the expected value (CheckOfPads.cxx:271-281). -/
def expectedStep {F : Type} (env : Env F) (p : Results × State F) (it : Nat) :
    Option (Results × State F) :=
  let s := p.2
  if s.mCheckChoice = "ExpectedValue" ∨ s.mCheckChoice = "Both" then
    match s.mPadMeans[it]?, s.mPadStdev[it]? with
    | some mean, some stdev =>
      let q := sigmaQuality env.arith mean stdev s.mExpectedValue
        s.mExpectedValueMediumSigmas s.mExpectedValueBadSigmas
      some ({ p.1 with result_EV := q },
        { s with mSectorsQuality_EV := s.mSectorsQuality_EV ++ [q] })
    | _, _ => none
  else some p

/-- The comparison of a pad with the global mean (CheckOfPads.cxx:282-292). -/
def meanStep {F : Type} (env : Env F) (p : Results × State F) (it : Nat) :
    Option (Results × State F) :=
  let s := p.2
  if s.mCheckChoice = "Mean" ∨ s.mCheckChoice = "Both" then
    match s.mPadMeans[it]?, s.mPadStdev[it]? with
    | some mean, some stdev =>
      let q := sigmaQuality env.arith mean stdev s.mTotalMean
        s.mMeanMediumSigmas s.mMeanBadSigmas
      some ({ p.1 with result_Mean := q },
        { s with mSectorsQuality_Mean := s.mSectorsQuality_Mean ++ [q] })
    | _, _ => none
  else some p

/-- The end of the body of the loop over the pads (CheckOfPads.cxx:294-318): the
global quality under the choice "Both", and the quality recorded for the pad. -/
def globalStep {F : Type} (env : Env F) (p : Results × State F) : Results × State F :=
  let A := env.arith
  let r := p.1
  let s := p.2
  if s.mCheckChoice = "Both" then
    let d := A.fabs (A.sub s.mTotalMean s.mExpectedValue)
    let g :=
      if A.lt d (A.mul s.mTotalStdev s.mExpectedValueMediumSigmas) then Quality.Good
      else if A.gt d (A.mul s.mTotalStdev s.mExpectedValueBadSigmas) then Quality.Bad
      else Quality.Medium
    let q := if env.isWorseThan r.result_Mean r.result_EV then r.result_Mean else r.result_EV
    ({ r with result_Global := g }, { s with mSectorsQuality := s.mSectorsQuality ++ [q] })
  else if s.mCheckChoice = "Mean" then
    (r, { s with mSectorsQuality := s.mSectorsQuality ++ [r.result_Mean] })
  else if s.mCheckChoice = "ExpectedValue" then
    (r, { s with mSectorsQuality := s.mSectorsQuality ++ [r.result_EV] })
  else if s.mCheckChoice = "EmptyPads" then
    (r, { s with mSectorsQuality := s.mSectorsQuality ++ [r.result_Empty] })
  else
    (r, (s.ilog ("Nosjnskdncksdnuality object found! Check Choice was: " ++ s.mCheckChoice)).ilog
      ("No Quality object found! Check Choice was: " ++ s.mCheckChoice))

/-- Body of the loop that calculates the qualities (CheckOfPads.cxx:258-319). -/
def qualityStep {F : Type} (env : Env F) (p : Results × State F) (it : Nat) :
    Option (Results × State F) :=
  match emptyStep env p it with
  | none => none
  | some p1 =>
    match expectedStep env p1 it with
    | none => none
    | some p2 =>
      match meanStep env p2 it with
      | none => none
      | some p3 => some (globalStep env p3)

/-- The loop that calculates the qualities (CheckOfPads.cxx:258-319). -/
def qualityLoop {F : Type} (env : Env F) :
    List Nat → Results × State F → Option (Results × State F)
  | [], p => some p
  | it :: its, p =>
    match qualityStep env p it with
    | none => none
    | some p1 => qualityLoop env its p1

/-- Body of the loop over the monitor objects of `CheckOfPads::check`
(CheckOfPads.cxx:154-322). -/
def checkObject {F : Type} (env : Env F) (p : Results × State F)
    (moObj : String × Option (MonitorObject F)) : Flow (Results × State F) :=
  let A := env.arith
  match moObj.2 with
  | none => Flow.next p
  | some mo =>
    let moName := mo.name
    if moName ∈ p.2.mMOsToCheck2D then
      let posEnd := find moName "_2D"
      match substr moName 7 (sizeSub posEnd 7) with
      | none => Flow.abort
      | some histSubName =>
        let r1 := { p.1 with result_EV := Quality.Good, result_Mean := Quality.Good }
        match mo.object with
        | none => Flow.next (r1, p.2)
        | some canv =>
          let s1 := { p.2 with mTotalMean := A.lit 0 0 }
          match forFlow (checkPad env moName histSubName canv)
              ((List.range 72).map (fun i => i + 1)) s1 with
          | Flow.abort => Flow.abort
          | Flow.ret q s2 => Flow.ret q (r1, s2)
          | Flow.next s2 =>
            match weightsLoop A s2.mPadMeans s2.mPadStdev (List.range s2.mPadMeans.length)
                (s2.mTotalMean, A.lit 0 0) with
            | none => Flow.abort
            | some w =>
              let SumOfWeights := w.2
              let s3 := { s2 with
                mTotalStdev := A.sqrt (A.div (A.ofInt 1) SumOfWeights),
                mTotalMean := A.div w.1 SumOfWeights }
              match qualityLoop env (List.range s3.mPadMeans.length) (r1, s3) with
              | none => Flow.abort
              | some p1 => Flow.next p1
    else Flow.next p

/-- Model of `CheckOfPads::check` (CheckOfPads.cxx:146-324) on the monitor objects
`moMap`, in the order of the map: the quality returned and the members after
the call, or `none` when the call ends by an exception or an invalid access.
What is written to `std::cout` is not modelled. -/
def check {F : Type} (env : Env F) (s : State F)
    (moMap : List (String × Option (MonitorObject F))) : Option (Quality × State F) :=
  match forFlow (checkObject env) moMap
      (⟨Quality.Null, Quality.Null, Quality.Null, Quality.Null⟩, s) with
  | Flow.next p => some (p.1.result_Global, p.2)
  | Flow.ret q p => some (q, p.2)
  | Flow.abort => none

/-- Model of `std::find(begin, end, value)` followed by `std::distance(begin, it)`:
the index of the first element equal to `value`. -/
def findIndex (names : List String) (value : String) : Option Nat :=
  if value ∈ names then some (names.indexOf value) else none

/-- Body of the loop over the pads of `CheckOfPads::beautify`
(CheckOfPads.cxx:343-401). Of the text drawn on a pad the model keeps the
name of the pad, the index found and the quality announced; reading a vector
beyond its end is an invalid access. -/
def beautifyPad {F : Type} (moName histNameS : String) (tcanv : TCanvas F) (s : State F)
    (drawn : List (String × Nat × Quality)) (tpads : Nat) :
    Option (List (String × Nat × Quality)) :=
  let padName := moName ++ "_" ++ toString tpads
  match tcanv.FindObject padName with
  | none => some drawn
  | some pad =>
    let histName := histNameS ++ "_" ++ twoDigits (tpads - 1)
    match pad.FindObject histName with
    | none => some drawn
    | some h =>
      let titleh := h.fTitle
      match findIndex s.mSectorsName titleh with
      | none => some drawn
      | some index =>
        match s.mSectorsQuality[index]? with
        | none => none
        | some qualitySpecial =>
          let readsMeans :=
            s.mCheckChoice = "Both" ∨ s.mCheckChoice = "Mean" ∨ s.mCheckChoice = "ExpectedValue"
          if readsMeans ∧ s.mPadMeans[index]?.isNone then none
          else if s.mCheckChoice = "EmptyPads" ∧ s.mEmptyPadsFracs[index]?.isNone then none
          else some (drawn ++ [(padName, index, qualitySpecial)])

/-- The loop over the pads of `CheckOfPads::beautify`. -/
def beautifyLoop {F : Type} (moName histNameS : String) (tcanv : TCanvas F) (s : State F) :
    List Nat → List (String × Nat × Quality) → Option (List (String × Nat × Quality))
  | [], drawn => some drawn
  | tpads :: rest, drawn =>
    match beautifyPad moName histNameS tcanv s drawn tpads with
    | none => none
    | some drawn1 => beautifyLoop moName histNameS tcanv s rest drawn1

/-- Model of `CheckOfPads::beautify` (CheckOfPads.cxx:330-407): what is drawn on the
pads and the members after the call, or `none` when the call ends by an
exception or an invalid access. -/
def beautify {F : Type} (s : State F) (mo : MonitorObject F) :
    Option (List (String × Nat × Quality) × State F) :=
  let moName := mo.name
  if moName ∈ s.mMOsToCheck2D then
    match mo.object with
    | none => none
    | some tcanv =>
      let posEnd := find moName "_2D"
      match substr moName 7 (sizeSub posEnd 7) with
      | none => none
      | some histSubName =>
        let histNameS := "h_" ++ histSubName ++ "_ROC"
        match beautifyLoop moName histNameS tcanv s ((List.range 72).map (fun i => i + 1)) [] with
        | none => none
        | some drawn => some (drawn, { s with mSectorsName := [], mSectorsQuality := [] })
  else some ([], s)

/-! ## Predicates on the members of the check -/

/-- What holds when a piece of `check` has ended: `P` of the members when it
goes on, `R` of the quality returned and the members when it returns, and
`aborted` when it ends by an exception or an invalid access. -/
def Flow.Ends {σ : Type} (P : σ → Prop) (R : Quality → σ → Prop) (aborted : Prop) :
    Flow σ → Prop
  | Flow.next s => P s
  | Flow.ret q s => R q s
  | Flow.abort => aborted

/-- The three vectors of the statistics of the pads have the same length. -/
def Aligned {F : Type} (s : State F) : Prop :=
  s.mPadStdev.length = s.mPadMeans.length ∧ s.mEmptyPadsFracs.length = s.mPadMeans.length

/-- What the loop that calculates the qualities leaves alone: the check
choice `c`, the names `l` of the objects to check, the three vectors `M`, `S`
and `E` of the statistics of the pads, and, as long as it is not written, the
global quality `g`. -/
def QualityInv {F : Type} (c : String) (l : List String) (M S E : List F) (g : Quality)
    (p : Results × State F) : Prop :=
  p.2.mCheckChoice = c ∧ p.2.mMOsToCheck2D = l ∧ p.2.mPadMeans = M ∧ p.2.mPadStdev = S ∧
  p.2.mEmptyPadsFracs = E ∧ p.1.result_Global = g

/-! ## A concrete check -/

/-- The members of a `CheckOfPads` on which nothing has been called yet, with
the custom parameters `params`: the vectors are empty, the check choice holds
"NULL" (the value that `configure` tests for at CheckOfPads.cxx:75) and the
numbers are zero. -/
def fresh {F : Type} (env : Env F) (params : String → Option String) : State F :=
  { mCustomParameters := params
    mCheckChoice := "NULL"
    mFracEmptyPadsMedium := env.arith.lit 0 0
    mFracEmptyPadsBad := env.arith.lit 0 0
    mExpectedValue := env.arith.lit 0 0
    mExpectedValueMediumSigmas := env.arith.lit 0 0
    mExpectedValueBadSigmas := env.arith.lit 0 0
    mMeanMediumSigmas := env.arith.lit 0 0
    mMeanBadSigmas := env.arith.lit 0 0
    mErrorHandling := ""
    mMOsToCheck2D := []
    mSectorsName := []
    mSectorsQuality := []
    mSectorsQuality_EV := []
    mSectorsQuality_Mean := []
    mSectorsQuality_Empty := []
    mPadMeans := []
    mPadStdev := []
    mEmptyPadsFracs := []
    mTotalMean := env.arith.lit 0 0
    mTotalStdev := env.arith.lit 0 0
    log := [] }

/-- Custom parameters that give the check choice `choice` and the one object
"c_ROCs_Q_2D" to check. -/
def demoParams (choice : String) : String → Option String := fun key =>
  if key = "CheckChoice" then some choice
  else if key = "MOsNames2D" then some "c_ROCs_Q_2D"
  else none

/-- A histogram of one by two bins with the contents 1 and 2. -/
def demoHist {F : Type} (env : Env F) (name title : String) : TH2F F :=
  { fName := name, fTitle := title, nbinsX := 1, nbinsY := 2,
    content := fun _ y => env.arith.ofInt y }

/-- A canvas on which the pad 1 and the pads 4 to 72 are missing: it holds
the pad 2 with the histogram of the sector "IROC_A01" and the pad 3 with the
histogram of the sector "OROC_A02". -/
def demoCanvas {F : Type} (env : Env F) : TCanvas F :=
  { primitives :=
      [{ fName := "c_ROCs_Q_2D_2", primitives := [demoHist env "h_Q_ROC_01" "IROC_A01"] },
       { fName := "c_ROCs_Q_2D_3", primitives := [demoHist env "h_Q_ROC_02" "OROC_A02"] }] }

/-- The monitor object "c_ROCs_Q_2D" holding `demoCanvas`. -/
def demoObject {F : Type} (env : Env F) : MonitorObject F :=
  { name := "c_ROCs_Q_2D", object := some (demoCanvas env) }

/-- The check configured with the choice `choice`. -/
def demoCheck {F : Type} (env : Env F) (choice : String) : State F :=
  configure env (fresh env (demoParams choice))

/-- A fixed-point arithmetic on thousandths, as a stand-in for `float` in the
concrete checks: a division by zero gives 0, the square root is not taken. -/
def demoArith : Arith Int :=
  { lit := fun m e => (m * 1000 / 10 ^ e : Nat)
    ofInt := fun n => n * 1000
    add := fun a b => a + b
    sub := fun a b => a - b
    mul := fun a b => a * b / 1000
    div := fun a b => a * 1000 / b
    pow := fun a n => a ^ n / 1000 ^ (n - 1)
    sqrt := fun a => a
    fabs := fun a => (a.natAbs : Int)
    lt := fun a b => decide (a < b)
    ge := fun a b => decide (a ≥ b)
    gt := fun a b => decide (a > b)
    isZero := fun a => decide (a = 0) }

/-- The collaborators of the concrete checks. -/
def demoEnv : Env Int :=
  { arith := demoArith
    atof := fun _ => 0
    assignDouble := fun _ => ""
    isWorseThan := fun a b =>
      match a, b with
      | Quality.Null, Quality.Null => false
      | Quality.Null, _ => true
      | Quality.Bad, Quality.Bad => false
      | Quality.Bad, Quality.Null => false
      | Quality.Bad, _ => true
      | Quality.Medium, Quality.Good => true
      | _, _ => false }

end CheckOfPads

namespace TrendingTaskTPC

/-! ## Lemmas on strings -/

theorem length_data (t : String) : t.length = t.data.length := rfl

theorem isPrefixOf_single (c d : Char) (l : List Char) :
    [c].isPrefixOf (d :: l) = (c == d) := by
  simp [List.isPrefixOf]

theorem findFrom_single (c : Char) (l r : List Char) (i : Nat) (h : c ∉ l) :
    findFrom [c] (l ++ c :: r) i = i + l.length := by
  induction l generalizing i with
  | nil => simp [findFrom, isPrefixOf_single]
  | cons d l ih =>
    have hd : c ≠ d := fun e => h (by simp [e])
    have hl : c ∉ l := fun e => h (by simp [e])
    rw [List.cons_append, findFrom, isPrefixOf_single, ih (i + 1) hl]
    simp [hd]; omega

theorem findFrom_absent (c : Char) (l : List Char) (i : Nat) (h : c ∉ l) :
    findFrom [c] l i = npos := by
  induction l generalizing i with
  | nil => simp [findFrom]
  | cons d l ih =>
    have hd : c ≠ d := fun e => h (by simp [e])
    have hl : c ∉ l := fun e => h (by simp [e])
    rw [findFrom, isPrefixOf_single, ih (i + 1) hl]
    simp [hd]

theorem drop_past (a : List Char) (c : Char) (b : List Char) :
    (a ++ c :: b).drop (a.length + 1) = b := by
  have : a ++ c :: b = (a ++ [c]) ++ b := by simp
  rw [this, List.drop_left']
  simp

theorem substr_data (s : String) (pos n : Nat) (h : pos ≤ s.length) :
    substr s pos n = some ⟨(s.data.drop pos).take n⟩ := by
  unfold substr; rw [if_neg (by omega)]

/-! ## The expression resolvers -/

/-- C2: for a source name `s` without '.' and ':', a field name `f` without
':' and any mode `m`, `getTrendVariables` resolves `s.f:m` to source `s`,
field `f` and trend `m` (the expression fits a `size_t` length). -/
theorem getTrendVariables_wellFormed (s f m : String)
    (hs1 : '.' ∉ s.data) (hs2 : ':' ∉ s.data) (hf : ':' ∉ f.data)
    (hlen : (s ++ "." ++ f ++ ":" ++ m).length < 2 ^ 64) :
    getTrendVariables (s ++ "." ++ f ++ ":" ++ m)
      = some { sourceName := s, variableName := f, trend := m } := by
  have hdot : (".":String).data = ['.'] := rfl
  have hcol : (":":String).data = [':'] := rfl
  have hdata : (s ++ "." ++ f ++ ":" ++ m).data = s.data ++ '.' :: (f.data ++ ':' :: m.data) := by
    simp only [String.data_append, hdot, hcol, List.append_assoc, List.cons_append, List.nil_append]
  have hL : (s ++ "." ++ f ++ ":" ++ m).length = s.length + 1 + f.length + 1 + m.length := by
    simp only [length_data, hdata, List.length_append, List.length_cons]; omega
  have hfind1 : find (s ++ "." ++ f ++ ":" ++ m) "." = s.length := by
    unfold find; rw [hdata, hdot]
    have := findFrom_single '.' s.data (f.data ++ ':' :: m.data) 0 hs1
    rw [this]; simp only [length_data]; omega
  have hfind2 : find (s ++ "." ++ f ++ ":" ++ m) ":" = s.length + 1 + f.length := by
    unfold find; rw [hdata, hcol]
    have hmem : ':' ∉ s.data ++ '.' :: f.data := by
      simp only [List.mem_append, List.mem_cons, not_or]
      exact ⟨hs2, by decide, hf⟩
    have := findFrom_single ':' (s.data ++ '.' :: f.data) m.data 0 hmem
    simp only [List.append_assoc, List.cons_append] at this
    rw [this]; simp only [length_data, List.length_append, List.length_cons]; omega
  rw [hL] at hlen
  unfold getTrendVariables
  simp only [hfind1, hfind2]
  have e1 : sizeAdd s.length 1 = s.length + 1 := by unfold sizeAdd; omega
  have e2 : sizeSub (sizeSub (s.length + 1 + f.length) s.length) 1 = f.length := by
    unfold sizeSub; omega
  have e3 : sizeAdd (s.length + 1 + f.length) 1 = s.length + 1 + f.length + 1 := by
    unfold sizeAdd; omega
  rw [e1, e2, e3, substr_data _ _ _ (by omega), substr_data _ _ _ (by omega),
    substr_data _ _ _ (by omega)]
  simp only [hdata, Option.bind_eq_bind, Option.some_bind, Option.pure_def, Option.some.injEq, bind, pure]
  have h1 : List.take s.length (List.drop 0 (s.data ++ '.' :: (f.data ++ ':' :: m.data)))
      = s.data := by
    rw [List.drop_zero, length_data, List.take_left']
    rfl
  have h2 : List.take f.length (List.drop (s.length + 1)
      (s.data ++ '.' :: (f.data ++ ':' :: m.data))) = f.data := by
    rw [length_data s, drop_past, length_data, List.take_left']
    rfl
  have h3 : List.take npos (List.drop (s.length + 1 + f.length + 1)
      (s.data ++ '.' :: (f.data ++ ':' :: m.data))) = m.data := by
    have : s.data ++ '.' :: (f.data ++ ':' :: m.data) = (s.data ++ '.' :: f.data) ++ ':' :: m.data := by
      simp
    rw [this, length_data s, length_data f]
    have hl : s.data.length + 1 + f.data.length + 1 = (s.data ++ '.' :: f.data).length + 1 := by
      simp only [List.length_append, List.length_cons]; omega
    rw [hl, drop_past, List.take_of_length_le]
    unfold npos; rw [length_data m] at hlen; omega
  rw [h1, h2, h3]

/-- C2, at the expression "src.val:time". -/
theorem getTrendVariables_wellFormed_witness :
    getTrendVariables "src.val:time"
      = some { sourceName := "src", variableName := "val", trend := "time" } :=
  getTrendVariables_wellFormed "src" "val" "time" (by decide) (by decide) (by decide)
    (by decide)

/-- C3: for an error expression `y:x` with no ':' in `y`, `getTrendErrors`
yields `errorY = y` (before the separator) and `errorX = x` (after it). -/
theorem getTrendErrors_order (y x : String) (hy : ':' ∉ y.data)
    (hlen : (y ++ ":" ++ x).length < 2 ^ 64) :
    getTrendErrors (y ++ ":" ++ x) = some { errorX := x, errorY := y } := by
  have hcol : (":" : String).data = [':'] := rfl
  have hdata : (y ++ ":" ++ x).data = y.data ++ ':' :: x.data := by
    simp only [String.data_append, hcol, List.append_assoc, List.cons_append, List.nil_append]
  have hL : (y ++ ":" ++ x).length = y.length + 1 + x.length := by
    simp only [length_data, hdata, List.length_append, List.length_cons]; omega
  have hfind : find (y ++ ":" ++ x) ":" = y.length := by
    unfold find; rw [hdata, hcol, findFrom_single ':' y.data x.data 0 hy]
    simp only [length_data]; omega
  rw [hL] at hlen
  unfold getTrendErrors
  simp only [hfind]
  have e1 : sizeAdd y.length 1 = y.length + 1 := by unfold sizeAdd; omega
  rw [e1, substr_data _ _ _ (by omega), substr_data _ _ _ (by omega)]
  simp only [hdata, Option.bind_eq_bind, Option.some_bind, Option.pure_def, Option.some.injEq,
    bind, pure]
  have h1 : List.take npos (List.drop (y.length + 1) (y.data ++ ':' :: x.data)) = x.data := by
    rw [length_data y, drop_past, List.take_of_length_le]
    unfold npos; rw [length_data x] at hlen; omega
  have h2 : List.take y.length (List.drop 0 (y.data ++ ':' :: x.data)) = y.data := by
    rw [List.drop_zero, length_data, List.take_left']
    rfl
  rw [h1, h2]

/-- C3, at the error expression "errY:errX". -/
theorem getTrendErrors_order_witness :
    getTrendErrors "errY:errX" = some { errorX := "errX", errorY := "errY" } :=
  getTrendErrors_order "errY" "errX" (by decide) (by decide)

/-! ## Lemmas on loops and frames -/

section TaskLemmas

variable {Obj QObj : Type}

theorem forEach_invariant {σ α : Type} (P : σ → Prop) (f : σ → α → Step σ)
    (hf : ∀ s x, P s → P (f s x).state) :
    ∀ (xs : List α) (s : σ), P s → P (forEach f xs s).state := by
  intro xs
  induction xs with
  | nil => intro s hs; exact hs
  | cons x xs ih =>
    intro s hs
    unfold forEach Step.andThen
    by_cases hfail : (f s x).failed = true
    · rw [if_pos hfail]; exact hf s x hs
    · rw [if_neg hfail]; exact ih _ (hf s x hs)

theorem forEach_succeeds {σ α : Type} (P : σ → Prop) (f : σ → α → Step σ) (xs : List α)
    (hf : ∀ s x, x ∈ xs → P s → (f s x).failed = false ∧ P (f s x).state) :
    ∀ (s : σ), P s → (forEach f xs s).failed = false ∧ P (forEach f xs s).state := by
  induction xs with
  | nil => intro s hs; exact ⟨rfl, hs⟩
  | cons x xs ih =>
    intro s hs
    obtain ⟨h1, h2⟩ := hf s x (by simp) hs
    unfold forEach Step.andThen
    rw [if_neg (by simp [h1])]
    exact ih (fun s' y hy hs' => hf s' y (by simp [hy]) hs') _ h2

theorem sameFrame_refl (s : State Obj QObj) : SameFrame s s :=
  ⟨rfl, rfl, rfl, rfl, rfl, rfl, rfl, rfl⟩

theorem sameFrame_trans {a b c : State Obj QObj} (h1 : SameFrame a b) (h2 : SameFrame b c) :
    SameFrame a c := by
  obtain ⟨a1, a2, a3, a4, a5, a6, a7, a8⟩ := h1
  obtain ⟨b1, b2, b3, b4, b5, b6, b7, b8⟩ := h2
  exact ⟨b1.trans a1, b2.trans a2, b3.trans a3, b4.trans a4, b5.trans a5, b6.trans a6,
    b7.trans a7, b8.trans a8⟩

/-! ## Lemmas on `trendValues` -/

theorem trendSource_sameFrame (qcdb : DatabaseInterface Obj QObj) (t : Trigger)
    (s : State Obj QObj) (ds : DataSource) : SameFrame s (trendSource qcdb t s ds).state := by
  unfold trendSource
  simp only
  split
  · split
    · split
      · exact ⟨rfl, rfl, rfl, rfl, rfl, rfl, rfl, rfl⟩
      · exact ⟨rfl, rfl, rfl, rfl, rfl, rfl, rfl, rfl⟩
    · exact ⟨rfl, rfl, rfl, rfl, rfl, rfl, rfl, rfl⟩
  · split
    · split
      · split
        · exact ⟨rfl, rfl, rfl, rfl, rfl, rfl, rfl, rfl⟩
        · exact ⟨rfl, rfl, rfl, rfl, rfl, rfl, rfl, rfl⟩
      · exact ⟨rfl, rfl, rfl, rfl, rfl, rfl, rfl, rfl⟩
    · exact ⟨rfl, rfl, rfl, rfl, rfl, rfl, rfl, rfl⟩

theorem trendSource_succeeds (qcdb : DatabaseInterface Obj QObj) (t : Trigger)
    (s : State Obj QObj) (ds : DataSource) (h : ∃ r, s.mReductors ds.name = some r) :
    (trendSource qcdb t s ds).failed = false := by
  obtain ⟨r, hr⟩ := h
  unfold trendSource
  simp only [hr]
  split
  · split <;> rfl
  · split
    · split <;> rfl
    · rfl

theorem trendSource_other (qcdb : DatabaseInterface Obj QObj) (t : Trigger)
    (s : State Obj QObj) (ds : DataSource) (n : String) (hn : n ≠ ds.name) :
    (trendSource qcdb t s ds).state.mSources n = s.mSources n ∧
    (trendSource qcdb t s ds).state.mSourcesQuality n = s.mSourcesQuality n ∧
    (trendSource qcdb t s ds).state.mNumberPads n = s.mNumberPads n ∧
    (trendSource qcdb t s ds).state.mAxisDivision n = s.mAxisDivision n := by
  unfold trendSource
  simp only
  split
  · split
    · split <;> simp [Step.ok, Step.fail, Function.update_noteq hn]
    · simp [Step.ok, Function.update_noteq hn]
  · split
    · split
      · split <;> simp [Step.ok, Step.fail, Function.update_noteq hn]
      · simp [Step.ok, Function.update_noteq hn]
    · simp [Step.ok, Function.update_noteq hn]

theorem trendSource_own (qcdb : DatabaseInterface Obj QObj) (t : Trigger)
    (s s' : State Obj QObj) (ds : DataSource)
    (h1 : s'.mSources ds.name = s.mSources ds.name)
    (h2 : s'.mSourcesQuality ds.name = s.mSourcesQuality ds.name)
    (h3 : s'.mReductors ds.name = s.mReductors ds.name)
    (h4 : s'.mAxisDivision ds.name = s.mAxisDivision ds.name) :
    (trendSource qcdb t s' ds).state.mSources ds.name
      = (trendSource qcdb t s ds).state.mSources ds.name ∧
    (trendSource qcdb t s' ds).state.mSourcesQuality ds.name
      = (trendSource qcdb t s ds).state.mSourcesQuality ds.name ∧
    (trendSource qcdb t s' ds).state.mNumberPads ds.name
      = (trendSource qcdb t s ds).state.mNumberPads ds.name ∧
    (trendSource qcdb t s' ds).state.mAxisDivision ds.name
      = (trendSource qcdb t s ds).state.mAxisDivision ds.name := by
  unfold trendSource
  simp only [h1, h2, h3]
  split
  · split
    · split <;> simp [Step.ok, Step.fail, h1, h2, h4]
    · simp [Step.ok, h1, h2, h4]
  · split
    · split
      · split <;> simp [Step.ok, Step.fail, h1, h2, h4]
      · simp [Step.ok, h1, h2, h4]
    · simp [Step.ok, h1, h2, h4]

theorem forEach_trendSource_notin (qcdb : DatabaseInterface Obj QObj) (t : Trigger) (n : String) :
    ∀ (xs : List DataSource) (s : State Obj QObj), n ∉ xs.map DataSource.name →
      (forEach (trendSource qcdb t) xs s).state.mSources n = s.mSources n ∧
      (forEach (trendSource qcdb t) xs s).state.mSourcesQuality n = s.mSourcesQuality n ∧
      (forEach (trendSource qcdb t) xs s).state.mNumberPads n = s.mNumberPads n ∧
      (forEach (trendSource qcdb t) xs s).state.mAxisDivision n = s.mAxisDivision n := by
  intro xs
  induction xs with
  | nil => intro s _; exact ⟨rfl, rfl, rfl, rfl⟩
  | cons x xs ih =>
    intro s hn
    simp only [List.map_cons, List.mem_cons, not_or] at hn
    obtain ⟨a1, a2, a3, a4⟩ := trendSource_other qcdb t s x n hn.1
    unfold forEach Step.andThen
    by_cases hfail : (trendSource qcdb t s x).failed = true
    · rw [if_pos hfail]; exact ⟨a1, a2, a3, a4⟩
    · rw [if_neg hfail]
      obtain ⟨b1, b2, b3, b4⟩ := ih (trendSource qcdb t s x).state hn.2
      exact ⟨b1.trans a1, b2.trans a2, b3.trans a3, b4.trans a4⟩

theorem forEach_trendSource_sameFrame (qcdb : DatabaseInterface Obj QObj) (t : Trigger)
    (xs : List DataSource) (s : State Obj QObj) :
    SameFrame s (forEach (trendSource qcdb t) xs s).state :=
  forEach_invariant (fun s' => SameFrame s s') (trendSource qcdb t)
    (fun s' x h => sameFrame_trans h (trendSource_sameFrame qcdb t s' x)) xs s (sameFrame_refl s)

theorem forEach_trendSource_succeeds (qcdb : DatabaseInterface Obj QObj) (t : Trigger)
    (xs : List DataSource) (s : State Obj QObj)
    (h : ∀ x ∈ xs, ∃ r, s.mReductors x.name = some r) :
    (forEach (trendSource qcdb t) xs s).failed = false := by
  have := forEach_succeeds (fun s' : State Obj QObj => s'.mReductors = s.mReductors)
    (trendSource qcdb t) xs
    (fun s' x hx hs' => ⟨trendSource_succeeds qcdb t s' x (by rw [hs']; exact h x hx),
      (trendSource_sameFrame qcdb t s' x).2.2.2.2.2.1.trans hs'⟩) s rfl
  exact this.1

/-- After the loop over data sources with distinct names, the per-source
maps hold at the name of each source what its own iteration wrote. -/
theorem forEach_trendSource_at (qcdb : DatabaseInterface Obj QObj) (t : Trigger) :
    ∀ (xs : List DataSource) (s : State Obj QObj),
      (∀ x ∈ xs, ∃ r, s.mReductors x.name = some r) → (xs.map DataSource.name).Nodup →
      ∀ ds ∈ xs,
        (forEach (trendSource qcdb t) xs s).state.mSources ds.name
          = (trendSource qcdb t s ds).state.mSources ds.name ∧
        (forEach (trendSource qcdb t) xs s).state.mSourcesQuality ds.name
          = (trendSource qcdb t s ds).state.mSourcesQuality ds.name ∧
        (forEach (trendSource qcdb t) xs s).state.mNumberPads ds.name
          = (trendSource qcdb t s ds).state.mNumberPads ds.name ∧
        (forEach (trendSource qcdb t) xs s).state.mAxisDivision ds.name
          = (trendSource qcdb t s ds).state.mAxisDivision ds.name := by
  intro xs
  induction xs with
  | nil => intro s _ _ ds hds; simp at hds
  | cons x xs ih =>
    intro s hred hnd ds hds
    simp only [List.map_cons, List.nodup_cons] at hnd
    have hx : (trendSource qcdb t s x).failed = false :=
      trendSource_succeeds qcdb t s x (hred x (by simp))
    have hfr := trendSource_sameFrame qcdb t s x
    have hstep : (forEach (trendSource qcdb t) (x :: xs) s)
        = forEach (trendSource qcdb t) xs (trendSource qcdb t s x).state := by
      conv_lhs => unfold forEach Step.andThen
      rw [if_neg (by simp [hx])]
    rw [hstep]
    rcases List.mem_cons.mp hds with heq | hmem
    · subst heq
      exact forEach_trendSource_notin qcdb t ds.name xs _ hnd.1
    · have hne : ds.name ≠ x.name := by
        intro e
        exact hnd.1 (e ▸ List.mem_map_of_mem DataSource.name hmem)
      have hred' : ∀ y ∈ xs, ∃ r, (trendSource qcdb t s x).state.mReductors y.name = some r := by
        intro y hy
        rw [hfr.2.2.2.2.2.1]
        exact hred y (by simp [hy])
      obtain ⟨a1, a2, a3, a4⟩ := ih _ hred' hnd.2 ds hmem
      obtain ⟨o1, o2, _, o4⟩ := trendSource_other qcdb t s x ds.name hne
      obtain ⟨b1, b2, b3, b4⟩ := trendSource_own qcdb t s (trendSource qcdb t s x).state ds
        o1 o2 (by rw [hfr.2.2.2.2.2.1]) o4
      exact ⟨a1.trans b1, a2.trans b2, a3.trans b3, a4.trans b4⟩

theorem sameData_refl (s : State Obj QObj) : SameData s s :=
  ⟨rfl, rfl, rfl, rfl, rfl, rfl, rfl, rfl, rfl, rfl⟩

theorem sameData_trans {a b c : State Obj QObj} (h1 : SameData a b) (h2 : SameData b c) :
    SameData a c := by
  obtain ⟨a1, a2, a3, a4, a5, a6, a7, a8, a9, a10⟩ := h1
  obtain ⟨b1, b2, b3, b4, b5, b6, b7, b8, b9, b10⟩ := h2
  exact ⟨b1.trans a1, b2.trans a2, b3.trans a3, b4.trans a4, b5.trans a5, b6.trans a6,
    b7.trans a7, b8.trans a8, b9.trans a9, b10.trans a10⟩

theorem generatePlot_sameData (env : Env Obj QObj) (s : State Obj QObj) (plot : Plot) :
    SameData s (generatePlot env s plot).state := by
  unfold generatePlot Step.andThen
  cases hp : s.mPlots plot.name with
  | none =>
    simp only [Step.ok, Bool.false_eq_true, if_false]
    split
    · exact sameData_refl s
    · split
      · exact sameData_refl s
      · split
        · exact sameData_refl s
        · exact ⟨rfl, rfl, rfl, rfl, rfl, rfl, rfl, rfl, rfl, rfl⟩
  | some slot =>
    simp only
    by_cases hd : slot.deleted = true
    · simp only [hd, if_true, Step.fail]
      exact ⟨rfl, rfl, rfl, rfl, rfl, rfl, rfl, rfl, rfl, rfl⟩
    · simp only [hd, Step.ok, Bool.false_eq_true, if_false]
      split
      · exact ⟨rfl, rfl, rfl, rfl, rfl, rfl, rfl, rfl, rfl, rfl⟩
      · split
        · exact ⟨rfl, rfl, rfl, rfl, rfl, rfl, rfl, rfl, rfl, rfl⟩
        · split
          · exact ⟨rfl, rfl, rfl, rfl, rfl, rfl, rfl, rfl, rfl, rfl⟩
          · exact ⟨rfl, rfl, rfl, rfl, rfl, rfl, rfl, rfl, rfl, rfl⟩

theorem generatePlots_sameData (env : Env Obj QObj) (s : State Obj QObj) :
    SameData s (generatePlots env s).state := by
  unfold generatePlots
  split
  · exact sameData_refl s
  · exact forEach_invariant (fun s' => SameData s s') (generatePlot env)
      (fun s' x h => sameData_trans h (generatePlot_sameData env s' x)) _ s (sameData_refl s)


theorem andThen_ok {σ : Type} (r : Step σ) (f : σ → Step σ) (h : r.failed = false) :
    r.andThen f = f r.state := by
  unfold Step.andThen; rw [if_neg (by simp [h])]

theorem andThen_failed {σ : Type} (r : Step σ) (f : σ → Step σ) (h : r.failed = true) :
    r.andThen f = r := by
  unfold Step.andThen; rw [if_pos h]

theorem forEach_establishes {σ α : Type} (Q : α → σ → Prop) (f : σ → α → Step σ)
    (h1 : ∀ s x, (f s x).failed = false → Q x (f s x).state)
    (h2 : ∀ s x y, Q y s → Q y (f s x).state) :
    ∀ (xs : List α) (s : σ), (forEach f xs s).failed = false →
      ∀ x ∈ xs, Q x (forEach f xs s).state := by
  intro xs
  induction xs with
  | nil => intro s _ x hx; simp at hx
  | cons y ys ih =>
    intro s hok x hx
    unfold forEach Step.andThen at hok ⊢
    by_cases hfail : (f s y).failed = true
    · rw [if_pos hfail] at hok; rw [hfail] at hok; exact absurd hok (by simp)
    · rw [if_neg hfail] at hok ⊢
      rcases List.mem_cons.mp hx with heq | hmem
      · subst heq
        exact forEach_invariant (Q x) f (fun s' z hs' => h2 s' z x hs') ys _
          (h1 s x (by simpa using hfail))
      · exact ih _ hok x hmem

/-! ## Lemmas on `initialize` -/

theorem Branch_entries (t : TTree) (name : String) (kind : BranchKind) :
    (t.Branch name kind).entries = t.entries := by
  unfold TTree.Branch; split <;> rfl

theorem initSource_frame (env : Env Obj QObj) (s : State Obj QObj) (source : DataSource) :
    (initSource env s source).state.mConfig = s.mConfig ∧
    (initSource env s source).state.mTrend.entries = s.mTrend.entries := by
  unfold initSource
  simp only
  split
  · exact ⟨rfl, rfl⟩
  · split
    · exact ⟨rfl, Branch_entries _ _ _⟩
    · split
      · exact ⟨rfl, Branch_entries _ _ _⟩
      · exact ⟨rfl, rfl⟩

theorem initSource_reductor (env : Env Obj QObj) (s : State Obj QObj) (source : DataSource)
    (h : (initSource env s source).failed = false) :
    ∃ r, (initSource env s source).state.mReductors source.name = some r := by
  unfold initSource at h ⊢
  simp only at h ⊢
  split
  · rename_i hc; rw [hc] at h; simp [Step.fail] at h
  · rename_i r hc
    exact ⟨r, by simp [Step.ok]⟩

theorem initSource_keeps (env : Env Obj QObj) (s : State Obj QObj) (source : DataSource)
    (n : String) (h : ∃ r, s.mReductors n = some r) :
    ∃ r, (initSource env s source).state.mReductors n = some r := by
  obtain ⟨r, hr⟩ := h
  unfold initSource
  simp only
  split
  · exact ⟨r, hr⟩
  · rename_i r' _
    by_cases hn : n = source.name
    · exact ⟨r', by simp [Step.ok, hn]⟩
    · refine ⟨r, ?_⟩
      simp only [Step.ok, Function.update_noteq hn]
      split
      · exact hr
      · split <;> exact hr

theorem initializeTask_spec (env : Env Obj QObj) (name : String) (config : TrendingTaskConfigTPC)
    (h : (initializeTask env name config).failed = false) :
    (initializeTask env name config).state.mConfig = config ∧
    (initializeTask env name config).state.mTrend.entries = [] ∧
    HasReductors (initializeTask env name config).state := by
  have hinv := forEach_invariant
    (fun s : State Obj QObj => s.mConfig = config ∧ s.mTrend.entries = [])
    (initSource env)
    (fun s x hs => ⟨(initSource_frame env s x).1.trans hs.1,
      (initSource_frame env s x).2.trans hs.2⟩)
    config.dataSources (configured env name config)
    ⟨rfl, by simp [configured, Branch_entries]⟩
  unfold initializeTask at h ⊢
  by_cases hfail : (forEach (initSource env) config.dataSources
      (configured env name config)).failed = true
  · rw [andThen_failed _ _ hfail] at h; rw [hfail] at h; exact absurd h (by simp)
  · rw [andThen_ok _ _ (by simpa using hfail)]
    have hred := forEach_establishes
      (fun (x : DataSource) (s : State Obj QObj) => ∃ r, s.mReductors x.name = some r)
      (initSource env) (fun s x hx => initSource_reductor env s x hx)
      (fun s x y hy => initSource_keeps env s x y.name hy)
      config.dataSources (configured env name config) (by simpa using hfail)
    split
    · refine ⟨hinv.1, hinv.2, ?_⟩
      intro ds hds
      exact hred ds (by rw [← hinv.1]; exact hds)
    · refine ⟨hinv.1, hinv.2, ?_⟩
      intro ds hds
      exact hred ds (by rw [← hinv.1]; exact hds)

/-! ## Lemmas on `update` and `finalize` -/

theorem trendValues_spec (s : State Obj QObj) (t : Trigger) (qcdb : DatabaseInterface Obj QObj)
    (h : HasReductors s) :
    (trendValues s t qcdb).failed = false ∧
    (trendValues s t qcdb).state.mConfig = s.mConfig ∧
    (trendValues s t qcdb).state.mReductors = s.mReductors ∧
    (trendValues s t qcdb).state.mTrend.entries.length = s.mTrend.entries.length + 1 := by
  have hok := forEach_trendSource_succeeds qcdb t s.mConfig.dataSources
    { s with mTime := (t.timestamp / 1000) % 2 ^ 32, mMetaData := ⟨-1⟩ } h
  have hfr := forEach_trendSource_sameFrame qcdb t s.mConfig.dataSources
    { s with mTime := (t.timestamp / 1000) % 2 ^ 32, mMetaData := ⟨-1⟩ }
  unfold trendValues
  rw [andThen_ok _ _ hok]
  refine ⟨rfl, hfr.1, hfr.2.2.2.2.2.1, ?_⟩
  show (_ ++ [_]).length = _
  rw [List.length_append, List.length_singleton, hfr.2.2.2.1]

theorem update_spec (env : Env Obj QObj) (s : State Obj QObj) (t : Trigger)
    (qcdb : DatabaseInterface Obj QObj) (h : HasReductors s) :
    HasReductors (update env s t qcdb).state ∧
    (update env s t qcdb).state.mTrend.entries.length = s.mTrend.entries.length + 1 := by
  obtain ⟨h1, h2, h3, h4⟩ := trendValues_spec s t qcdb h
  have hT : HasReductors (trendValues s t qcdb).state := by
    intro ds hds
    rw [h3]
    exact h ds (by simpa [h2] using hds)
  unfold update
  rw [andThen_ok _ _ h1]
  split
  · have hsd := generatePlots_sameData env (trendValues s t qcdb).state
    refine ⟨?_, by rw [hsd.2.2.2.1]; exact h4⟩
    intro ds hds
    rw [hsd.2.2.2.2.1]
    exact hT ds (by simpa [hsd.1] using hds)
  · exact ⟨hT, h4⟩

theorem finalize_entries (env : Env Obj QObj) (s : State Obj QObj) (t : Trigger) :
    (finalize env s t).state.mTrend = s.mTrend := by
  unfold finalize
  simp only
  split
  · exact (generatePlots_sameData env _).2.2.2.1
  · exact (generatePlots_sameData env _).2.2.2.1

theorem runUpdates_spec (env : Env Obj QObj) :
    ∀ (us : List (Trigger × DatabaseInterface Obj QObj)) (s : State Obj QObj),
      HasReductors s →
      HasReductors (runUpdates env s us) ∧
      (runUpdates env s us).mTrend.entries.length = s.mTrend.entries.length + us.length := by
  intro us
  induction us with
  | nil => intro s h; exact ⟨h, rfl⟩
  | cons u us ih =>
    intro s h
    obtain ⟨h1, h2⟩ := update_spec env s u.1 u.2 h
    obtain ⟨h3, h4⟩ := ih _ h1
    refine ⟨h3, ?_⟩
    show (runUpdates env (update env s u.1 u.2).state us).mTrend.entries.length = _
    rw [h4, h2, List.length_cons]; omega

/-- C1: after `initialize` the tree has no row; after `n` update calls it has
`n` rows, whatever the configuration, the triggers and the objects retrieved;
`finalize` adds none; and each further `trendValues` or update call completes
and adds exactly one row. -/
theorem row_count_eq_update_count (env : Env Obj QObj) (name : String)
    (config : TrendingTaskConfigTPC)
    (hinit : (initializeTask env name config).failed = false)
    (us : List (Trigger × DatabaseInterface Obj QObj)) (t : Trigger)
    (qcdb : DatabaseInterface Obj QObj) :
    (initializeTask env name config).state.mTrend.GetEntries = 0 ∧
    (runUpdates env (initializeTask env name config).state us).mTrend.GetEntries = us.length ∧
    (finalize env (runUpdates env (initializeTask env name config).state us) t).state.mTrend.GetEntries
      = us.length ∧
    (trendValues (runUpdates env (initializeTask env name config).state us) t qcdb).failed
      = false ∧
    (trendValues (runUpdates env (initializeTask env name config).state us) t qcdb).state.mTrend.GetEntries
      = us.length + 1 ∧
    (update env (runUpdates env (initializeTask env name config).state us) t qcdb).state.mTrend.GetEntries
      = us.length + 1 := by
  obtain ⟨_, h0, hred⟩ := initializeTask_spec env name config hinit
  obtain ⟨hr, hlen⟩ := runUpdates_spec env us _ hred
  rw [h0] at hlen
  simp only [List.length_nil, Nat.zero_add] at hlen
  obtain ⟨t1, _, _, t4⟩ := trendValues_spec _ t qcdb hr
  obtain ⟨_, u2⟩ := update_spec env _ t qcdb hr
  unfold TTree.GetEntries
  refine ⟨by rw [h0]; rfl, hlen, ?_, t1, by rw [t4, hlen], by rw [u2, hlen]⟩
  rw [finalize_entries, hlen]

/-- C1, on the concrete task with three triggers, the second of which finds
nothing. -/
theorem row_count_eq_update_count_witness :
    (initializeTask demoEnv "trend" demoConfig).state.mTrend.GetEntries = 0 ∧
    demoThree.mTrend.GetEntries = 3 ∧
    (finalize demoEnv demoThree ⟨4000, demoActivity⟩).state.mTrend.GetEntries = 3 ∧
    (trendValues demoThree ⟨4000, demoActivity⟩ demoAbsent).failed = false ∧
    (trendValues demoThree ⟨4000, demoActivity⟩ demoAbsent).state.mTrend.GetEntries = 3 + 1 ∧
    (update demoEnv demoThree ⟨4000, demoActivity⟩ demoAbsent).state.mTrend.GetEntries = 3 + 1 :=
  row_count_eq_update_count demoEnv "trend" demoConfig (by decide)
    [(⟨1000, demoActivity⟩, demoFound [4, 5, 6] 5),
     (⟨2000, demoActivity⟩, demoAbsent),
     (⟨3000, demoActivity⟩, demoFound [7, 8, 9] 2)] ⟨4000, demoActivity⟩ demoAbsent

/-- After `trendValues` on data sources with distinct names, the per-source
maps hold at the name of each source what its own iteration wrote. -/
theorem trendValues_at (s : State Obj QObj) (t : Trigger) (qcdb : DatabaseInterface Obj QObj)
    (hred : HasReductors s) (hnd : (s.mConfig.dataSources.map DataSource.name).Nodup)
    (ds : DataSource) (hds : ds ∈ s.mConfig.dataSources) :
    (trendValues s t qcdb).state.mSources ds.name
      = (trendSource qcdb t s ds).state.mSources ds.name ∧
    (trendValues s t qcdb).state.mSourcesQuality ds.name
      = (trendSource qcdb t s ds).state.mSourcesQuality ds.name ∧
    (trendValues s t qcdb).state.mNumberPads ds.name
      = (trendSource qcdb t s ds).state.mNumberPads ds.name := by
  have hok := forEach_trendSource_succeeds qcdb t s.mConfig.dataSources
    { s with mTime := (t.timestamp / 1000) % 2 ^ 32, mMetaData := ⟨-1⟩ } hred
  obtain ⟨a1, a2, a3, _⟩ := forEach_trendSource_at qcdb t s.mConfig.dataSources
    { s with mTime := (t.timestamp / 1000) % 2 ^ 32, mMetaData := ⟨-1⟩ } hred hnd ds hds
  obtain ⟨b1, b2, b3, _⟩ := trendSource_own qcdb t s
    { s with mTime := (t.timestamp / 1000) % 2 ^ 32, mMetaData := ⟨-1⟩ } ds rfl rfl rfl rfl
  unfold trendValues
  rw [andThen_ok _ _ hok]
  exact ⟨a1.trans b1, a2.trans b2, a3.trans b3⟩

/-- C10: after `trendValues` the slice count recorded for a configured source
is 0 when its object or quality verdict was not found, 1 when a quality
verdict was found, the count reported by the reductor (called with the
counter reset to 0) when the object was found, and 0 for a source of another
type; it is the same whatever counts the task held before the call. -/
theorem slice_count_after_update (s : State Obj QObj) (t : Trigger)
    (qcdb : DatabaseInterface Obj QObj) (hred : HasReductors s)
    (hnd : (s.mConfig.dataSources.map DataSource.name).Nodup)
    (ds : DataSource) (hds : ds ∈ s.mConfig.dataSources) :
    (ds.type = "repository" →
      ((qcdb.retrieveMO ds.path ds.name t.timestamp t.activity).bind MonitorObject.getObject
          = none → (trendValues s t qcdb).state.mNumberPads ds.name = 0) ∧
      (∀ o, (qcdb.retrieveMO ds.path ds.name t.timestamp t.activity).bind MonitorObject.getObject
          = some o → ∃ r, s.mReductors ds.name = some r ∧
            (trendValues s t qcdb).state.mNumberPads ds.name
              = (r.update o (s.mSources ds.name) ds.axisDivision 0).2)) ∧
    (ds.type = "repository-quality" →
      (qcdb.retrieveQO (ds.path ++ "/" ++ ds.name) t.timestamp t.activity = none →
        (trendValues s t qcdb).state.mNumberPads ds.name = 0) ∧
      (∀ qo, qcdb.retrieveQO (ds.path ++ "/" ++ ds.name) t.timestamp t.activity = some qo →
        (trendValues s t qcdb).state.mNumberPads ds.name = 1)) ∧
    (ds.type ≠ "repository" → ds.type ≠ "repository-quality" →
      (trendValues s t qcdb).state.mNumberPads ds.name = 0) ∧
    (∀ pads : String → Int,
      (trendValues { s with mNumberPads := pads } t qcdb).state.mNumberPads ds.name
        = (trendValues s t qcdb).state.mNumberPads ds.name) := by
  obtain ⟨r, hr⟩ := hred ds hds
  have hat := (trendValues_at s t qcdb hred hnd ds hds).2.2
  refine ⟨?_, ?_, ?_, ?_⟩
  · intro hty
    refine ⟨?_, ?_⟩
    · intro hobj
      rw [hat]; unfold trendSource
      simp [hty, hobj, Step.ok]
    · intro o hobj
      refine ⟨r, hr, ?_⟩
      rw [hat]; unfold trendSource
      simp [hty, hobj, hr, Step.ok]
  · intro hty
    have hne : ds.type ≠ "repository" := by rw [hty]; decide
    refine ⟨?_, ?_⟩
    · intro hqo
      rw [hat]; unfold trendSource
      simp [hty, hqo, Step.ok]
    · intro qo hqo
      rw [hat]; unfold trendSource
      simp [hty, hqo, hr, Step.ok]
  · intro h1 h2
    rw [hat]; unfold trendSource
    simp [h1, h2, Step.ok]
  · intro pads
    have hat' := (trendValues_at { s with mNumberPads := pads } t qcdb hred hnd ds hds).2.2
    rw [hat, hat']
    exact (trendSource_own qcdb t s { s with mNumberPads := pads } ds rfl rfl rfl rfl).2.2.1

/-- The row appended by `trendValues`. -/
theorem trendValues_row (s : State Obj QObj) (t : Trigger) (qcdb : DatabaseInterface Obj QObj)
    (hred : HasReductors s) :
    ∃ row, (trendValues s t qcdb).state.mTrend.entries = s.mTrend.entries ++ [row] ∧
      row.time = (t.timestamp / 1000) % 2 ^ 32 ∧ row.runNumber = -1 ∧
      ∀ n, row.columns n =
        match s.mTrend.branches n with
        | some BranchKind.slices => some (Column.slices ((trendValues s t qcdb).state.mSources n))
        | some BranchKind.quality =>
          some (Column.quality ((trendValues s t qcdb).state.mSourcesQuality n))
        | _ => none := by
  have hok := forEach_trendSource_succeeds qcdb t s.mConfig.dataSources
    { s with mTime := (t.timestamp / 1000) % 2 ^ 32, mMetaData := ⟨-1⟩ } hred
  have hfr := forEach_trendSource_sameFrame qcdb t s.mConfig.dataSources
    { s with mTime := (t.timestamp / 1000) % 2 ^ 32, mMetaData := ⟨-1⟩ }
  unfold trendValues
  rw [andThen_ok _ _ hok]
  refine ⟨currentEntry (forEach (trendSource qcdb t) s.mConfig.dataSources
    { s with mTime := (t.timestamp / 1000) % 2 ^ 32, mMetaData := ⟨-1⟩ }).state, ?_, ?_, ?_, ?_⟩
  · show _ ++ [_] = _
    rw [hfr.2.2.2.1]
  · show State.mTime _ = _
    rw [hfr.2.2.1]
  · show MetaData.runNumber (State.mMetaData _) = _
    rw [hfr.2.1]
  · intro n
    show (match TTree.branches (State.mTrend _) n with
      | some BranchKind.slices => _
      | some BranchKind.quality => _
      | _ => none) = _
    rw [hfr.2.2.2.1]
    rfl

/-- When the object of a repository source is not found, the row appended by
`trendValues` holds for that source the records the task held before the
call. -/
theorem trendValues_absent_row (s : State Obj QObj) (t : Trigger)
    (qcdb : DatabaseInterface Obj QObj) (hred : HasReductors s)
    (hnd : (s.mConfig.dataSources.map DataSource.name).Nodup)
    (ds : DataSource) (hds : ds ∈ s.mConfig.dataSources) (hty : ds.type = "repository")
    (hbr : s.mTrend.branches ds.name = some BranchKind.slices)
    (hobj : (qcdb.retrieveMO ds.path ds.name t.timestamp t.activity).bind MonitorObject.getObject
      = none) :
    ∃ row, (trendValues s t qcdb).state.mTrend.entries = s.mTrend.entries ++ [row] ∧
      row.slices ds.name = some (s.mSources ds.name) := by
  obtain ⟨row, h1, _, _, h4⟩ := trendValues_row s t qcdb hred
  refine ⟨row, h1, ?_⟩
  unfold Entry.slices
  rw [h4 ds.name, hbr]
  simp only
  rw [(trendValues_at s t qcdb hred hnd ds hds).1]
  unfold trendSource
  simp [hty, hobj, Step.ok]

end TaskLemmas

/-- C10, on the concrete task at its first trigger, for the object source. -/
theorem slice_count_after_update_witness :
    (demoSource.type = "repository" →
      ((((demoFound [4, 5, 6] 5).retrieveMO demoSource.path demoSource.name 1000
          demoActivity).bind MonitorObject.getObject = none →
        (trendValues demoInit ⟨1000, demoActivity⟩ (demoFound [4, 5, 6] 5)).state.mNumberPads
          demoSource.name = 0) ∧
      (∀ o, ((demoFound [4, 5, 6] 5).retrieveMO demoSource.path demoSource.name 1000
          demoActivity).bind MonitorObject.getObject = some o →
        ∃ r, demoInit.mReductors demoSource.name = some r ∧
          (trendValues demoInit ⟨1000, demoActivity⟩ (demoFound [4, 5, 6] 5)).state.mNumberPads
            demoSource.name
            = (r.update o (demoInit.mSources demoSource.name) demoSource.axisDivision 0).2))) ∧
    (demoSource.type = "repository-quality" →
      ((demoFound [4, 5, 6] 5).retrieveQO (demoSource.path ++ "/" ++ demoSource.name) 1000
          demoActivity = none →
        (trendValues demoInit ⟨1000, demoActivity⟩ (demoFound [4, 5, 6] 5)).state.mNumberPads
          demoSource.name = 0) ∧
      (∀ qo, (demoFound [4, 5, 6] 5).retrieveQO (demoSource.path ++ "/" ++ demoSource.name) 1000
          demoActivity = some qo →
        (trendValues demoInit ⟨1000, demoActivity⟩ (demoFound [4, 5, 6] 5)).state.mNumberPads
          demoSource.name = 1)) ∧
    (demoSource.type ≠ "repository" → demoSource.type ≠ "repository-quality" →
      (trendValues demoInit ⟨1000, demoActivity⟩ (demoFound [4, 5, 6] 5)).state.mNumberPads
        demoSource.name = 0) ∧
    (∀ pads : String → Int,
      (trendValues { demoInit with mNumberPads := pads } ⟨1000, demoActivity⟩
          (demoFound [4, 5, 6] 5)).state.mNumberPads demoSource.name
        = (trendValues demoInit ⟨1000, demoActivity⟩
            (demoFound [4, 5, 6] 5)).state.mNumberPads demoSource.name) :=
  slice_count_after_update demoInit ⟨1000, demoActivity⟩ (demoFound [4, 5, 6] 5)
    (initializeTask_spec demoEnv "trend" demoConfig (by decide)).2.2 (by decide) demoSource
    (by decide)


/-! ## Lemmas on graphs -/

theorem growTo_of_lt (pts : List Point) (i : Nat) (h : i < pts.length) : growTo pts i = pts := by
  unfold growTo
  have : i + 1 - pts.length = 0 := by omega
  rw [this]; simp

theorem modify_append_cons {α : Type} (f : α → α) (done : List α) (a : α) (rest : List α) :
    List.modify f done.length (done ++ a :: rest) = done ++ f a :: rest := by
  induction done with
  | nil => simp
  | cons d ds ih => simp [ih]

theorem setPoint_setPointError_points (g : TGraphErrors) (done rest : List Point) (p0 : Point)
    (h : g.points = done ++ p0 :: rest) (x y ex ey : ℚ) :
    ((g.SetPoint done.length x y).SetPointError done.length ex ey).points
      = (done ++ [⟨x, y, ex, ey⟩]) ++ rest := by
  have h1 : (g.SetPoint done.length x y).points = done ++ { p0 with x := x, y := y } :: rest := by
    unfold TGraphErrors.SetPoint
    simp only
    rw [growTo_of_lt _ _ (by rw [h]; simp), h, modify_append_cons]
  unfold TGraphErrors.SetPointError
  simp only
  rw [growTo_of_lt _ _ (by rw [h1]; simp), h1, modify_append_cons]
  simp

theorem new_points (n : Nat) :
    (TGraphErrors.new (n : Int)).points = [] ++ List.replicate n ⟨0, 0, 0, 0⟩ := by
  simp [TGraphErrors.new]

theorem mem_zipWith {α β γ : Type} (f : α → β → γ) :
    ∀ (l1 : List α) (l2 : List β) (c : γ), c ∈ List.zipWith f l1 l2 →
      ∃ a b, b ∈ l2 ∧ c = f a b := by
  intro l1
  induction l1 with
  | nil => intro l2 c h; simp at h
  | cons a as ih =>
    intro l2 c h
    cases l2 with
    | nil => simp at h
    | cons b bs =>
      simp only [List.zipWith_cons_cons, List.mem_cons] at h
      rcases h with h | h
      · exact ⟨a, b, by simp, h⟩
      · obtain ⟨a', b', hb, hc⟩ := ih bs c h
        exact ⟨a', b', by simp [hb], hc⟩

theorem coerceQuality_eq (v : ℚ) : coerceQuality v = if 1 ≤ v ∧ v ≤ 3 then v else 0 := by
  unfold coerceQuality
  by_cases h1 : v < 1
  · rw [if_pos (Or.inl h1), if_neg (fun h => absurd h.1 (not_le.mpr h1))]
  · by_cases h3 : v > 3
    · rw [if_pos (Or.inr h3), if_neg (fun h => absurd h.2 (not_le.mpr h3))]
    · rw [if_neg (not_or.mpr ⟨h1, h3⟩), if_pos ⟨not_lt.mp h1, not_lt.mp h3⟩]

theorem coerceQuality_int (n : ℤ) :
    coerceQuality (n : ℚ) = 0 ∨ coerceQuality (n : ℚ) = 1 ∨ coerceQuality (n : ℚ) = 2 ∨
      coerceQuality (n : ℚ) = 3 := by
  rw [coerceQuality_eq]
  by_cases h : (1 : ℚ) ≤ n ∧ (n : ℚ) ≤ 3
  · rw [if_pos h]
    obtain ⟨h1, h3⟩ := h
    have h1' : (1 : ℤ) ≤ n := by exact_mod_cast h1
    have h3' : n ≤ (3 : ℤ) := by exact_mod_cast h3
    have : n = 1 ∨ n = 2 ∨ n = 3 := by omega
    rcases this with e | e | e <;> simp [e]
  · rw [if_neg h]; simp

/-! ## Lemmas on the loops of the plot generation -/

theorem qualityLoop_points (varName typeName : String) :
    ∀ (rows : List Entry) (qs : List SliceInfoQuality) (done zeros : List Point)
      (g : TGraphErrors),
      rows.map (fun e => e.quality varName) = qs.map some →
      g.points = done ++ zeros → zeros.length = rows.length →
      ∃ g', qualityLoop varName typeName rows done.length g = some g' ∧
        g'.fName = g.fName ∧ g'.fTitle = g.fTitle ∧
        g'.points = done ++ List.zipWith
          (fun e q => (⟨(e.time : ℚ), coerceQuality (q.RetrieveValue typeName), 0, 0⟩ : Point))
          rows qs := by
  intro rows
  induction rows with
  | nil =>
    intro qs done zeros g _ hg hz
    have : zeros = [] := List.length_eq_zero.mp (by simpa using hz)
    subst this
    exact ⟨g, rfl, rfl, rfl, by simpa using hg⟩
  | cons e es ih =>
    intro qs done zeros g hq hg hz
    cases qs with
    | nil => simp at hq
    | cons q qs =>
      cases zeros with
      | nil => simp at hz
      | cons z zs =>
        simp only [List.map_cons, List.cons.injEq] at hq
        obtain ⟨hq1, hq2⟩ := hq
        have hstep := setPoint_setPointError_points g done zs z hg (e.time : ℚ)
          (coerceQuality (q.RetrieveValue typeName)) 0 0
        obtain ⟨g', h1, h2, h3, h4⟩ := ih qs _ zs _ hq2 hstep (by simpa using hz)
        refine ⟨g', ?_, h2, h3, ?_⟩
        · rw [qualityLoop, hq1]
          simpa using h1
        · rw [h4]; simp

/-- Reading slice `p` of every row succeeds when every row holds more than
`p` records. -/
theorem exists_records (varName : String) (p k : Nat) (hp : p < k) :
    ∀ (rows : List Entry),
      (∀ e ∈ rows, ∃ v, e.slices varName = some v ∧ k ≤ v.length) →
      ∃ rs : List SliceInfo,
        rows.map (fun e => (e.slices varName).bind (fun v => v[p]?)) = rs.map some := by
  intro rows
  induction rows with
  | nil => intro _; exact ⟨[], rfl⟩
  | cons e es ih =>
    intro h
    obtain ⟨v, hv, hlen⟩ := h e (by simp)
    obtain ⟨rs, hrs⟩ := ih (fun e' he' => h e' (by simp [he']))
    have hpv : p < v.length := by omega
    refine ⟨v[p] :: rs, ?_⟩
    simp only [List.map_cons, hrs, hv, Option.some_bind, List.getElem?_eq_getElem hpv]

/-- The point written by the loops of the time branches for record `r` of
entry `e`. -/
theorem readLoop_points (varName typeName errXName errYName err : String) (p : Nat) :
    ∀ (rows : List Entry) (rs : List SliceInfo) (done zeros : List Point) (g : TGraphErrors),
      rows.map (fun e => (e.slices varName).bind (fun v => v[p]?)) = rs.map some →
      g.points = done ++ zeros → zeros.length = rows.length →
      ∃ g', readLoop varName typeName errXName errYName err p rows done.length g = some g' ∧
        g'.fName = g.fName ∧ g'.fTitle = g.fTitle ∧
        g'.points = done ++ List.zipWith
          (fun e r => (⟨(e.time : ℚ), r.RetrieveValue typeName,
            (pointError err errXName errYName r).1,
            (pointError err errXName errYName r).2⟩ : Point)) rows rs := by
  intro rows
  induction rows with
  | nil =>
    intro rs done zeros g _ hg hz
    have : zeros = [] := List.length_eq_zero.mp (by simpa using hz)
    subst this
    exact ⟨g, rfl, rfl, rfl, by simpa using hg⟩
  | cons e es ih =>
    intro rs done zeros g hq hg hz
    cases rs with
    | nil => simp at hq
    | cons r rs =>
      cases zeros with
      | nil => simp at hz
      | cons z zs =>
        simp only [List.map_cons, List.cons.injEq] at hq
        obtain ⟨hq1, hq2⟩ := hq
        have hstep := setPoint_setPointError_points g done zs z hg (e.time : ℚ)
          (r.RetrieveValue typeName) (pointError err errXName errYName r).1
          (pointError err errXName errYName r).2
        obtain ⟨g', h1, h2, h3, h4⟩ := ih rs _ zs _ hq2 hstep (by simpa using hz)
        refine ⟨g', ?_, h2, h3, ?_⟩
        · cases hs : e.slices varName with
          | none => rw [hs] at hq1; simp at hq1
          | some v =>
            rw [hs] at hq1
            simp only [Option.some_bind] at hq1
            rw [readLoop, hs]
            simp only [hq1]
            simpa using h1
        · rw [h4]; simp

theorem readLoop_none (varName typeName errXName errYName err : String) (p : Nat) (e : Entry)
    (he : (e.slices varName).bind (fun v => v[p]?) = none) :
    ∀ (rows : List Entry) (i : Nat) (g : TGraphErrors), e ∈ rows →
      readLoop varName typeName errXName errYName err p rows i g = none := by
  intro rows
  induction rows with
  | nil => intro i g h; simp at h
  | cons x xs ih =>
    intro i g h
    rw [readLoop]
    cases hs : x.slices varName with
    | none => rfl
    | some v =>
      simp only
      cases hv : v[p]? with
      | none => rfl
      | some r =>
        simp only
        rcases List.mem_cons.mp h with heq | hmem
        · subst heq
          rw [hs] at he
          simp only [Option.some_bind] at he
          rw [he] at hv; exact absurd hv (by simp)
        · exact ih _ _ hmem

theorem lastSlice_of_rows (varName : String) (p k : Nat) (hp : p < k) (rows : List Entry)
    (hne : rows ≠ [])
    (hrows : ∀ e ∈ rows, ∃ v, e.slices varName = some v ∧ k ≤ v.length) :
    ∃ r, lastSlice rows varName p = some r := by
  obtain ⟨v, hv, hlen⟩ := hrows (rows.getLast hne) (List.getLast_mem hne)
  have hpv : p < v.length := by omega
  refine ⟨v[p], ?_⟩
  unfold lastSlice
  rw [List.getLast?_eq_getLast rows hne]
  simp only [hv, List.getElem?_eq_getElem hpv]

/-- The graph built for slice `p` by the branch `time` when every row holds
at least `k > p` records. -/
theorem timeGraph_spec (varName typeName errXName errYName err : String) (p k : Nat)
    (hp : p < k) (rows : List Entry) (hne : rows ≠ [])
    (hrows : ∀ e ∈ rows, ∃ v, e.slices varName = some v ∧ k ≤ v.length) :
    ∃ g, timeGraph rows varName typeName errXName errYName err p = some g ∧
      g.fName = "Graph" ∧ g.points.length = rows.length ∧
      ∀ (i : Nat) (hi : i < rows.length), ∃ v r,
        rows[i].slices varName = some v ∧ v[p]? = some r ∧
        g.points[i]? = some ⟨(rows[i].time : ℚ), r.RetrieveValue typeName,
          (pointError err errXName errYName r).1, (pointError err errXName errYName r).2⟩ := by
  obtain ⟨rs, hq⟩ := exists_records varName p k hp rows hrows
  obtain ⟨g', h1, h2, _, h4⟩ := readLoop_points varName typeName errXName errYName err p rows rs
    [] (List.replicate rows.length ⟨0, 0, 0, 0⟩) (TGraphErrors.new (rows.length : Int)) hq
    (new_points rows.length) (by simp)
  obtain ⟨r, hr⟩ := lastSlice_of_rows varName p k hp rows hne hrows
  have hlen : rs.length = rows.length := by
    have := congrArg List.length hq
    simpa using this.symm
  refine ⟨{ g' with fTitle := r.title }, ?_, h2, ?_, ?_⟩
  · unfold timeGraph
    simp only [List.length_nil] at h1
    rw [h1, hr]
  · simp only [h4, List.nil_append, List.length_zipWith, hlen, Nat.min_self]
  · intro i hi
    obtain ⟨v, hv, _⟩ := hrows rows[i] (List.getElem_mem hi)
    have hi' : i < rs.length := by omega
    have hqi := congrArg (fun l => l[i]?) hq
    simp only [List.getElem?_map, List.getElem?_eq_getElem hi, List.getElem?_eq_getElem hi',
      Option.map_some', hv, Option.some_bind] at hqi
    refine ⟨v, rs[i], hv, Option.some.inj hqi, ?_⟩
    simp only [h4, List.nil_append, List.getElem?_zipWith, List.getElem?_eq_getElem hi,
      List.getElem?_eq_getElem hi']

theorem timeGraph_none (varName typeName errXName errYName err : String) (p : Nat)
    (rows : List Entry) (e : Entry) (he : e ∈ rows)
    (hshort : (e.slices varName).bind (fun v => v[p]?) = none) :
    timeGraph rows varName typeName errXName errYName err p = none := by
  unfold timeGraph
  rw [readLoop_none varName typeName errXName errYName err p e hshort rows _ _ he]

theorem timeBranch_none (rows : List Entry) (varName typeName errXName errYName err : String)
    (plotOrder p : Nat)
    (hnone : timeGraph rows varName typeName errXName errYName err p = none) :
    ∀ (ps : List Nat) (c : TCanvas), p ∈ ps →
      timeBranch rows varName typeName errXName errYName err plotOrder ps c = none := by
  intro ps
  induction ps with
  | nil => intro c h; simp at h
  | cons q qs ih =>
    intro c h
    rw [timeBranch]
    cases hq : timeGraph rows varName typeName errXName errYName err q with
    | none => rfl
    | some g =>
      simp only
      rcases List.mem_cons.mp h with heq | hmem
      · subst heq; rw [hnone] at hq; exact absurd hq (by simp)
      · exact ih _ hmem

theorem attachGraph_pads (c : TCanvas) (err : String) (plotOrder p : Nat) (g : TGraphErrors)
    (q : Nat) :
    (attachGraph c err plotOrder (p + 1) g).pads[q]?
      = (c.pads[q]?).map (fun prims =>
          if p = q ∧ err ≠ "" ∧ plotOrder = 2 then prims ++ [Primitive.graph g] else prims) := by
  unfold attachGraph
  by_cases he : err ≠ ""
  · by_cases ho : plotOrder = 2
    · rw [if_pos he, if_neg (by simpa using ho)]
      unfold saveObjectToPrimitives
      by_cases hlen : 1 ≤ p + 1 ∧ p + 1 ≤ c.pads.length
      · rw [if_pos hlen]
        simp only [Nat.add_sub_cancel, List.getElem?_modify]
        cases c.pads[q]? <;> simp [he, ho]
      · rw [if_neg hlen]
        have hp : c.pads.length ≤ p := by omega
        by_cases hpq : p = q
        · subst hpq
          rw [List.getElem?_eq_none hp]; rfl
        · cases c.pads[q]? <;> simp [hpq]
    · rw [if_pos he, if_pos ho]
      cases c.pads[q]? <;> simp [ho]
  · rw [if_neg he]
    cases c.pads[q]? <;> simp [he]

theorem attachGraph_frame (c : TCanvas) (err : String) (plotOrder padNumber : Nat)
    (g : TGraphErrors) :
    (attachGraph c err plotOrder padNumber g).pads.length = c.pads.length ∧
    (attachGraph c err plotOrder padNumber g).fName = c.fName ∧
    (attachGraph c err plotOrder padNumber g).fTitle = c.fTitle := by
  unfold attachGraph saveObjectToPrimitives
  split
  · split
    · exact ⟨rfl, rfl, rfl⟩
    · split
      · exact ⟨by simp, rfl, rfl⟩
      · exact ⟨rfl, rfl, rfl⟩
  · exact ⟨rfl, rfl, rfl⟩

/-- The canvas left by the loop over the slices of the branch `time` when
every slice of `ps` has its graph. -/
theorem timeBranch_pads (rows : List Entry) (varName typeName errXName errYName err : String)
    (plotOrder : Nat) :
    ∀ (ps : List Nat) (c : TCanvas), ps.Nodup →
      (∀ p ∈ ps, ∃ g, timeGraph rows varName typeName errXName errYName err p = some g) →
      ∃ c', timeBranch rows varName typeName errXName errYName err plotOrder ps c = some c' ∧
        c'.pads.length = c.pads.length ∧ c'.fName = c.fName ∧ c'.fTitle = c.fTitle ∧
        (∀ q, q ∉ ps → c'.pads[q]? = c.pads[q]?) ∧
        (∀ q ∈ ps, ∀ g, timeGraph rows varName typeName errXName errYName err q = some g →
          c'.pads[q]? = (c.pads[q]?).map (fun prims =>
            if err ≠ "" ∧ plotOrder = 2 then prims ++ [Primitive.graph g] else prims)) := by
  intro ps
  induction ps with
  | nil =>
    intro c _ _
    exact ⟨c, rfl, rfl, rfl, rfl, fun _ _ => rfl, fun q hq => absurd hq (by simp)⟩
  | cons p ps ih =>
    intro c hnd hall
    obtain ⟨g, hg⟩ := hall p (by simp)
    simp only [List.nodup_cons] at hnd
    obtain ⟨c', h1, h2, h3, h4, h5, h6⟩ := ih (attachGraph c err plotOrder (p + 1) g) hnd.2
      (fun q hq => hall q (by simp [hq]))
    obtain ⟨f1, f2, f3⟩ := attachGraph_frame c err plotOrder (p + 1) g
    refine ⟨c', ?_, h2.trans f1, h3.trans f2, h4.trans f3, ?_, ?_⟩
    · rw [timeBranch, hg]; exact h1
    · intro q hq
      simp only [List.mem_cons, not_or] at hq
      rw [h5 q hq.2, attachGraph_pads]
      cases c.pads[q]? <;> simp [Ne.symm hq.1]
    · intro q hq g' hg'
      rcases List.mem_cons.mp hq with heq | hmem
      · subst heq
        rw [hg] at hg'
        cases hg'
        rw [h5 q hnd.1, attachGraph_pads]
        cases c.pads[q]? <;> simp
      · have hne : p ≠ q := fun e => hnd.1 (e ▸ hmem)
        rw [h6 q hmem g' hg', attachGraph_pads]
        cases c.pads[q]? <;> simp [hne]

theorem slicesLoop_points (rows : List Entry) (varName typeName errXName errYName err : String) :
    ∀ (ps : List Nat) (rs : List SliceInfo) (done zeros : List Point) (g : TGraphErrors),
      ps.map (fun p => lastSlice rows varName p) = rs.map some →
      g.points = done ++ zeros → zeros.length = ps.length →
      ∃ g', slicesLoop rows varName typeName errXName errYName err ps done.length g = some g' ∧
        g'.fName = g.fName ∧ g'.fTitle = g.fTitle ∧
        g'.points = done ++ rs.map
          (fun r => (⟨r.RetrieveValue "sliceLabelX", r.RetrieveValue typeName,
            (pointError err errXName errYName r).1,
            (pointError err errXName errYName r).2⟩ : Point)) := by
  intro ps
  induction ps with
  | nil =>
    intro rs done zeros g hq hg hz
    have : zeros = [] := List.length_eq_zero.mp (by simpa using hz)
    subst this
    cases rs with
    | nil => exact ⟨g, rfl, rfl, rfl, by simpa using hg⟩
    | cons r rs => simp at hq
  | cons p ps ih =>
    intro rs done zeros g hq hg hz
    cases rs with
    | nil => simp at hq
    | cons r rs =>
      cases zeros with
      | nil => simp at hz
      | cons z zs =>
        simp only [List.map_cons, List.cons.injEq] at hq
        obtain ⟨hq1, hq2⟩ := hq
        have hstep := setPoint_setPointError_points g done zs z hg
          (r.RetrieveValue "sliceLabelX") (r.RetrieveValue typeName)
          (pointError err errXName errYName r).1 (pointError err errXName errYName r).2
        obtain ⟨g', h1, h2, h3, h4⟩ := ih rs _ zs _ hq2 hstep (by simpa using hz)
        refine ⟨g', ?_, h2, h3, ?_⟩
        · rw [slicesLoop, hq1]
          simpa using h1
        · rw [h4]; simp

theorem range_map_getElem {α : Type} (v : List α) :
    ∀ k, k ≤ v.length → (List.range k).map (fun p => v[p]?) = (v.take k).map some := by
  intro k
  induction k with
  | zero => intro _; simp
  | succ k ih =>
    intro hk
    have hk' : k < v.length := by omega
    rw [List.range_succ, List.map_append, ih (by omega), List.take_succ,
      List.getElem?_eq_getElem hk', List.map_append]
    simp [List.getElem?_eq_getElem hk']

theorem lastSlice_concat (earlier : List Entry) (last : Entry) (varName : String)
    (v : List SliceInfo) (hv : last.slices varName = some v) (p : Nat) :
    lastSlice (earlier ++ [last]) varName p = v[p]? := by
  unfold lastSlice
  rw [List.getLast?_concat]
  simp only [hv]

/-- The graph built by the branch `slices` from the last row. -/
theorem slicesGraph_spec (varName typeName errXName errYName err : String) (k : Nat)
    (earlier : List Entry) (last : Entry) (v : List SliceInfo)
    (hv : last.slices varName = some v) (hlen : k ≤ v.length) :
    slicesGraph (earlier ++ [last]) varName typeName errXName errYName err (k : Int)
      = some (TGraphErrors.mk "Graph" "" ((v.take k).map
          (fun r => (⟨r.RetrieveValue "sliceLabelX", r.RetrieveValue typeName,
            (pointError err errXName errYName r).1,
            (pointError err errXName errYName r).2⟩ : Point)))) := by
  have hq : (List.range k).map (fun p => lastSlice (earlier ++ [last]) varName p)
      = (v.take k).map some := by
    rw [← range_map_getElem v k hlen]
    apply List.map_congr_left
    intro p _
    exact lastSlice_concat earlier last varName v hv p
  obtain ⟨g', h1, h2, h3, h4⟩ := slicesLoop_points (earlier ++ [last]) varName typeName errXName
    errYName err (List.range k) (v.take k) [] (List.replicate k ⟨0, 0, 0, 0⟩)
    (TGraphErrors.new (k : Int)) hq (new_points k) (by simp)
  unfold slicesGraph
  simp only [List.length_nil, Int.toNat_ofNat] at h1 ⊢
  rw [h1]
  congr 1
  cases g'
  simp only [TGraphErrors.mk.injEq]
  exact ⟨h2, h3, by simpa using h4⟩

/-! ## The plots of object and quality sources -/

section PlotTheorems

variable {Obj QObj : Type}

/-- C4: the graph built by `drawCanvasQO` has one point per row, whose value
is the decoded quality value `v` of that row when `1 ≤ v ≤ 3` and 0
otherwise, with zero errors; when the decoded values are integers every
plotted value is 0, 1, 2 or 3. The graph is saved to pad 1 when the plot has
order 2. -/
theorem quality_coercion (s : State Obj QObj) (thisCanvas : TCanvas) (var name opt : String)
    (tv : TrendVariables) (qs : List SliceInfoQuality)
    (hvar : getTrendVariables var = some tv) (hne : s.mTrend.entries ≠ [])
    (hq : s.mTrend.entries.map (fun e => e.quality tv.sourceName) = qs.map some) :
    ∃ g, qualityGraph s.mTrend.entries tv.sourceName tv.variableName = some g ∧
      drawCanvasQO s thisCanvas var name opt
        = some (if count var ':' + 1 ≠ 2 then thisCanvas.DivideSquare 1
            else saveObjectToPrimitives (thisCanvas.DivideSquare 1) 1 (Primitive.graph g)) ∧
      g.points = List.zipWith
        (fun e q => (⟨(e.time : ℚ),
          if 1 ≤ q.RetrieveValue tv.variableName ∧ q.RetrieveValue tv.variableName ≤ 3
          then q.RetrieveValue tv.variableName else 0, 0, 0⟩ : Point))
        s.mTrend.entries qs ∧
      ((∀ q ∈ qs, ∃ n : ℤ, q.RetrieveValue tv.variableName = (n : ℚ)) →
        ∀ pt ∈ g.points, pt.y = 0 ∨ pt.y = 1 ∨ pt.y = 2 ∨ pt.y = 3) := by
  obtain ⟨g', h1, _, _, h4⟩ := qualityLoop_points tv.sourceName tv.variableName s.mTrend.entries
    qs [] (List.replicate s.mTrend.entries.length ⟨0, 0, 0, 0⟩)
    (TGraphErrors.new (s.mTrend.entries.length : Int)) hq (new_points _) (by simp)
  have hlast : ∃ q, (s.mTrend.entries.getLast hne).quality tv.sourceName = some q := by
    have hm : (s.mTrend.entries.getLast hne).quality tv.sourceName
        ∈ s.mTrend.entries.map (fun e => e.quality tv.sourceName) :=
      List.mem_map_of_mem (fun e => e.quality tv.sourceName) (List.getLast_mem hne)
    rw [hq] at hm
    obtain ⟨q, _, hqe⟩ := List.mem_map.mp hm
    exact ⟨q, hqe.symm⟩
  obtain ⟨ql, hql⟩ := hlast
  have hg : qualityGraph s.mTrend.entries tv.sourceName tv.variableName
      = some { g' with fTitle := ql.title } := by
    unfold qualityGraph
    simp only [List.length_nil] at h1
    rw [h1, List.getLast?_eq_getLast _ hne]
    simp only [hql]
  have hpts : g'.points = List.zipWith
      (fun e q => (⟨(e.time : ℚ),
        if 1 ≤ q.RetrieveValue tv.variableName ∧ q.RetrieveValue tv.variableName ≤ 3
        then q.RetrieveValue tv.variableName else 0, 0, 0⟩ : Point))
      s.mTrend.entries qs := by
    rw [h4, List.nil_append]
    congr 1
    funext e q
    rw [coerceQuality_eq]
  refine ⟨_, hg, ?_, hpts, ?_⟩
  · unfold drawCanvasQO
    simp only [hvar, hg]
    split <;> rfl
  · intro hint pt hpt
    simp only [hpts] at hpt
    obtain ⟨e, q, h⟩ := mem_zipWith _ _ _ _ hpt
    obtain ⟨n, hn⟩ := hint q h.1
    rw [h.2]
    show (if _ then _ else _) = _ ∨ _
    rw [← coerceQuality_eq, hn]
    exact coerceQuality_int n

theorem drawCanvasMO_time (s : State Obj QObj) (thisCanvas : TCanvas)
    (var name opt err : String) (axis : List (List ℚ)) (tv : TrendVariables) (te : TrendErrors)
    (hvar : getTrendVariables var = some tv) (herr : getTrendErrors err = some te)
    (htrend : tv.trend = "time") :
    drawCanvasMO s thisCanvas var name opt err axis
      = timeBranch s.mTrend.entries tv.sourceName tv.variableName te.errorX te.errorY err
          (count var ':' + 1) (List.range (s.mNumberPads tv.sourceName).toNat)
          (thisCanvas.DivideSquare (s.mNumberPads tv.sourceName)) := by
  unfold drawCanvasMO
  simp only [hvar, herr, htrend, if_true]

/-- C6: in mode `time`, when every row holds at least as many slice records
as the slice count `k` of the source, `drawCanvasMO` completes and builds for
every slice `p < k` a graph of exactly one point per row: point `i` is the
time of row `i` and the requested field of record `p` of row `i`, with the
values of the two error fields of that record when the error expression is
not empty and zero errors otherwise. The graph is saved to pad `p + 1` when
the error expression is not empty and the plot has order 2. -/
theorem time_mode_series (s : State Obj QObj) (thisCanvas : TCanvas)
    (var name opt err : String) (axis : List (List ℚ)) (tv : TrendVariables) (te : TrendErrors)
    (k : Nat)
    (hvar : getTrendVariables var = some tv) (herr : getTrendErrors err = some te)
    (htrend : tv.trend = "time") (hk : s.mNumberPads tv.sourceName = (k : Int))
    (hne : s.mTrend.entries ≠ [])
    (hrows : ∀ e ∈ s.mTrend.entries, ∃ v, e.slices tv.sourceName = some v ∧ k ≤ v.length) :
    ∃ c', drawCanvasMO s thisCanvas var name opt err axis = some c' ∧
      ∀ p, p < k → ∃ g,
        timeGraph s.mTrend.entries tv.sourceName tv.variableName te.errorX te.errorY err p
          = some g ∧
        c'.pads[p]? = some (if err ≠ "" ∧ count var ':' + 1 = 2 then [Primitive.graph g]
          else []) ∧
        g.points.length = s.mTrend.entries.length ∧
        ∀ (i : Nat) (hi : i < s.mTrend.entries.length), ∃ v r,
          s.mTrend.entries[i].slices tv.sourceName = some v ∧ v[p]? = some r ∧
          g.points[i]? = some ⟨(s.mTrend.entries[i].time : ℚ), r.RetrieveValue tv.variableName,
            if err ≠ "" then r.RetrieveValue te.errorX else 0,
            if err ≠ "" then r.RetrieveValue te.errorY else 0⟩ := by
  have hall : ∀ p ∈ List.range k, ∃ g,
      timeGraph s.mTrend.entries tv.sourceName tv.variableName te.errorX te.errorY err p
        = some g := by
    intro p hp
    obtain ⟨g, hg, _⟩ := timeGraph_spec tv.sourceName tv.variableName te.errorX te.errorY err
      p k (List.mem_range.mp hp) s.mTrend.entries hne hrows
    exact ⟨g, hg⟩
  obtain ⟨c', h1, _, _, _, _, h6⟩ := timeBranch_pads s.mTrend.entries tv.sourceName
    tv.variableName te.errorX te.errorY err (count var ':' + 1) (List.range k)
    (thisCanvas.DivideSquare (k : Int)) (List.nodup_range k) hall
  refine ⟨c', ?_, ?_⟩
  · rw [drawCanvasMO_time s thisCanvas var name opt err axis tv te hvar herr htrend, hk]
    exact h1
  · intro p hp
    obtain ⟨g, hg, _, hlen, hpts⟩ := timeGraph_spec tv.sourceName tv.variableName te.errorX
      te.errorY err p k hp s.mTrend.entries hne hrows
    refine ⟨g, hg, ?_, hlen, ?_⟩
    · rw [h6 p (List.mem_range.mpr hp) g hg]
      simp only [TCanvas.DivideSquare, Int.toNat_ofNat, List.getElem?_replicate, if_pos hp,
        Option.map_some', List.nil_append]
    · intro i hi
      obtain ⟨v, r, hv, hr, hpt⟩ := hpts i hi
      refine ⟨v, r, hv, hr, ?_⟩
      rw [hpt]
      unfold pointError
      by_cases he : err ≠ ""
      · simp only [if_pos he]
      · simp only [if_neg he]

/-- C8 as amended: in mode `time` a row that lacks a slice index below the
slice count of the source ends `drawCanvasMO` by the out-of-range error of
`at(p)`; no plot is produced. -/
theorem short_row_fails (s : State Obj QObj) (thisCanvas : TCanvas)
    (var name opt err : String) (axis : List (List ℚ)) (tv : TrendVariables) (te : TrendErrors)
    (k : Nat)
    (hvar : getTrendVariables var = some tv) (herr : getTrendErrors err = some te)
    (htrend : tv.trend = "time") (hk : s.mNumberPads tv.sourceName = (k : Int))
    (hshort : ∃ e ∈ s.mTrend.entries, ∃ v, e.slices tv.sourceName = some v ∧ v.length < k) :
    drawCanvasMO s thisCanvas var name opt err axis = none := by
  obtain ⟨e, he, v, hv, hlen⟩ := hshort
  rw [drawCanvasMO_time s thisCanvas var name opt err axis tv te hvar herr htrend, hk]
  apply timeBranch_none _ _ _ _ _ _ _ v.length
  · apply timeGraph_none _ _ _ _ _ _ _ e he
    rw [hv]
    simp
  · simpa using hlen

theorem drawCanvasMO_slices (s : State Obj QObj) (thisCanvas : TCanvas)
    (var name opt err : String) (axis : List (List ℚ)) (tv : TrendVariables) (te : TrendErrors)
    (hvar : getTrendVariables var = some tv) (herr : getTrendErrors err = some te)
    (htrend : tv.trend = "slices") :
    drawCanvasMO s thisCanvas var name opt err axis
      = (slicesGraph s.mTrend.entries tv.sourceName tv.variableName te.errorX te.errorY err
          (s.mNumberPads tv.sourceName)).map
          (fun g => attachGraph (thisCanvas.DivideSquare 1) err (count var ':' + 1) 1 g) := by
  unfold drawCanvasMO
  have e1 : (("slices" : String) = "time") = False := eq_false (by decide)
  have e2 : (("slices" : String) = "multigraphtime") = False := eq_false (by decide)
  simp only [hvar, herr, htrend, e1, e2, if_true, if_false]
  cases slicesGraph s.mTrend.entries tv.sourceName tv.variableName te.errorX te.errorY err
    (s.mNumberPads tv.sourceName) <;> rfl

/-- C5: in mode `slices`, when the most recent row holds at least as many
slice records as the slice count `k` of the source, the graph built by
`drawCanvasMO` has exactly `k` points and point `p` is the field
"sliceLabelX" and the requested field of record `p` of the most recent row
(with the two error fields when the error expression is not empty); the
graph is the same whatever the earlier rows are. -/
theorem slices_mode_profile (s : State Obj QObj) (thisCanvas : TCanvas)
    (var name opt err : String) (axis : List (List ℚ)) (tv : TrendVariables) (te : TrendErrors)
    (k : Nat) (earlier : List Entry) (last : Entry) (v : List SliceInfo)
    (hvar : getTrendVariables var = some tv) (herr : getTrendErrors err = some te)
    (htrend : tv.trend = "slices") (hk : s.mNumberPads tv.sourceName = (k : Int))
    (hrows : s.mTrend.entries = earlier ++ [last])
    (hv : last.slices tv.sourceName = some v) (hlen : k ≤ v.length) :
    ∃ g, slicesGraph s.mTrend.entries tv.sourceName tv.variableName te.errorX te.errorY err
        (k : Int) = some g ∧
      drawCanvasMO s thisCanvas var name opt err axis
        = some (attachGraph (thisCanvas.DivideSquare 1) err (count var ':' + 1) 1 g) ∧
      g.points.length = k ∧
      (∀ p, p < k → ∃ r, v[p]? = some r ∧
        g.points[p]? = some ⟨r.RetrieveValue "sliceLabelX", r.RetrieveValue tv.variableName,
          if err ≠ "" then r.RetrieveValue te.errorX else 0,
          if err ≠ "" then r.RetrieveValue te.errorY else 0⟩) ∧
      (∀ earlier' : List Entry,
        slicesGraph (earlier' ++ [last]) tv.sourceName tv.variableName te.errorX te.errorY err
          (k : Int) = some g) := by
  have hspec := fun es => slicesGraph_spec tv.sourceName tv.variableName te.errorX te.errorY err
    k es last v hv hlen
  refine ⟨_, by rw [hrows]; exact hspec earlier, ?_, ?_, ?_, fun es => hspec es⟩
  · rw [drawCanvasMO_slices s thisCanvas var name opt err axis tv te hvar herr htrend, hk, hrows,
      hspec earlier]
    rfl
  · simp [hlen]
  · intro p hp
    have hpv : p < v.length := by omega
    refine ⟨v[p], List.getElem?_eq_getElem hpv, ?_⟩
    simp only [List.getElem?_map, List.getElem?_take, if_pos hp, List.getElem?_eq_getElem hpv,
      Option.map_some']
    unfold pointError
    by_cases he : err ≠ ""
    · simp only [if_pos he]
    · simp only [if_neg he]

end PlotTheorems

/-! ## The concrete task -/

theorem rows_hold (rows : List Entry) (n : String) (k : Nat)
    (h : ∀ e ∈ rows, (e.slices n).map (fun v => decide (k ≤ v.length)) = some true) :
    ∀ e ∈ rows, ∃ v, e.slices n = some v ∧ k ≤ v.length := by
  intro e he
  have := h e he
  cases hs : e.slices n with
  | none => rw [hs] at this; simp at this
  | some v => rw [hs] at this; exact ⟨v, rfl, by simpa using this⟩

theorem row_short (rows : List Entry) (n : String) (k : Nat)
    (h : ∃ e ∈ rows, (e.slices n).map (fun v => decide (v.length < k)) = some true) :
    ∃ e ∈ rows, ∃ v, e.slices n = some v ∧ v.length < k := by
  obtain ⟨e, he, this⟩ := h
  refine ⟨e, he, ?_⟩
  cases hs : e.slices n with
  | none => rw [hs] at this; simp at this
  | some v => rw [hs] at this; exact ⟨v, rfl, by simpa using this⟩

theorem entries_ne_nil (rows : List Entry) (h : 0 < rows.length) : rows ≠ [] := by
  intro e; rw [e] at h; exact absurd h (by decide)

/-- C6, on the concrete task after its three triggers, for the plot
"src.val:time" with error expression "errY:errX". -/
theorem time_mode_series_witness :
    ∃ c', drawCanvasMO demoThree ⟨"plot", "Plot", []⟩ "src.val:time" "plot" "" "errY:errX" []
        = some c' ∧
      ∀ p, p < 3 → ∃ g,
        timeGraph demoThree.mTrend.entries "src" "val" "errX" "errY" "errY:errX" p = some g ∧
        c'.pads[p]? = some (if "errY:errX" ≠ "" ∧ count "src.val:time" ':' + 1 = 2
          then [Primitive.graph g] else []) ∧
        g.points.length = demoThree.mTrend.entries.length ∧
        ∀ (i : Nat) (hi : i < demoThree.mTrend.entries.length), ∃ v r,
          demoThree.mTrend.entries[i].slices "src" = some v ∧ v[p]? = some r ∧
          g.points[i]? = some ⟨(demoThree.mTrend.entries[i].time : ℚ), r.RetrieveValue "val",
            if "errY:errX" ≠ "" then r.RetrieveValue "errX" else 0,
            if "errY:errX" ≠ "" then r.RetrieveValue "errY" else 0⟩ :=
  time_mode_series demoThree ⟨"plot", "Plot", []⟩ "src.val:time" "plot" "" "errY:errX" []
    ⟨"src", "val", "time"⟩ ⟨"errX", "errY"⟩ 3 (by decide) (by decide) (by decide) (by decide)
    (entries_ne_nil _ (by decide)) (rows_hold _ _ _ (by decide))

/-- C8 as stated fails on the concrete task whose object is absent at the
first trigger and has two slices at the second one: the first row holds no
slice record, the slice count is 2, and the plot generation of mode `time`
ends by an error instead of completing. -/
theorem short_row_counterexample :
    demoLate.mNumberPads "src" = 2 ∧
    demoLate.mTrend.entries.map (fun e => (e.slices "src").map List.length)
      = [some 0, some 2] ∧
    drawCanvasMO demoLate ⟨"plot", "Plot", []⟩ "src.val:time" "plot" "" "errY:errX" [] = none ∧
    (generatePlots demoEnv demoLate).failed = true := by
  decide

/-- C8 as amended, on the same concrete task. -/
theorem short_row_fails_witness :
    drawCanvasMO demoLate ⟨"plot", "Plot", []⟩ "src.val:time" "plot" "" "errY:errX" [] = none :=
  short_row_fails demoLate ⟨"plot", "Plot", []⟩ "src.val:time" "plot" "" "errY:errX" []
    ⟨"src", "val", "time"⟩ ⟨"errX", "errY"⟩ 2 (by decide) (by decide) (by decide) (by decide)
    (row_short _ _ _ (by decide))

/-- C5, on the concrete task after one trigger with three slices, for the
plot "src.val:slices". -/
theorem slices_mode_profile_witness :
    ∃ g, slicesGraph demoOne.mTrend.entries "src" "val" "errX" "errY" "errY:errX" (3 : ℕ)
        = some g ∧
      drawCanvasMO demoOne ⟨"plot", "Plot", []⟩ "src.val:slices" "plot" "" "errY:errX" []
        = some (attachGraph (TCanvas.DivideSquare ⟨"plot", "Plot", []⟩ 1) "errY:errX"
            (count "src.val:slices" ':' + 1) 1 g) ∧
      g.points.length = 3 ∧
      (∀ p, p < 3 → ∃ r, (demoReductor.update [4, 5, 6] [] [] 0).1[p]? = some r ∧
        g.points[p]? = some ⟨r.RetrieveValue "sliceLabelX", r.RetrieveValue "val",
          if "errY:errX" ≠ "" then r.RetrieveValue "errX" else 0,
          if "errY:errX" ≠ "" then r.RetrieveValue "errY" else 0⟩) ∧
      (∀ earlier' : List Entry,
        slicesGraph (earlier' ++ [demoOne.mTrend.entries.getLast (entries_ne_nil _ (by decide))])
          "src" "val" "errX" "errY" "errY:errX" (3 : ℕ) = some g) :=
  slices_mode_profile demoOne ⟨"plot", "Plot", []⟩ "src.val:slices" "plot" "" "errY:errX" []
    ⟨"src", "val", "slices"⟩ ⟨"errX", "errY"⟩ 3 []
    (demoOne.mTrend.entries.getLast (entries_ne_nil _ (by decide)))
    (demoReductor.update [4, 5, 6] [] [] 0).1
    (by decide) (by decide) (by decide) (by decide) rfl rfl (by decide)

/-- C4, on the concrete task after its three triggers: the verdict decoded as
5 at the first trigger is plotted as 0. -/
theorem quality_coercion_witness :
    ∃ g, qualityGraph demoThree.mTrend.entries "qual" "qualitylevel" = some g ∧
      drawCanvasQO demoThree ⟨"plot", "Plot", []⟩ "qual.qualitylevel:time" "plot" ""
        = some (if count "qual.qualitylevel:time" ':' + 1 ≠ 2
            then TCanvas.DivideSquare ⟨"plot", "Plot", []⟩ 1
            else saveObjectToPrimitives (TCanvas.DivideSquare ⟨"plot", "Plot", []⟩ 1) 1
              (Primitive.graph g)) ∧
      g.points = List.zipWith
        (fun e q => (⟨(e.time : ℚ),
          if 1 ≤ q.RetrieveValue "qualitylevel" ∧ q.RetrieveValue "qualitylevel" ≤ 3
          then q.RetrieveValue "qualitylevel" else 0, 0, 0⟩ : Point))
        demoThree.mTrend.entries
        [demoReductor.updateQuality 5 demoEnv.defaultQuality,
         demoReductor.updateQuality 5 demoEnv.defaultQuality,
         demoReductor.updateQuality 2 demoEnv.defaultQuality] ∧
      ((∀ q ∈ [demoReductor.updateQuality 5 demoEnv.defaultQuality,
               demoReductor.updateQuality 5 demoEnv.defaultQuality,
               demoReductor.updateQuality 2 demoEnv.defaultQuality],
          ∃ n : ℤ, q.RetrieveValue "qualitylevel" = (n : ℚ)) →
        ∀ pt ∈ g.points, pt.y = 0 ∨ pt.y = 1 ∨ pt.y = 2 ∨ pt.y = 3) :=
  quality_coercion demoThree ⟨"plot", "Plot", []⟩ "qual.qualitylevel:time" "plot" ""
    ⟨"qual", "qualitylevel", "time"⟩ _ (by decide) (entries_ne_nil _ (by decide)) rfl

/-- C7 fails on the concrete task after one trigger with three slices: with
an empty error expression the graphs are built with zero errors (first
slice: one point, errors 0 and 0) but the canvas of mode `time` and the
canvas of mode `slices` hold no graph, and the canvas published for the plot
is that empty canvas; with the error expression "errY:errX" the graph is in
its pad, and the canvas of a quality source holds its graph without any error
expression. -/
theorem empty_error_expression_no_graph :
    getTrendErrors "" = some ⟨"", ""⟩ ∧
    (timeGraph demoOne.mTrend.entries "src" "val" "" "" "" 0).map TGraphErrors.points
      = some [⟨1, 4, 0, 0⟩] ∧
    drawCanvasMO demoOne ⟨"plot", "Plot", []⟩ "src.val:time" "plot" "" "" []
      = some ⟨"plot", "Plot", [[], [], []]⟩ ∧
    drawCanvasMO demoOne ⟨"plot", "Plot", []⟩ "src.val:slices" "plot" "" "" []
      = some ⟨"plot", "Plot", [[]]⟩ ∧
    (generatePlot demoEnv demoOne (demoPlot "src.val:time" "")).state.objectsManager
      = [PublishCall.startPublishing ⟨"plot", "Plot", [[], [], []]⟩] ∧
    drawCanvasMO demoOne ⟨"plot", "Plot", []⟩ "src.val:slices" "plot" "" "errY:errX" []
      = some ⟨"plot", "Plot", [[Primitive.graph ⟨"Graph", "",
          [⟨10, 4, 1, 2⟩, ⟨20, 5, 1, 2⟩, ⟨30, 6, 1, 2⟩]⟩]]⟩ ∧
    drawCanvasQO demoOne ⟨"plot", "Plot", []⟩ "qual.qualitylevel:time" "plot" ""
      = some ⟨"plot", "Plot", [[Primitive.graph ⟨"Graph", "quality", [⟨1, 0, 0, 0⟩]⟩]]⟩ := by
  decide

/-- C9 fails on the concrete task whose object is found at the first trigger
and absent at the second one: the slice count recorded by the second update
is 0, but the row it appended holds for the source the three records of the
first trigger, not an empty sequence. -/
theorem absent_object_keeps_records :
    demoTwo.mNumberPads "src" = 0 ∧
    demoTwo.mTrend.entries.map (fun e => e.time) = [1, 2] ∧
    demoTwo.mTrend.entries.map
        (fun e => (e.slices "src").map (List.map (fun r => r.RetrieveValue "val")))
      = [some [4, 5, 6], some [4, 5, 6]] := by
  decide

section PlotLoopLemmas

variable {Obj QObj : Type}

/-! ## Lemmas on the loop over the plots -/

theorem drawCanvasMO_congr (a b : State Obj QObj) (h : SameData a b) (c : TCanvas)
    (var name opt err : String) (axis : List (List ℚ)) :
    drawCanvasMO b c var name opt err axis = drawCanvasMO a c var name opt err axis := by
  obtain ⟨_, _, _, h4, _, _, _, _, h9, _⟩ := h
  unfold drawCanvasMO
  rw [h4, h9]

theorem drawCanvasQO_congr (a b : State Obj QObj) (h : SameData a b) (c : TCanvas)
    (var name opt : String) :
    drawCanvasQO b c var name opt = drawCanvasQO a c var name opt := by
  obtain ⟨_, _, _, h4, _, _, _, _, _, _⟩ := h
  unfold drawCanvasQO
  rw [h4]

theorem plotCanvas_congr (env : Env Obj QObj) (a b : State Obj QObj) (h : SameData a b)
    (plot : Plot) : plotCanvas env b plot = plotCanvas env a plot := by
  have hMO := drawCanvasMO_congr a b h
  have hQO := drawCanvasQO_congr a b h
  obtain ⟨_, _, _, _, _, _, _, h8, h9, h10⟩ := h
  unfold plotCanvas
  simp only [hMO, hQO, h8, h9, h10]

/-- The three ways the body of the loop over the plots starts: the name is
not held, the canvas held under the name was deleted before, or it is held. -/
theorem generatePlot_free (env : Env Obj QObj) (s : State Obj QObj) (plot : Plot)
    (hfree : s.mPlots plot.name = none) :
    generatePlot env s plot =
      match plotCanvas env s plot with
      | none => Step.fail s
      | some c => Step.ok { s with
          mPlots := Function.update s.mPlots plot.name (some { canvas := c, deleted := false }),
          objectsManager := s.objectsManager ++ [PublishCall.startPublishing c] } := by
  unfold generatePlot plotCanvas
  simp only [hfree]
  rw [andThen_ok _ _ rfl]
  simp only [Step.ok]
  cases substr plot.varexp 0 (find plot.varexp ".") with
  | none => rfl
  | some varName =>
    simp only
    split
    · rename_i h; simp only [h]
    · rfl

theorem generatePlot_deleted (env : Env Obj QObj) (s : State Obj QObj) (plot : Plot)
    (slot : PlotSlot) (hslot : s.mPlots plot.name = some slot) (hdel : slot.deleted = true) :
    generatePlot env s plot = Step.fail { s with
      objectsManager := s.objectsManager ++ [PublishCall.stopPublishing plot.name] } := by
  unfold generatePlot
  simp only [hslot, hdel, if_true]
  rw [andThen_failed _ _ rfl]

theorem generatePlot_held (env : Env Obj QObj) (s : State Obj QObj) (plot : Plot)
    (slot : PlotSlot) (hslot : s.mPlots plot.name = some slot) (hdel : slot.deleted = false) :
    generatePlot env s plot =
      match plotCanvas env s plot with
      | none => Step.fail { s with
          mPlots := Function.update s.mPlots plot.name (some { slot with deleted := true }),
          objectsManager := s.objectsManager ++ [PublishCall.stopPublishing plot.name] }
      | some c => Step.ok { s with
          mPlots := Function.update s.mPlots plot.name (some { canvas := c, deleted := false }),
          objectsManager := s.objectsManager ++
            [PublishCall.stopPublishing plot.name, PublishCall.startPublishing c] } := by
  have hsd : SameData s { s with
      mPlots := Function.update s.mPlots plot.name (some { slot with deleted := true }),
      objectsManager := s.objectsManager ++ [PublishCall.stopPublishing plot.name] } :=
    ⟨rfl, rfl, rfl, rfl, rfl, rfl, rfl, rfl, rfl, rfl⟩
  rw [← plotCanvas_congr env _ _ hsd plot]
  unfold generatePlot plotCanvas
  simp only [hslot, hdel]
  rw [andThen_ok _ _ rfl]
  simp only [Step.ok, Bool.false_eq_true, if_false]
  cases substr plot.varexp 0 (find plot.varexp ".") with
  | none => rfl
  | some varName =>
    simp only
    split
    · rename_i h; simp only [h]
    · rename_i c1 h
      cases beautifyLoop env plot (List.range (if find plot.varexp ":time" ≠ npos
          then s.mNumberPads varName else 1).toNat) c1 with
      | none => rfl
      | some c2 =>
        simp only [Function.update_idem, List.append_assoc, List.singleton_append]

theorem saveObjectToPrimitives_fName (c : TCanvas) (n : Nat) (o : Primitive) :
    (saveObjectToPrimitives c n o).fName = c.fName := by
  unfold saveObjectToPrimitives; split <;> rfl

theorem timeBranch_fName (rows : List Entry) (varName typeName errXName errYName err : String)
    (plotOrder : Nat) :
    ∀ (ps : List Nat) (c c' : TCanvas),
      timeBranch rows varName typeName errXName errYName err plotOrder ps c = some c' →
      c'.fName = c.fName := by
  intro ps
  induction ps with
  | nil => intro c c' h; simp only [timeBranch, Option.some.injEq] at h; rw [← h]
  | cons p ps ih =>
    intro c c' h
    rw [timeBranch] at h
    cases hg : timeGraph rows varName typeName errXName errYName err p with
    | none => rw [hg] at h; simp at h
    | some g =>
      rw [hg] at h
      exact (ih _ _ h).trans (attachGraph_frame c err plotOrder (p + 1) g).2.1

theorem drawCanvasMO_fName (s : State Obj QObj) (c c' : TCanvas) (var name opt err : String)
    (axis : List (List ℚ)) (h : drawCanvasMO s c var name opt err axis = some c') :
    c'.fName = c.fName := by
  unfold drawCanvasMO at h
  simp only at h
  split at h
  · simp at h
  · split at h
    · simp at h
    · split at h
      · exact (timeBranch_fName _ _ _ _ _ _ _ _ _ _ h).trans rfl
      · split at h
        · split at h
          · simp at h
          · simp only [Option.some.injEq] at h
            rw [← h, saveObjectToPrimitives_fName, saveObjectToPrimitives_fName]
            rfl
        · split at h
          · split at h
            · simp at h
            · simp only [Option.some.injEq] at h
              rw [← h, (attachGraph_frame _ _ _ _ _).2.1]
              rfl
          · split at h
            · split at h
              · split at h
                · simp at h
                · simp only [Option.some.injEq] at h
                  rw [← h, saveObjectToPrimitives_fName]
                  rfl
              · simp at h
            · simp only [Option.some.injEq] at h
              rw [← h]
              rfl

theorem drawCanvasQO_fName (s : State Obj QObj) (c c' : TCanvas) (var name opt : String)
    (h : drawCanvasQO s c var name opt = some c') : c'.fName = c.fName := by
  unfold drawCanvasQO at h
  simp only at h
  split at h
  · simp at h
  · split at h
    · simp at h
    · split at h
      · simp only [Option.some.injEq] at h; rw [← h]; rfl
      · simp only [Option.some.injEq] at h
        rw [← h, saveObjectToPrimitives_fName]; rfl

theorem beautifyLoop_fName (env : Env Obj QObj) (plot : Plot) :
    ∀ (ps : List Nat) (c c' : TCanvas), beautifyLoop env plot ps c = some c' →
      c'.fName = c.fName := by
  intro ps
  induction ps with
  | nil => intro c c' h; simp only [beautifyLoop, Option.some.injEq] at h; rw [← h]
  | cons p ps ih =>
    intro c c' h
    rw [beautifyLoop] at h
    split at h
    · simp at h
    · split at h
      · simp at h
      · exact (ih _ _ h).trans rfl

theorem plotCanvas_fName (env : Env Obj QObj) (s : State Obj QObj) (plot : Plot) (c : TCanvas)
    (h : plotCanvas env s plot = some c) : c.fName = plot.name := by
  unfold plotCanvas at h
  split at h
  · simp at h
  · simp only at h
    split at h
    · simp at h
    · rename_i c1 hd
      have h1 : c1.fName = plot.name := by
        split at hd
        · exact drawCanvasMO_fName _ _ _ _ _ _ _ _ hd
        · exact drawCanvasQO_fName _ _ _ _ _ _ hd
      exact (beautifyLoop_fName env plot _ _ _ h).trans h1

/-! ## Lemmas on the objects manager -/

theorem publishedPlots_append (calls more : List PublishCall) :
    publishedPlots (calls ++ more) = more.foldl applyCall (publishedPlots calls) := by
  unfold publishedPlots; rw [List.foldl_append]

theorem eraseP_name_not_mem (n : String) :
    ∀ (l : List TCanvas), (l.map TCanvas.fName).Nodup →
      ∀ c ∈ l.eraseP (fun c => decide (c.fName = n)), c.fName ≠ n := by
  intro l
  induction l with
  | nil => intro _ c hc; simp at hc
  | cons a l ih =>
    intro hnd c hc
    simp only [List.map_cons, List.nodup_cons] at hnd
    by_cases ha : a.fName = n
    · rw [List.eraseP_cons_of_pos (by simpa using ha)] at hc
      intro hcn
      exact hnd.1 (by rw [ha, ← hcn]; exact List.mem_map_of_mem _ hc)
    · rw [List.eraseP_cons_of_neg (by simpa using ha)] at hc
      rcases List.mem_cons.mp hc with h | h
      · rw [h]; exact ha
      · exact ih hnd.2 c h

theorem eraseP_name_nodup (n : String) (l : List TCanvas) (h : (l.map TCanvas.fName).Nodup) :
    ((l.eraseP (fun c => decide (c.fName = n))).map TCanvas.fName).Nodup :=
  List.Nodup.sublist (List.Sublist.map _ (List.eraseP_sublist l)) h

theorem eraseP_name_none (n : String) (l : List TCanvas) (h : ∀ c ∈ l, c.fName ≠ n) :
    l.eraseP (fun c => decide (c.fName = n)) = l :=
  List.eraseP_of_forall_not (fun c hc => by simpa using h c hc)

/-- Publishing a canvas under a name that is not published keeps the
invariant. -/
theorem publishedHeld_start (s : State Obj QObj) (n : String) (c : TCanvas)
    (pub : List TCanvas) (log : List PublishCall)
    (hpub : publishedPlots log = pub ++ [c])
    (hc : c.fName = n) (hn : n ∈ s.mConfig.plots.map Plot.name)
    (hnd : (pub.map TCanvas.fName).Nodup)
    (hfree : ∀ d ∈ pub, d.fName ≠ n)
    (h2 : ∀ d ∈ pub, s.mPlots d.fName = some { canvas := d, deleted := false } ∧
      d.fName ∈ s.mConfig.plots.map Plot.name)
    (h3 : ∀ m slot, m ≠ n → s.mPlots m = some slot → slot.deleted = false →
      slot.canvas ∈ pub ∧ slot.canvas.fName = m) :
    PublishedHeld { s with
      mPlots := Function.update s.mPlots n (some { canvas := c, deleted := false }),
      objectsManager := log } := by
  refine ⟨?_, ?_, ?_⟩
  · show ((publishedPlots log).map TCanvas.fName).Nodup
    rw [hpub, List.map_append, List.map_singleton]
    apply List.Nodup.append hnd (List.nodup_singleton _)
    intro x hx1 hx2
    simp only [List.mem_singleton] at hx2
    obtain ⟨d, hd, hdx⟩ := List.mem_map.mp hx1
    exact hfree d hd (by rw [hdx, hx2, hc])
  · intro d hd
    change d ∈ publishedPlots log at hd
    rw [hpub] at hd
    rcases List.mem_append.mp hd with h | h
    · have hne : d.fName ≠ n := hfree d h
      exact ⟨by show Function.update s.mPlots n _ d.fName = _
                rw [Function.update_noteq hne]; exact (h2 d h).1, (h2 d h).2⟩
    · simp only [List.mem_singleton] at h
      subst h
      exact ⟨by show Function.update s.mPlots n _ d.fName = _
                rw [hc, Function.update_same], by rw [hc]; exact hn⟩
  · intro m slot hm hdel
    change Function.update s.mPlots n _ m = some slot at hm
    show slot.canvas ∈ publishedPlots log ∧ _
    rw [hpub]
    by_cases hmn : m = n
    · subst hmn
      rw [Function.update_same] at hm
      cases hm
      exact ⟨by simp, hc⟩
    · rw [Function.update_noteq hmn] at hm
      obtain ⟨a, b⟩ := h3 m slot hmn hm hdel
      exact ⟨List.mem_append_left _ a, b⟩

theorem mem_eraseP_name (n : String) (l : List TCanvas) (d : TCanvas) (hd : d ∈ l)
    (hne : d.fName ≠ n) : d ∈ l.eraseP (fun c => decide (c.fName = n)) :=
  (List.mem_eraseP_of_neg (by simpa using hne)).mpr hd

/-- One iteration of the loop over the plots keeps the invariant, whether or
not it ends by an error. -/
theorem generatePlot_publishedHeld (env : Env Obj QObj) (s : State Obj QObj) (plot : Plot)
    (hinv : PublishedHeld s) (hplot : plot.name ∈ s.mConfig.plots.map Plot.name) :
    PublishedHeld (generatePlot env s plot).state := by
  obtain ⟨i1, i2, i3⟩ := hinv
  cases hslot : s.mPlots plot.name with
  | none =>
    have hfree : ∀ d ∈ publishedPlots s.objectsManager, d.fName ≠ plot.name := by
      intro d hd hdn
      have := (i2 d hd).1
      rw [hdn, hslot] at this
      exact absurd this (by simp)
    rw [generatePlot_free env s plot hslot]
    cases hc : plotCanvas env s plot with
    | none => exact ⟨i1, i2, i3⟩
    | some c =>
      exact publishedHeld_start s plot.name c (publishedPlots s.objectsManager) _
        (by rw [publishedPlots_append]; rfl) (plotCanvas_fName env s plot c hc) hplot i1 hfree
        i2 (fun m slot _ hm hdel => i3 m slot hm hdel)
  | some slot =>
    by_cases hdel : slot.deleted = true
    · have hfree : ∀ d ∈ publishedPlots s.objectsManager, d.fName ≠ plot.name := by
        intro d hd hdn
        have := (i2 d hd).1
        rw [hdn, hslot] at this
        simp only [Option.some.injEq] at this
        rw [this] at hdel
        exact absurd hdel (by simp)
      rw [generatePlot_deleted env s plot slot hslot hdel]
      have hpub : publishedPlots (s.objectsManager ++ [PublishCall.stopPublishing plot.name])
          = publishedPlots s.objectsManager := by
        rw [publishedPlots_append]
        exact eraseP_name_none plot.name _ hfree
      refine ⟨?_, ?_, ?_⟩
      · show ((publishedPlots (s.objectsManager ++ _)).map TCanvas.fName).Nodup
        rw [hpub]; exact i1
      · intro d hd
        change d ∈ publishedPlots (s.objectsManager ++ _) at hd
        rw [hpub] at hd
        exact i2 d hd
      · intro m sl hm hd
        show sl.canvas ∈ publishedPlots (s.objectsManager ++ _) ∧ _
        rw [hpub]
        exact i3 m sl hm hd
    · have hdel' : slot.deleted = false := by simpa using hdel
      have hpub : publishedPlots (s.objectsManager ++ [PublishCall.stopPublishing plot.name])
          = (publishedPlots s.objectsManager).eraseP (fun c => decide (c.fName = plot.name)) := by
        rw [publishedPlots_append]; rfl
      have hgone := eraseP_name_not_mem plot.name (publishedPlots s.objectsManager) i1
      have hnd := eraseP_name_nodup plot.name (publishedPlots s.objectsManager) i1
      rw [generatePlot_held env s plot slot hslot hdel']
      cases hc : plotCanvas env s plot with
      | none =>
        refine ⟨?_, ?_, ?_⟩
        · show ((publishedPlots (s.objectsManager ++ _)).map TCanvas.fName).Nodup
          rw [hpub]; exact hnd
        · intro d hd
          change d ∈ publishedPlots (s.objectsManager ++ _) at hd
          rw [hpub] at hd
          have hne := hgone d hd
          have hmem := List.mem_of_mem_eraseP hd
          exact ⟨by show Function.update s.mPlots plot.name _ d.fName = _
                    rw [Function.update_noteq hne]; exact (i2 d hmem).1, (i2 d hmem).2⟩
        · intro m sl hm hd
          change Function.update s.mPlots plot.name _ m = some sl at hm
          show sl.canvas ∈ publishedPlots (s.objectsManager ++ _) ∧ _
          rw [hpub]
          by_cases hmn : m = plot.name
          · subst hmn
            rw [Function.update_same] at hm
            cases hm
            exact absurd hd (by simp)
          · rw [Function.update_noteq hmn] at hm
            obtain ⟨a, b⟩ := i3 m sl hm hd
            exact ⟨mem_eraseP_name _ _ _ a (by rw [b]; exact hmn), b⟩
      | some c =>
        refine publishedHeld_start s plot.name c
          ((publishedPlots s.objectsManager).eraseP (fun c => decide (c.fName = plot.name))) _
          ?_ (plotCanvas_fName env s plot c hc) hplot hnd hgone ?_ ?_
        · rw [publishedPlots_append]; rfl
        · intro d hd
          exact i2 d (List.mem_of_mem_eraseP hd)
        · intro m sl hmn hm hd
          obtain ⟨a, b⟩ := i3 m sl hm hd
          exact ⟨mem_eraseP_name _ _ _ a (by rw [b]; exact hmn), b⟩

/-! ## Lemmas on the members that the operations leave alone -/

theorem forEach_invariant_mem {σ α : Type} (P : σ → Prop) (f : σ → α → Step σ) :
    ∀ (xs : List α), (∀ s x, x ∈ xs → P s → P (f s x).state) →
      ∀ (s : σ), P s → P (forEach f xs s).state := by
  intro xs
  induction xs with
  | nil => intro _ s hs; exact hs
  | cons x xs ih =>
    intro hf s hs
    unfold forEach Step.andThen
    by_cases hfail : (f s x).failed = true
    · rw [if_pos hfail]; exact hf s x (by simp) hs
    · rw [if_neg hfail]
      exact ih (fun s' y hy hs' => hf s' y (by simp [hy]) hs') _ (hf s x (by simp) hs)

theorem generatePlot_mConfig (env : Env Obj QObj) (s : State Obj QObj) (plot : Plot) :
    (generatePlot env s plot).state.mConfig = s.mConfig :=
  (generatePlot_sameData env s plot).1

theorem generatePlots_publishedHeld (env : Env Obj QObj) (s : State Obj QObj)
    (h : PublishedHeld s) : PublishedHeld (generatePlots env s).state := by
  unfold generatePlots
  split
  · exact h
  · have := forEach_invariant_mem
      (fun s' : State Obj QObj => PublishedHeld s' ∧ s'.mConfig = s.mConfig)
      (generatePlot env) s.mConfig.plots
      (fun s' x hx hs' => ⟨generatePlot_publishedHeld env s' x hs'.1
          (by rw [hs'.2]; exact List.mem_map_of_mem _ hx),
        (generatePlot_mConfig env s' x).trans hs'.2⟩) s ⟨h, rfl⟩
    exact this.1

/-- The members that `trendValues` leaves alone, whether or not it completes. -/
theorem trendValues_frame (s : State Obj QObj) (t : Trigger)
    (qcdb : DatabaseInterface Obj QObj) :
    (trendValues s t qcdb).state.mConfig = s.mConfig ∧
    (trendValues s t qcdb).state.mPlots = s.mPlots ∧
    (trendValues s t qcdb).state.objectsManager = s.objectsManager ∧
    (trendValues s t qcdb).state.mIsMoObject = s.mIsMoObject ∧
    (trendValues s t qcdb).state.mReductors = s.mReductors ∧
    (trendValues s t qcdb).state.mTrend.branches = s.mTrend.branches ∧
    (trendValues s t qcdb).state.mTrend.fName = s.mTrend.fName := by
  obtain ⟨f1, _, _, f4, f5, f6, f7, f8⟩ := forEach_trendSource_sameFrame qcdb t
    s.mConfig.dataSources { s with mTime := (t.timestamp / 1000) % 2 ^ 32, mMetaData := ⟨-1⟩ }
  unfold trendValues
  by_cases hfail : (forEach (trendSource qcdb t) s.mConfig.dataSources
      { s with mTime := (t.timestamp / 1000) % 2 ^ 32, mMetaData := ⟨-1⟩ }).failed = true
  · rw [andThen_failed _ _ hfail]
    exact ⟨f1, f5, f8, f7, f6, congrArg TTree.branches f4, congrArg TTree.fName f4⟩
  · rw [andThen_ok _ _ (by simpa using hfail)]
    have e1 : ∀ st : State Obj QObj, (fill st).mTrend.branches = st.mTrend.branches :=
      fun _ => rfl
    have e2 : ∀ st : State Obj QObj, (fill st).mTrend.fName = st.mTrend.fName := fun _ => rfl
    exact ⟨f1, f5, f8, f7, f6, (e1 _).trans (congrArg TTree.branches f4),
      (e2 _).trans (congrArg TTree.fName f4)⟩

theorem publishedHeld_of_eq (s s' : State Obj QObj) (h : PublishedHeld s)
    (h1 : s'.mConfig = s.mConfig) (h2 : s'.mPlots = s.mPlots)
    (h3 : publishedPlots s'.objectsManager = publishedPlots s.objectsManager) :
    PublishedHeld s' := by
  unfold PublishedHeld at h ⊢
  rw [h1, h2, h3]
  exact h

theorem update_state (env : Env Obj QObj) (s : State Obj QObj) (t : Trigger)
    (qcdb : DatabaseInterface Obj QObj) :
    (update env s t qcdb).state = (trendValues s t qcdb).state ∨
    (update env s t qcdb).state = (generatePlots env (trendValues s t qcdb).state).state := by
  unfold update Step.andThen
  by_cases hf : (trendValues s t qcdb).failed = true
  · rw [if_pos hf]; exact Or.inl rfl
  · rw [if_neg hf]
    by_cases hp : (trendValues s t qcdb).state.mConfig.producePlotsOnUpdate = true
    · right
      show Step.state (if _ then _ else _) = _
      rw [if_pos hp]
    · left
      show Step.state (if _ then _ else _) = _
      rw [if_neg hp]
      rfl

theorem update_publishedHeld (env : Env Obj QObj) (s : State Obj QObj) (t : Trigger)
    (qcdb : DatabaseInterface Obj QObj) (h : PublishedHeld s) :
    PublishedHeld (update env s t qcdb).state := by
  obtain ⟨f1, f2, f3, _⟩ := trendValues_frame s t qcdb
  have hT : PublishedHeld (trendValues s t qcdb).state :=
    publishedHeld_of_eq s _ h f1 f2 (by rw [f3])
  rcases update_state env s t qcdb with e | e
  · rw [e]; exact hT
  · rw [e]; exact generatePlots_publishedHeld env _ hT

theorem update_mConfig (env : Env Obj QObj) (s : State Obj QObj) (t : Trigger)
    (qcdb : DatabaseInterface Obj QObj) : (update env s t qcdb).state.mConfig = s.mConfig := by
  rcases update_state env s t qcdb with e | e
  · rw [e]; exact (trendValues_frame s t qcdb).1
  · rw [e]; exact (generatePlots_sameData env _).1.trans (trendValues_frame s t qcdb).1

theorem finalize_mConfig (env : Env Obj QObj) (s : State Obj QObj) (t : Trigger) :
    (finalize env s t).state.mConfig = s.mConfig := by
  unfold finalize
  simp only
  split
  · exact (generatePlots_sameData env _).1
  · exact (generatePlots_sameData env _).1

theorem publishedPlots_tree (log : List PublishCall) (n : String) :
    publishedPlots (log ++ [PublishCall.startPublishingTree n]) = publishedPlots log := by
  rw [publishedPlots_append]; rfl

theorem finalize_publishedHeld (env : Env Obj QObj) (s : State Obj QObj) (t : Trigger)
    (h : PublishedHeld s) : PublishedHeld (finalize env s t).state := by
  unfold finalize
  simp only
  split
  · exact generatePlots_publishedHeld env _
      (publishedHeld_of_eq s _ h rfl rfl (publishedPlots_tree _ _))
  · exact generatePlots_publishedHeld env _ h

theorem initSource_plots (env : Env Obj QObj) (s : State Obj QObj) (source : DataSource) :
    (initSource env s source).state.mPlots = s.mPlots ∧
    (initSource env s source).state.objectsManager = s.objectsManager := by
  unfold initSource
  simp only
  split
  · exact ⟨rfl, rfl⟩
  · split
    · exact ⟨rfl, rfl⟩
    · split <;> exact ⟨rfl, rfl⟩

theorem initLoop_plots (env : Env Obj QObj) (name : String) (config : TrendingTaskConfigTPC) :
    (forEach (initSource env) config.dataSources (configured env name config)).state.mPlots
      = (fun _ => none) ∧
    (forEach (initSource env) config.dataSources
      (configured env name config)).state.objectsManager = [] ∧
    (forEach (initSource env) config.dataSources (configured env name config)).state.mConfig
      = config :=
  forEach_invariant
    (fun s : State Obj QObj => s.mPlots = (fun _ => none) ∧ s.objectsManager = [] ∧
      s.mConfig = config)
    (initSource env)
    (fun s x hs => ⟨(initSource_plots env s x).1.trans hs.1,
      (initSource_plots env s x).2.trans hs.2.1, (initSource_frame env s x).1.trans hs.2.2⟩)
    config.dataSources (configured env name config) ⟨rfl, rfl, rfl⟩

theorem initializeTask_log (env : Env Obj QObj) (name : String)
    (config : TrendingTaskConfigTPC) (h : (initializeTask env name config).failed = false) :
    (initializeTask env name config).state.mPlots = (fun _ => none) ∧
    (initializeTask env name config).state.objectsManager
      = (if config.producePlotsOnUpdate then [PublishCall.startPublishingTree name] else []) ∧
    (initializeTask env name config).state.mConfig = config := by
  obtain ⟨h1, h2, h3⟩ := initLoop_plots env name config
  have hname : (forEach (initSource env) config.dataSources
      (configured env name config)).state.mTrend.fName = name := by
    apply forEach_invariant (fun s : State Obj QObj => s.mTrend.fName = name) (initSource env)
    · intro s x hs
      unfold initSource
      simp only
      split
      · exact hs
      · split
        · show (TTree.Branch _ _ _).fName = _
          unfold TTree.Branch; split <;> exact hs
        · split
          · show (TTree.Branch _ _ _).fName = _
            unfold TTree.Branch; split <;> exact hs
          · exact hs
    · simp only [configured, TTree.Branch]
      rfl
  unfold initializeTask at h ⊢
  by_cases hfail : (forEach (initSource env) config.dataSources
      (configured env name config)).failed = true
  · rw [andThen_failed _ _ hfail] at h; rw [hfail] at h; exact absurd h (by simp)
  · rw [andThen_ok _ _ (by simpa using hfail)]
    rw [h3]
    by_cases hp : config.producePlotsOnUpdate = true
    · rw [if_pos hp, if_pos hp]
      exact ⟨h1, by show _ ++ _ = _; rw [h2, hname]; rfl, rfl⟩
    · rw [if_neg hp, if_neg hp]
      exact ⟨h1, h2, h3⟩

theorem publishedHeld_init (env : Env Obj QObj) (name : String)
    (config : TrendingTaskConfigTPC) (h : (initializeTask env name config).failed = false) :
    PublishedHeld (initializeTask env name config).state := by
  obtain ⟨h1, h2, _⟩ := initializeTask_log env name config h
  have hpub : publishedPlots (initializeTask env name config).state.objectsManager = [] := by
    rw [h2]; split <;> rfl
  unfold PublishedHeld
  rw [hpub, h1]
  exact ⟨List.nodup_nil, fun c hc => absurd hc (by simp), fun n slot hs => absurd hs (by simp)⟩

theorem reachable_inv (env : Env Obj QObj) (name : String) (config : TrendingTaskConfigTPC)
    (s : State Obj QObj) (h : Reachable env name config s) :
    PublishedHeld s ∧ s.mConfig = config := by
  induction h with
  | afterInit h => exact ⟨publishedHeld_init env name config h, (initializeTask_log env name config h).2.2⟩
  | afterUpdate s t qcdb _ ih =>
    exact ⟨update_publishedHeld env s t qcdb ih.1, (update_mConfig env s t qcdb).trans ih.2⟩
  | afterGeneratePlots s _ ih =>
    exact ⟨generatePlots_publishedHeld env s ih.1, (generatePlots_sameData env s).1.trans ih.2⟩
  | afterFinalize s t _ ih =>
    exact ⟨finalize_publishedHeld env s t ih.1, (finalize_mConfig env s t).trans ih.2⟩

end PlotLoopLemmas

/-! ## The objects being published along the life of a task -/

section LifeTheorems

variable {Obj QObj : Type}

theorem treeStarts_append (a b : List PublishCall) :
    treeStarts (a ++ b) = treeStarts a + treeStarts b := by
  induction a with
  | nil => simp [treeStarts]
  | cons x xs ih =>
    cases x with
    | startPublishingTree n =>
      show treeStarts (xs ++ b) + 1 = treeStarts xs + 1 + treeStarts b
      rw [ih]; omega
    | startPublishing c =>
      show treeStarts (xs ++ b) = treeStarts xs + treeStarts b
      exact ih
    | stopPublishing n =>
      show treeStarts (xs ++ b) = treeStarts xs + treeStarts b
      exact ih

theorem generatePlot_treeStarts (env : Env Obj QObj) (s : State Obj QObj) (plot : Plot) :
    treeStarts (generatePlot env s plot).state.objectsManager = treeStarts s.objectsManager := by
  cases hslot : s.mPlots plot.name with
  | none =>
    rw [generatePlot_free env s plot hslot]
    cases plotCanvas env s plot with
    | none => rfl
    | some c =>
      show treeStarts (_ ++ _) = _
      rw [treeStarts_append]; rfl
  | some slot =>
    by_cases hdel : slot.deleted = true
    · rw [generatePlot_deleted env s plot slot hslot hdel]
      show treeStarts (_ ++ _) = _
      rw [treeStarts_append]; rfl
    · rw [generatePlot_held env s plot slot hslot (by simpa using hdel)]
      cases plotCanvas env s plot with
      | none =>
        show treeStarts (_ ++ _) = _
        rw [treeStarts_append]; rfl
      | some c =>
        show treeStarts (_ ++ _) = _
        rw [treeStarts_append]; rfl

theorem generatePlots_treeStarts (env : Env Obj QObj) (s : State Obj QObj) :
    treeStarts (generatePlots env s).state.objectsManager = treeStarts s.objectsManager := by
  unfold generatePlots
  split
  · rfl
  · exact forEach_invariant
      (fun s' : State Obj QObj => treeStarts s'.objectsManager = treeStarts s.objectsManager)
      (generatePlot env) (fun s' x h => (generatePlot_treeStarts env s' x).trans h) _ s rfl

theorem update_treeStarts (env : Env Obj QObj) (s : State Obj QObj) (t : Trigger)
    (qcdb : DatabaseInterface Obj QObj) :
    treeStarts (update env s t qcdb).state.objectsManager = treeStarts s.objectsManager := by
  rcases update_state env s t qcdb with e | e
  · rw [e, (trendValues_frame s t qcdb).2.2.1]
  · rw [e, generatePlots_treeStarts, (trendValues_frame s t qcdb).2.2.1]

theorem runUpdates_frame (env : Env Obj QObj) :
    ∀ (us : List (Trigger × DatabaseInterface Obj QObj)) (s : State Obj QObj),
      treeStarts (runUpdates env s us).objectsManager = treeStarts s.objectsManager ∧
      (runUpdates env s us).mConfig = s.mConfig := by
  intro us
  induction us with
  | nil => intro s; exact ⟨rfl, rfl⟩
  | cons u us ih =>
    intro s
    obtain ⟨h1, h2⟩ := ih (update env s u.1 u.2).state
    exact ⟨h1.trans (update_treeStarts env s u.1 u.2), h2.trans (update_mConfig env s u.1 u.2)⟩

/-- C19: over a run `initialize`, updates, `finalize`, the publication of the
trending tree is started by `initialize` exactly when `producePlotsOnUpdate`
is set, by `finalize` exactly when it is not, and by no update: once in all. -/
theorem tree_published_once (env : Env Obj QObj) (name : String)
    (config : TrendingTaskConfigTPC)
    (hinit : (initializeTask env name config).failed = false)
    (us : List (Trigger × DatabaseInterface Obj QObj)) (t : Trigger) :
    treeStarts (initializeTask env name config).state.objectsManager
      = (if config.producePlotsOnUpdate then 1 else 0) ∧
    (∀ (s : State Obj QObj) (t' : Trigger) (qcdb : DatabaseInterface Obj QObj),
      treeStarts (update env s t' qcdb).state.objectsManager = treeStarts s.objectsManager) ∧
    treeStarts (runUpdates env (initializeTask env name config).state us).objectsManager
      = (if config.producePlotsOnUpdate then 1 else 0) ∧
    treeStarts (finalize env (runUpdates env (initializeTask env name config).state us)
        t).state.objectsManager
      = treeStarts (runUpdates env (initializeTask env name config).state us).objectsManager
        + (if config.producePlotsOnUpdate then 0 else 1) ∧
    treeStarts (finalize env (runUpdates env (initializeTask env name config).state us)
        t).state.objectsManager = 1 := by
  obtain ⟨_, hlog, hcfg⟩ := initializeTask_log env name config hinit
  obtain ⟨r1, r2⟩ := runUpdates_frame env us (initializeTask env name config).state
  have h0 : treeStarts (initializeTask env name config).state.objectsManager
      = (if config.producePlotsOnUpdate then 1 else 0) := by
    rw [hlog]; split <;> rfl
  have hfin : treeStarts (finalize env (runUpdates env (initializeTask env name config).state us)
      t).state.objectsManager
      = treeStarts (runUpdates env (initializeTask env name config).state us).objectsManager
        + (if config.producePlotsOnUpdate then 0 else 1) := by
    unfold finalize
    simp only
    rw [generatePlots_treeStarts, r2, hcfg]
    by_cases hp : config.producePlotsOnUpdate = true
    · simp only [hp, not_true_eq_false, if_false, if_true, Nat.add_zero]
    · simp only [hp, not_false_eq_true, if_true, Bool.false_eq_true, if_false]
      show treeStarts (_ ++ _) = _
      rw [treeStarts_append]; rfl
  refine ⟨h0, fun s t' qcdb => update_treeStarts env s t' qcdb, r1.trans h0, hfin, ?_⟩
  rw [hfin, r1, h0]
  split <;> rfl

/-! ### Release, then publish -/

/-- The body of the loop over the plots is the release of the canvas held
under the name, then the construction and publication of the new one. -/
theorem generatePlot_release_publish (env : Env Obj QObj) (s : State Obj QObj) (plot : Plot) :
    generatePlot env s plot
      = (releasePlot s plot).andThen fun s1 => publishPlot env s1 plot := rfl

theorem releasePlot_held (s : State Obj QObj) (plot : Plot) (slot : PlotSlot)
    (hslot : s.mPlots plot.name = some slot) (hdel : slot.deleted = false) :
    releasePlot s plot = Step.ok { s with
      mPlots := Function.update s.mPlots plot.name (some { slot with deleted := true }),
      objectsManager := s.objectsManager ++ [PublishCall.stopPublishing plot.name] } := by
  unfold releasePlot
  simp only [hslot, hdel, Bool.false_eq_true, if_false]

theorem releasePlot_slot (s : State Obj QObj) (plot : Plot)
    (hok : (releasePlot s plot).failed = false) (slot : PlotSlot)
    (hslot : (releasePlot s plot).state.mPlots plot.name = some slot) :
    slot.deleted = true := by
  unfold releasePlot at hok hslot
  cases hm : s.mPlots plot.name with
  | none =>
    rw [hm] at hslot
    simp only [Step.ok] at hslot
    rw [hm] at hslot
    exact absurd hslot (by simp)
  | some old =>
    rw [hm] at hok hslot
    cases hd : old.deleted with
    | true =>
      simp only [hd, if_true, Step.fail] at hok
      exact absurd hok (by simp)
    | false =>
      simp only [hd, Bool.false_eq_true, if_false, Step.ok, Function.update_same,
        Option.some.injEq] at hslot
      rw [← hslot]

theorem publishPlot_outcome (env : Env Obj QObj) (s : State Obj QObj) (plot : Plot) :
    publishPlot env s plot =
      match plotCanvas env s plot with
      | none => Step.fail s
      | some c => Step.ok { s with
          mPlots := Function.update s.mPlots plot.name (some { canvas := c, deleted := false }),
          objectsManager := s.objectsManager ++ [PublishCall.startPublishing c] } := by
  unfold publishPlot plotCanvas
  dsimp only
  cases substr plot.varexp 0 (find plot.varexp ".") with
  | none => rfl
  | some varName =>
    simp only
    split
    · rename_i h; simp only [h]
    · rfl

/-- C13: in every state a task reaches from `initialize` by calls of `update`,
`generatePlots` and `finalize`, the published plot objects have pairwise
distinct names, each is the live canvas held in `mPlots` under its name, and
they are at most as many as the distinct configured plot names. The body of
the loop over the plots is the release step followed by the publish step.
When the canvas held under the name of a plot is live, the release step
completes: it logs `stopPublishing(name)` and deletes that canvas, which was
published before and is not afterwards, no object of that name staying
published; the publish step runs on these members, so a regeneration that
completes logs `stopPublishing(name)` then `startPublishing` of the new
canvas, and one that ends by an error leaves the old canvas deleted and
unpublished. The publish step never stores over a live canvas. -/
theorem no_stale_plot_objects (env : Env Obj QObj) (name : String)
    (config : TrendingTaskConfigTPC) (s : State Obj QObj)
    (h : Reachable env name config s) :
    ((publishedPlots s.objectsManager).map TCanvas.fName).Nodup ∧
    (∀ c ∈ publishedPlots s.objectsManager,
      s.mPlots c.fName = some { canvas := c, deleted := false }) ∧
    (publishedPlots s.objectsManager).length ≤ ((config.plots.map Plot.name).dedup).length ∧
    (∀ (plot : Plot) (slot : PlotSlot), s.mPlots plot.name = some slot →
      slot.deleted = false → (generatePlot env s plot).failed = false →
      ∃ c, (generatePlot env s plot).state.objectsManager = s.objectsManager ++
          [PublishCall.stopPublishing plot.name, PublishCall.startPublishing c] ∧
        (generatePlot env s plot).state.mPlots plot.name
          = some { canvas := c, deleted := false } ∧
        publishedPlots (generatePlot env s plot).state.objectsManager
          = (publishedPlots s.objectsManager).eraseP (fun d => decide (d.fName = plot.name))
            ++ [c]) ∧
    (∀ plot : Plot, generatePlot env s plot
      = (releasePlot s plot).andThen fun s1 => publishPlot env s1 plot) ∧
    (∀ (plot : Plot) (slot : PlotSlot), s.mPlots plot.name = some slot →
      slot.deleted = false →
      releasePlot s plot = Step.ok { s with
        mPlots := Function.update s.mPlots plot.name
          (some { canvas := slot.canvas, deleted := true }),
        objectsManager := s.objectsManager ++ [PublishCall.stopPublishing plot.name] } ∧
      slot.canvas ∈ publishedPlots s.objectsManager ∧
      slot.canvas ∉ publishedPlots (releasePlot s plot).state.objectsManager ∧
      (∀ d ∈ publishedPlots (releasePlot s plot).state.objectsManager, d.fName ≠ plot.name) ∧
      generatePlot env s plot = publishPlot env (releasePlot s plot).state plot ∧
      ((generatePlot env s plot).failed = true →
        (generatePlot env s plot).state = (releasePlot s plot).state ∧
        (generatePlot env s plot).state.mPlots plot.name
          = some { canvas := slot.canvas, deleted := true } ∧
        ∀ d ∈ publishedPlots (generatePlot env s plot).state.objectsManager,
          d.fName ≠ plot.name)) ∧
    (∀ (plot : Plot), (releasePlot s plot).failed = false →
      ∀ slot, (releasePlot s plot).state.mPlots plot.name = some slot → slot.deleted = true) ∧
    (∀ (plot : Plot) (s1 : State Obj QObj),
      ((publishPlot env s1 plot).failed = true ∧ (publishPlot env s1 plot).state = s1) ∨
      ∃ c, publishPlot env s1 plot = Step.ok { s1 with
        mPlots := Function.update s1.mPlots plot.name (some { canvas := c, deleted := false }),
        objectsManager := s1.objectsManager ++ [PublishCall.startPublishing c] }) := by
  obtain ⟨⟨i1, i2, i3⟩, hcfg⟩ := reachable_inv env name config s h
  refine ⟨i1, fun c hc => (i2 c hc).1, ?_, ?_, fun plot => generatePlot_release_publish env s plot,
    ?_, fun plot hok slot hslot => releasePlot_slot s plot hok slot hslot, ?_⟩
  · have hsub : (publishedPlots s.objectsManager).map TCanvas.fName
        ⊆ (config.plots.map Plot.name).dedup := by
      intro n hn
      obtain ⟨c, hc, hcn⟩ := List.mem_map.mp hn
      rw [List.mem_dedup, ← hcn, ← hcfg]
      exact (i2 c hc).2
    have := (List.subperm_of_subset i1 hsub).length_le
    simpa using this
  · intro plot slot hslot hdel hok
    rw [generatePlot_held env s plot slot hslot hdel] at hok ⊢
    cases hc : plotCanvas env s plot with
    | none => rw [hc] at hok; exact absurd hok (by simp [Step.fail])
    | some c =>
      refine ⟨c, rfl, ?_, ?_⟩
      · show Function.update s.mPlots plot.name _ plot.name = _
        rw [Function.update_same]
      · show publishedPlots (_ ++ _) = _
        rw [publishedPlots_append]; rfl
  · intro plot slot hslot hdel
    have hrel := releasePlot_held s plot slot hslot hdel
    have hgone : ∀ d ∈ publishedPlots (releasePlot s plot).state.objectsManager,
        d.fName ≠ plot.name := by
      intro d hd
      rw [hrel] at hd
      have hd' : d ∈ publishedPlots
          (s.objectsManager ++ [PublishCall.stopPublishing plot.name]) := hd
      rw [publishedPlots_append] at hd'
      exact eraseP_name_not_mem plot.name _ i1 d hd'
    have hgen : generatePlot env s plot = publishPlot env (releasePlot s plot).state plot := by
      rw [generatePlot_release_publish, andThen_ok _ _ (by rw [hrel]; rfl)]
    refine ⟨hrel, (i3 plot.name slot hslot hdel).1,
      fun hmem => hgone _ hmem (i3 plot.name slot hslot hdel).2, hgone, hgen, ?_⟩
    intro hfail
    have hstate : (generatePlot env s plot).state = (releasePlot s plot).state := by
      rw [hgen] at hfail ⊢
      rw [publishPlot_outcome] at hfail ⊢
      cases hc : plotCanvas env (releasePlot s plot).state plot with
      | none => rfl
      | some c => rw [hc] at hfail; exact absurd hfail (by simp [Step.ok])
    refine ⟨hstate, ?_, ?_⟩
    · rw [hstate, hrel]
      show Function.update s.mPlots plot.name _ plot.name = _
      rw [Function.update_same]
    · rw [hstate]; exact hgone
  · intro plot s1
    rw [publishPlot_outcome]
    cases plotCanvas env s1 plot with
    | none => exact Or.inl ⟨rfl, rfl⟩
    | some c => exact Or.inr ⟨c, rfl⟩

/-- C19, on the concrete task: three updates, then `finalize`. -/
theorem tree_published_once_witness :
    (initializeTask demoEnv "trend" demoConfig).failed = false ∧
    (treeStarts (initializeTask demoEnv "trend" demoConfig).state.objectsManager
      = (if demoConfig.producePlotsOnUpdate then 1 else 0) ∧
    (∀ (s : State (List ℚ) ℚ) (t' : Trigger) (qcdb : DatabaseInterface (List ℚ) ℚ),
      treeStarts (update demoEnv s t' qcdb).state.objectsManager
        = treeStarts s.objectsManager) ∧
    treeStarts (runUpdates demoEnv (initializeTask demoEnv "trend" demoConfig).state
        [(⟨1000, demoActivity⟩, demoFound [4, 5, 6] 5),
         (⟨2000, demoActivity⟩, demoAbsent),
         (⟨3000, demoActivity⟩, demoFound [7, 8, 9] 2)]).objectsManager
      = (if demoConfig.producePlotsOnUpdate then 1 else 0) ∧
    treeStarts (finalize demoEnv (runUpdates demoEnv
        (initializeTask demoEnv "trend" demoConfig).state
        [(⟨1000, demoActivity⟩, demoFound [4, 5, 6] 5),
         (⟨2000, demoActivity⟩, demoAbsent),
         (⟨3000, demoActivity⟩, demoFound [7, 8, 9] 2)])
        ⟨4000, demoActivity⟩).state.objectsManager
      = treeStarts (runUpdates demoEnv (initializeTask demoEnv "trend" demoConfig).state
        [(⟨1000, demoActivity⟩, demoFound [4, 5, 6] 5),
         (⟨2000, demoActivity⟩, demoAbsent),
         (⟨3000, demoActivity⟩, demoFound [7, 8, 9] 2)]).objectsManager
        + (if demoConfig.producePlotsOnUpdate then 0 else 1) ∧
    treeStarts (finalize demoEnv (runUpdates demoEnv
        (initializeTask demoEnv "trend" demoConfig).state
        [(⟨1000, demoActivity⟩, demoFound [4, 5, 6] 5),
         (⟨2000, demoActivity⟩, demoAbsent),
         (⟨3000, demoActivity⟩, demoFound [7, 8, 9] 2)])
        ⟨4000, demoActivity⟩).state.objectsManager = 1) :=
  ⟨by decide, tree_published_once demoEnv "trend" demoConfig (by decide)
    [(⟨1000, demoActivity⟩, demoFound [4, 5, 6] 5),
     (⟨2000, demoActivity⟩, demoAbsent),
     (⟨3000, demoActivity⟩, demoFound [7, 8, 9] 2)] ⟨4000, demoActivity⟩⟩

/-- C13, on the concrete task after one update and `finalize`: the canvas of
the plot is held, live; regenerating the plot completes, and regenerating it
in mode `multigraphtime` ends by an error after the release. -/
theorem no_stale_plot_objects_witness :
    Reachable demoEnv "trend" demoConfig demoFinal ∧
    (demoFinal.mPlots "plot").map PlotSlot.deleted = some false ∧
    (generatePlot demoEnv demoFinal (demoPlot "src.val:time" "errY:errX")).failed = false ∧
    (generatePlot demoEnv demoFinal (demoPlot "src.val:multigraphtime" "errY:errX")).failed
      = true ∧
    (((publishedPlots demoFinal.objectsManager).map TCanvas.fName).Nodup ∧
    (∀ c ∈ publishedPlots demoFinal.objectsManager,
      demoFinal.mPlots c.fName = some { canvas := c, deleted := false }) ∧
    (publishedPlots demoFinal.objectsManager).length
      ≤ ((demoConfig.plots.map Plot.name).dedup).length ∧
    (∀ (plot : Plot) (slot : PlotSlot), demoFinal.mPlots plot.name = some slot →
      slot.deleted = false → (generatePlot demoEnv demoFinal plot).failed = false →
      ∃ c, (generatePlot demoEnv demoFinal plot).state.objectsManager = demoFinal.objectsManager ++
          [PublishCall.stopPublishing plot.name, PublishCall.startPublishing c] ∧
        (generatePlot demoEnv demoFinal plot).state.mPlots plot.name
          = some { canvas := c, deleted := false } ∧
        publishedPlots (generatePlot demoEnv demoFinal plot).state.objectsManager
          = (publishedPlots demoFinal.objectsManager).eraseP (fun d => decide (d.fName = plot.name))
            ++ [c]) ∧
    (∀ plot : Plot, generatePlot demoEnv demoFinal plot
      = (releasePlot demoFinal plot).andThen fun s1 => publishPlot demoEnv s1 plot) ∧
    (∀ (plot : Plot) (slot : PlotSlot), demoFinal.mPlots plot.name = some slot →
      slot.deleted = false →
      releasePlot demoFinal plot = Step.ok { demoFinal with
        mPlots := Function.update demoFinal.mPlots plot.name
          (some { canvas := slot.canvas, deleted := true }),
        objectsManager := demoFinal.objectsManager ++ [PublishCall.stopPublishing plot.name] } ∧
      slot.canvas ∈ publishedPlots demoFinal.objectsManager ∧
      slot.canvas ∉ publishedPlots (releasePlot demoFinal plot).state.objectsManager ∧
      (∀ d ∈ publishedPlots (releasePlot demoFinal plot).state.objectsManager,
        d.fName ≠ plot.name) ∧
      generatePlot demoEnv demoFinal plot
        = publishPlot demoEnv (releasePlot demoFinal plot).state plot ∧
      ((generatePlot demoEnv demoFinal plot).failed = true →
        (generatePlot demoEnv demoFinal plot).state = (releasePlot demoFinal plot).state ∧
        (generatePlot demoEnv demoFinal plot).state.mPlots plot.name
          = some { canvas := slot.canvas, deleted := true } ∧
        ∀ d ∈ publishedPlots (generatePlot demoEnv demoFinal plot).state.objectsManager,
          d.fName ≠ plot.name)) ∧
    (∀ (plot : Plot), (releasePlot demoFinal plot).failed = false →
      ∀ slot, (releasePlot demoFinal plot).state.mPlots plot.name = some slot →
        slot.deleted = true) ∧
    (∀ (plot : Plot) (s1 : State (List ℚ) ℚ),
      ((publishPlot demoEnv s1 plot).failed = true ∧ (publishPlot demoEnv s1 plot).state = s1) ∨
      ∃ c, publishPlot demoEnv s1 plot = Step.ok { s1 with
        mPlots := Function.update s1.mPlots plot.name (some { canvas := c, deleted := false }),
        objectsManager := s1.objectsManager ++ [PublishCall.startPublishing c] })) :=
  ⟨Reachable.afterFinalize _ _ (Reachable.afterUpdate _ _ _ (Reachable.afterInit (by decide))),
   by decide, by decide, by decide,
   no_stale_plot_objects demoEnv "trend" demoConfig demoFinal
    (Reachable.afterFinalize _ _ (Reachable.afterUpdate _ _ _ (Reachable.afterInit (by decide))))⟩

end LifeTheorems

/-! ## The stored times of the rows -/

section RowTimes

variable {Obj QObj : Type}

theorem update_times (env : Env Obj QObj) (s : State Obj QObj) (t : Trigger)
    (qcdb : DatabaseInterface Obj QObj) (h : HasReductors s) :
    (update env s t qcdb).state.mTrend.entries.map Entry.time
      = s.mTrend.entries.map Entry.time ++ [(t.timestamp / 1000) % 2 ^ 32] := by
  obtain ⟨row, h1, h2, _⟩ := trendValues_row s t qcdb h
  have e : (update env s t qcdb).state.mTrend = (trendValues s t qcdb).state.mTrend := by
    rcases update_state env s t qcdb with e | e
    · rw [e]
    · rw [e]; exact (generatePlots_sameData env _).2.2.2.1
  rw [e, h1, List.map_append, List.map_singleton, h2]

theorem runUpdates_times (env : Env Obj QObj) :
    ∀ (us : List (Trigger × DatabaseInterface Obj QObj)) (s : State Obj QObj),
      HasReductors s →
      (runUpdates env s us).mTrend.entries.map Entry.time
        = s.mTrend.entries.map Entry.time
          ++ us.map (fun u => (u.1.timestamp / 1000) % 2 ^ 32) := by
  intro us
  induction us with
  | nil => intro s _; exact (List.append_nil _).symm
  | cons u us ih =>
    intro s h
    show (runUpdates env (update env s u.1 u.2).state us).mTrend.entries.map Entry.time = _
    rw [ih _ (update_spec env s u.1 u.2 h).1, update_times env s u.1 u.2 h, List.map_cons,
      List.append_assoc, List.singleton_append]

/-- C11, amended: after `initialize` and any updates, the stored times of the
rows are, in the order of the rows, the trigger timestamps divided by 1000 and
reduced modulo 2^32; they are in ascending order whenever the triggers are
delivered with ascending timestamps, each below 2^32 seconds. -/
theorem row_times_follow_triggers (env : Env Obj QObj) (name : String)
    (config : TrendingTaskConfigTPC)
    (hinit : (initializeTask env name config).failed = false)
    (us : List (Trigger × DatabaseInterface Obj QObj)) :
    (runUpdates env (initializeTask env name config).state us).mTrend.entries.map Entry.time
      = us.map (fun u => (u.1.timestamp / 1000) % 2 ^ 32) ∧
    ((us.map (fun u => u.1.timestamp)).Pairwise (fun a b => a ≤ b) →
      (∀ u ∈ us, u.1.timestamp / 1000 < 2 ^ 32) →
      ((runUpdates env (initializeTask env name config).state us).mTrend.entries.map
        Entry.time).Pairwise (fun a b => a ≤ b)) := by
  obtain ⟨_, h0, hred⟩ := initializeTask_spec env name config hinit
  have ht := runUpdates_times env us _ hred
  rw [h0, List.map_nil, List.nil_append] at ht
  refine ⟨ht, fun hord hfit => ?_⟩
  rw [ht, List.pairwise_map]
  rw [List.pairwise_map] at hord
  refine hord.imp_of_mem ?_
  intro a b ha hb hab
  rw [Nat.mod_eq_of_lt (hfit a ha), Nat.mod_eq_of_lt (hfit b hb)]
  exact Nat.div_le_div_right hab

/-- C11 fails: with triggers delivered in ascending order, the row of the
trigger at 4294967296 s is stored with time 0 after the row of time
4294967295 (`mTime` is a 32-bit `UInt_t`); and a trigger with a smaller
timestamp than the one before it is stored as delivered. -/
theorem row_times_counterexample :
    (initializeTask demoEnv "trend" demoConfig).failed = false ∧
    (runUpdates demoEnv demoInit
      [(⟨4294967295000, demoActivity⟩, demoAbsent),
       (⟨4294967296000, demoActivity⟩, demoAbsent)]).mTrend.entries.map Entry.time
      = [4294967295, 0] ∧
    (runUpdates demoEnv demoInit
      [(⟨2000, demoActivity⟩, demoAbsent),
       (⟨1000, demoActivity⟩, demoAbsent)]).mTrend.entries.map Entry.time = [2, 1] := by
  decide

/-- C11 amended, on the concrete task with three triggers. -/
theorem row_times_follow_triggers_witness :
    (initializeTask demoEnv "trend" demoConfig).failed = false ∧
    demoThree.mTrend.entries.map Entry.time
      = [1000 / 1000 % 2 ^ 32, 2000 / 1000 % 2 ^ 32, 3000 / 1000 % 2 ^ 32] ∧
    (demoThree.mTrend.entries.map Entry.time).Pairwise (fun a b => a ≤ b) :=
  ⟨by decide,
   (row_times_follow_triggers demoEnv "trend" demoConfig (by decide)
    [(⟨1000, demoActivity⟩, demoFound [4, 5, 6] 5),
     (⟨2000, demoActivity⟩, demoAbsent),
     (⟨3000, demoActivity⟩, demoFound [7, 8, 9] 2)]).1,
   (row_times_follow_triggers demoEnv "trend" demoConfig (by decide)
    [(⟨1000, demoActivity⟩, demoFound [4, 5, 6] 5),
     (⟨2000, demoActivity⟩, demoAbsent),
     (⟨3000, demoActivity⟩, demoFound [7, 8, 9] 2)]).2 (by decide) (by decide)⟩

end RowTimes

/-! ## The columns of the tree -/

section ColumnTheorems

variable {Obj QObj : Type}

theorem Branch_self (t : TTree) (n : String) (k : BranchKind) :
    ((t.Branch n k).branches n).isSome = true := by
  unfold TTree.Branch
  split
  · assumption
  · simp

theorem Branch_mono (t : TTree) (n m : String) (k : BranchKind)
    (h : (t.branches m).isSome = true) : ((t.Branch n k).branches m).isSome = true := by
  unfold TTree.Branch
  split
  · exact h
  · rename_i hn
    have hne : m ≠ n := fun e => hn (e ▸ h)
    simpa [Function.update_noteq hne] using h

theorem Branch_only (t : TTree) (n m : String) (k : BranchKind)
    (h : ((t.Branch n k).branches m).isSome = true) :
    (t.branches m).isSome = true ∨ m = n := by
  unfold TTree.Branch at h
  split at h
  · exact Or.inl h
  · by_cases hm : m = n
    · exact Or.inr hm
    · left; simpa [Function.update_noteq hm] using h

theorem initSource_branch_keeps (env : Env Obj QObj) (s : State Obj QObj) (x : DataSource)
    (n : String) (h : (s.mTrend.branches n).isSome = true) :
    ((initSource env s x).state.mTrend.branches n).isSome = true := by
  unfold initSource
  simp only
  split
  · exact h
  · split
    · exact Branch_mono _ _ _ _ h
    · split
      · exact Branch_mono _ _ _ _ h
      · exact h

theorem initSource_branch_new (env : Env Obj QObj) (s : State Obj QObj) (x : DataSource)
    (hok : (initSource env s x).failed = false)
    (hty : x.type = "repository" ∨ x.type = "repository-quality") :
    ((initSource env s x).state.mTrend.branches x.name).isSome = true := by
  unfold initSource at hok ⊢
  simp only at hok ⊢
  split
  · rename_i hc; rw [hc] at hok; simp [Step.fail] at hok
  · split
    · exact Branch_self _ _ _
    · split
      · exact Branch_self _ _ _
      · rename_i h1 h2
        rcases hty with e | e
        · exact absurd e h1
        · exact absurd e h2

theorem initSource_branch_only (env : Env Obj QObj) (s : State Obj QObj) (x : DataSource)
    (n : String) (h : ((initSource env s x).state.mTrend.branches n).isSome = true) :
    (s.mTrend.branches n).isSome = true ∨
      (n = x.name ∧ (x.type = "repository" ∨ x.type = "repository-quality")) := by
  unfold initSource at h
  simp only at h
  split at h
  · exact Or.inl h
  · split at h
    · rename_i hty
      rcases Branch_only _ _ _ _ h with h' | h'
      · exact Or.inl h'
      · exact Or.inr ⟨h', Or.inl hty⟩
    · split at h
      · rename_i hty
        rcases Branch_only _ _ _ _ h with h' | h'
        · exact Or.inl h'
        · exact Or.inr ⟨h', Or.inr hty⟩
      · exact Or.inl h

theorem initializeTask_loop (env : Env Obj QObj) (name : String)
    (config : TrendingTaskConfigTPC) (h : (initializeTask env name config).failed = false) :
    (forEach (initSource env) config.dataSources (configured env name config)).failed = false ∧
    (initializeTask env name config).state.mTrend
      = (forEach (initSource env) config.dataSources (configured env name config)).state.mTrend ∧
    (initializeTask env name config).state.mReductors
      = (forEach (initSource env) config.dataSources
          (configured env name config)).state.mReductors := by
  unfold initializeTask at h ⊢
  by_cases hfail : (forEach (initSource env) config.dataSources
      (configured env name config)).failed = true
  · rw [andThen_failed _ _ hfail] at h; rw [hfail] at h; exact absurd h (by simp)
  · have hok : (forEach (initSource env) config.dataSources
        (configured env name config)).failed = false := by simpa using hfail
    rw [andThen_ok _ _ hok]
    refine ⟨hok, ?_, ?_⟩
    · split <;> rfl
    · split <;> rfl

theorem update_branches (env : Env Obj QObj) (s : State Obj QObj) (t : Trigger)
    (qcdb : DatabaseInterface Obj QObj) :
    (update env s t qcdb).state.mTrend.branches = s.mTrend.branches := by
  rcases update_state env s t qcdb with e | e
  · rw [e]; exact (trendValues_frame s t qcdb).2.2.2.2.2.1
  · rw [e, (generatePlots_sameData env _).2.2.2.1]
    exact (trendValues_frame s t qcdb).2.2.2.2.2.1

theorem reachable_branches (env : Env Obj QObj) (name : String)
    (config : TrendingTaskConfigTPC) (s : State Obj QObj)
    (h : Reachable env name config s) :
    s.mTrend.branches = (initializeTask env name config).state.mTrend.branches := by
  induction h with
  | afterInit _ => rfl
  | afterUpdate s t qcdb _ ih => rw [update_branches, ih]
  | afterGeneratePlots s _ ih => rw [(generatePlots_sameData env s).2.2.2.1, ih]
  | afterFinalize s t _ ih => rw [finalize_entries, ih]

/-- C20, amended: when `initialize` completes, the tree has no row, its
columns besides "meta" and "time" are exactly the names of the configured
sources of type "repository" or "repository-quality", every configured source
has a reductor bound to its name, and no later update, plot generation or
`finalize` changes the columns. -/
theorem columns_fixed_after_initialize (env : Env Obj QObj) (name : String)
    (config : TrendingTaskConfigTPC)
    (hinit : (initializeTask env name config).failed = false) :
    (initializeTask env name config).state.mTrend.entries = [] ∧
    (∀ ds ∈ config.dataSources, ds.type = "repository" ∨ ds.type = "repository-quality" →
      ((initializeTask env name config).state.mTrend.branches ds.name).isSome = true) ∧
    (∀ n, ((initializeTask env name config).state.mTrend.branches n).isSome = true →
      n = "meta" ∨ n = "time" ∨ ∃ ds ∈ config.dataSources, ds.name = n ∧
        (ds.type = "repository" ∨ ds.type = "repository-quality")) ∧
    (∀ ds ∈ config.dataSources,
      ∃ r, (initializeTask env name config).state.mReductors ds.name = some r) ∧
    (∀ s, Reachable env name config s →
      s.mTrend.branches = (initializeTask env name config).state.mTrend.branches) := by
  obtain ⟨hcfg, h0, hred⟩ := initializeTask_spec env name config hinit
  obtain ⟨hok, htrend, _⟩ := initializeTask_loop env name config hinit
  refine ⟨h0, ?_, ?_, ?_, fun s hs => reachable_branches env name config s hs⟩
  · intro ds hds hty
    rw [htrend]
    exact forEach_establishes
      (fun (x : DataSource) (s : State Obj QObj) =>
        x.type = "repository" ∨ x.type = "repository-quality" →
          (s.mTrend.branches x.name).isSome = true)
      (initSource env) (fun s x hx hty => initSource_branch_new env s x hx hty)
      (fun s x y hy hty => initSource_branch_keeps env s x y.name (hy hty))
      config.dataSources (configured env name config) hok ds hds hty
  · rw [htrend]
    refine forEach_invariant_mem
      (fun s : State Obj QObj => ∀ n, (s.mTrend.branches n).isSome = true →
        n = "meta" ∨ n = "time" ∨ ∃ ds ∈ config.dataSources, ds.name = n ∧
          (ds.type = "repository" ∨ ds.type = "repository-quality"))
      (initSource env) config.dataSources ?_ (configured env name config) ?_
    · intro s x hx hs n hn
      rcases initSource_branch_only env s x n hn with h' | ⟨h1, h2⟩
      · exact hs n h'
      · exact Or.inr (Or.inr ⟨x, hx, h1.symm, h2⟩)
    · intro n hn
      have h1 := Branch_only ((TTree.mk name (fun _ => none) []).Branch "meta"
        BranchKind.metaData) "time" n BranchKind.time hn
      rcases h1 with h1 | h1
      · have h2 := Branch_only _ _ _ _ h1
        rcases h2 with h2 | h2
        · simp at h2
        · exact Or.inl h2
      · exact Or.inr (Or.inl h1)
  · intro ds hds
    exact hred ds (by rw [hcfg]; exact hds)

/-- C20 fails: a configured source of type "other" gets its reductor from
`initialize`, which completes, but no column, and the rows appended later
hold nothing for it. -/
theorem unknown_type_no_column :
    (initializeTask demoEnv "trend" demoOtherConfig).failed = false ∧
    demoOtherConfig.dataSources = [demoSource, demoOther] ∧
    (initializeTask demoEnv "trend" demoOtherConfig).state.mTrend.branches demoOther.name
      = none ∧
    ((initializeTask demoEnv "trend" demoOtherConfig).state.mReductors demoOther.name).isSome
      = true ∧
    (runUpdates demoEnv (initializeTask demoEnv "trend" demoOtherConfig).state
      [(⟨1000, demoActivity⟩, demoFound [4, 5, 6] 5)]).mTrend.entries.map
        (fun e => (e.columns demoOther.name).isSome) = [false] := by
  decide

/-- C20 amended, on the concrete task. -/
theorem columns_fixed_after_initialize_witness :
    (initializeTask demoEnv "trend" demoConfig).failed = false ∧
    ((initializeTask demoEnv "trend" demoConfig).state.mTrend.entries = [] ∧
    (∀ ds ∈ demoConfig.dataSources, ds.type = "repository" ∨ ds.type = "repository-quality" →
      ((initializeTask demoEnv "trend" demoConfig).state.mTrend.branches ds.name).isSome
        = true) ∧
    (∀ n, ((initializeTask demoEnv "trend" demoConfig).state.mTrend.branches n).isSome = true →
      n = "meta" ∨ n = "time" ∨ ∃ ds ∈ demoConfig.dataSources, ds.name = n ∧
        (ds.type = "repository" ∨ ds.type = "repository-quality")) ∧
    (∀ ds ∈ demoConfig.dataSources,
      ∃ r, (initializeTask demoEnv "trend" demoConfig).state.mReductors ds.name = some r) ∧
    (∀ s, Reachable demoEnv "trend" demoConfig s →
      s.mTrend.branches = (initializeTask demoEnv "trend" demoConfig).state.mTrend.branches)) :=
  ⟨by decide, columns_fixed_after_initialize demoEnv "trend" demoConfig (by decide)⟩

end ColumnTheorems

/-! ## Quality sources and trend modes -/

section QualityModes

variable {Obj QObj : Type}

/-- C15 fails on the concrete task after three triggers, for a plot of the
quality source "qual" with mode "slices": `drawCanvasQO` draws the same graph
of the quality against time as for mode "time" (one point per row), and
`generatePlot` completes and publishes the canvas holding that graph. -/
theorem quality_other_mode_draws_graph :
    getTrendVariables "qual.qualitylevel:slices" = some ⟨"qual", "qualitylevel", "slices"⟩ ∧
    demoThree.mIsMoObject "qual" = false ∧
    drawCanvasQO demoThree ⟨"plot", "Plot", []⟩ "qual.qualitylevel:slices" "plot" ""
      = some ⟨"plot", "Plot", [[Primitive.graph ⟨"Graph", "quality",
          [⟨1, 0, 0, 0⟩, ⟨2, 0, 0, 0⟩, ⟨3, 2, 0, 0⟩]⟩]]⟩ ∧
    drawCanvasQO demoThree ⟨"plot", "Plot", []⟩ "qual.qualitylevel:slices" "plot" ""
      = drawCanvasQO demoThree ⟨"plot", "Plot", []⟩ "qual.qualitylevel:time" "plot" "" ∧
    (generatePlot demoEnv demoThree (demoPlot "qual.qualitylevel:slices" "")).failed = false ∧
    (generatePlot demoEnv demoThree (demoPlot "qual.qualitylevel:slices" "")).state.objectsManager
      = [PublishCall.startPublishing ⟨"plot", "Plot", [[Primitive.graph ⟨"Graph", "Plot",
          [⟨1, 0, 0, 0⟩, ⟨2, 0, 0, 0⟩, ⟨3, 2, 0, 0⟩]⟩]]⟩] := by
  decide

end QualityModes

/-! ## The sub-plots of a time-mode plot -/

section SubPlots

variable {Obj QObj : Type}

/-- C16, amended: the number of sub-plots of a time-mode plot is the slice
count recorded by the latest update. When that update found no object for the
source, the count is 0 and `drawCanvasMO` completes without building any
graph: no pad of the canvas holds an object, whatever the earlier rows hold. -/
theorem subplots_follow_latest_update (s : State Obj QObj) (t : Trigger)
    (qcdb : DatabaseInterface Obj QObj) (hred : HasReductors s)
    (hnd : (s.mConfig.dataSources.map DataSource.name).Nodup)
    (ds : DataSource) (hds : ds ∈ s.mConfig.dataSources) (hty : ds.type = "repository")
    (hobj : (qcdb.retrieveMO ds.path ds.name t.timestamp t.activity).bind
      MonitorObject.getObject = none)
    (thisCanvas : TCanvas) (var name opt err : String) (axis : List (List ℚ))
    (tv : TrendVariables) (te : TrendErrors)
    (hvar : getTrendVariables var = some tv) (herr : getTrendErrors err = some te)
    (htrend : tv.trend = "time") (hsrc : tv.sourceName = ds.name) :
    (trendValues s t qcdb).state.mNumberPads ds.name = 0 ∧
    drawCanvasMO (trendValues s t qcdb).state thisCanvas var name opt err axis
      = some (thisCanvas.DivideSquare 0) ∧
    ∀ prims ∈ (thisCanvas.DivideSquare 0).pads, prims = [] := by
  have hk : (trendValues s t qcdb).state.mNumberPads ds.name = 0 := by
    rw [(trendValues_at s t qcdb hred hnd ds hds).2.2]
    unfold trendSource
    simp [hty, hobj, Step.ok]
  refine ⟨hk, ?_, ?_⟩
  · rw [drawCanvasMO_time _ thisCanvas var name opt err axis tv te hvar herr htrend, hsrc, hk]
    rfl
  · intro prims h
    simp [TCanvas.DivideSquare] at h

/-- C16 fails on the concrete task whose object is found with three slices at
the first trigger and absent at the second one: both rows hold three slice
records, but the time-mode plot drawn after the second update has no
sub-plot, while after the first update it had three. -/
theorem absent_object_no_subplot :
    demoTwo.mTrend.entries.map (fun e => (e.slices "src").map List.length)
      = [some 3, some 3] ∧
    demoTwo.mNumberPads "src" = 0 ∧
    drawCanvasMO demoTwo ⟨"plot", "Plot", []⟩ "src.val:time" "plot" "" "errY:errX" []
      = some ⟨"plot", "Plot", []⟩ ∧
    demoOne.mNumberPads "src" = 3 ∧
    drawCanvasMO demoOne ⟨"plot", "Plot", []⟩ "src.val:time" "plot" "" "errY:errX" []
      = some ⟨"plot", "Plot",
          [[Primitive.graph ⟨"Graph", "slice", [⟨1, 4, 1, 2⟩]⟩],
           [Primitive.graph ⟨"Graph", "slice", [⟨1, 5, 1, 2⟩]⟩],
           [Primitive.graph ⟨"Graph", "slice", [⟨1, 6, 1, 2⟩]⟩]]⟩ := by
  decide

/-- C16 amended, on the concrete task: the second trigger finds no object. -/
theorem subplots_follow_latest_update_witness :
    (trendValues demoOne ⟨2000, demoActivity⟩ demoAbsent).state.mNumberPads demoSource.name
      = 0 ∧
    drawCanvasMO (trendValues demoOne ⟨2000, demoActivity⟩ demoAbsent).state
        ⟨"plot", "Plot", []⟩ "src.val:time" "plot" "" "errY:errX" []
      = some (TCanvas.DivideSquare ⟨"plot", "Plot", []⟩ 0) ∧
    ∀ prims ∈ (TCanvas.DivideSquare ⟨"plot", "Plot", []⟩ 0).pads, prims = [] :=
  subplots_follow_latest_update demoOne ⟨2000, demoActivity⟩ demoAbsent
    (runUpdates_spec demoEnv [(⟨1000, demoActivity⟩, demoFound [4, 5, 6] 5)] demoInit
      (initializeTask_spec demoEnv "trend" demoConfig (by decide)).2.2).1
    (by decide) demoSource (by decide) (by decide) (by decide)
    ⟨"plot", "Plot", []⟩ "src.val:time" "plot" "" "errY:errX" []
    ⟨"src", "val", "time"⟩ ⟨"errX", "errY"⟩ (by decide) (by decide) (by decide) (by decide)

end SubPlots

/-! ## Unknown modes and the overlay of mode multigraphtime -/

section TrendModes

variable {Obj QObj : Type}

/-- C18, amended: the trend mode is compared case-sensitively with "time",
"multigraphtime", "slices" and "slices2D"; for any other mode string
`drawCanvasMO` draws nothing: it completes with the canvas divided into one
pad, which holds no object. -/
theorem unknown_mode_draws_nothing (s : State Obj QObj) (thisCanvas : TCanvas)
    (var name opt err : String) (axis : List (List ℚ)) (tv : TrendVariables) (te : TrendErrors)
    (hvar : getTrendVariables var = some tv) (herr : getTrendErrors err = some te)
    (h1 : tv.trend ≠ "time") (h2 : tv.trend ≠ "multigraphtime") (h3 : tv.trend ≠ "slices")
    (h4 : tv.trend ≠ "slices2D") :
    drawCanvasMO s thisCanvas var name opt err axis = some (thisCanvas.DivideSquare 1) ∧
    (thisCanvas.DivideSquare 1).pads = [[]] := by
  refine ⟨?_, rfl⟩
  unfold drawCanvasMO
  simp only [hvar, herr, h1, h2, h3, h4, if_false]

/-- C18 fails on the concrete task whose object has a single slice: for the
mode "Time" the canvas holds no graph, for the mode "slices" it holds the
profile of the slice. -/
theorem unknown_mode_counterexample :
    demoSingle.mNumberPads "src" = 1 ∧
    drawCanvasMO demoSingle ⟨"plot", "Plot", []⟩ "src.val:Time" "plot" "" "errY:errX" []
      = some ⟨"plot", "Plot", [[]]⟩ ∧
    drawCanvasMO demoSingle ⟨"plot", "Plot", []⟩ "src.val:slices" "plot" "" "errY:errX" []
      = some ⟨"plot", "Plot", [[Primitive.graph ⟨"Graph", "", [⟨10, 4, 1, 2⟩]⟩]]⟩ := by
  decide

/-- C18 amended, on the concrete task with a single slice and the mode "Time". -/
theorem unknown_mode_draws_nothing_witness :
    drawCanvasMO demoSingle ⟨"plot", "Plot", []⟩ "src.val:Time" "plot" "" "errY:errX" []
      = some (TCanvas.DivideSquare ⟨"plot", "Plot", []⟩ 1) ∧
    (TCanvas.DivideSquare ⟨"plot", "Plot", []⟩ 1).pads = [[]] :=
  unknown_mode_draws_nothing demoSingle ⟨"plot", "Plot", []⟩ "src.val:Time" "plot" ""
    "errY:errX" [] ⟨"src", "val", "Time"⟩ ⟨"errX", "errY"⟩ (by decide) (by decide) (by decide)
    (by decide) (by decide) (by decide)

end TrendModes

/-! ## Regeneration of the plots -/

section Regeneration

variable {Obj QObj : Type}

theorem startedCanvases_append (a b : List PublishCall) :
    startedCanvases (a ++ b) = startedCanvases a ++ startedCanvases b := by
  induction a with
  | nil => rfl
  | cons x xs ih =>
    cases x with
    | startPublishingTree n =>
      show startedCanvases (xs ++ b) = startedCanvases xs ++ startedCanvases b
      exact ih
    | startPublishing c =>
      show c :: startedCanvases (xs ++ b) = c :: startedCanvases xs ++ startedCanvases b
      rw [ih]; rfl
    | stopPublishing n =>
      show startedCanvases (xs ++ b) = startedCanvases xs ++ startedCanvases b
      exact ih

/-- The two ways the body of the loop over the plots ends: the canvas of the
plot is built, held and published; or the body ends by an error and no canvas
is published. -/
theorem generatePlot_outcome (env : Env Obj QObj) (s : State Obj QObj) (plot : Plot) :
    (∃ c, plotCanvas env s plot = some c ∧ (generatePlot env s plot).failed = false ∧
      (generatePlot env s plot).state.mPlots
        = Function.update s.mPlots plot.name (some { canvas := c, deleted := false }) ∧
      ∃ calls, (generatePlot env s plot).state.objectsManager = s.objectsManager ++ calls ∧
        startedCanvases calls = [c]) ∨
    ((generatePlot env s plot).failed = true ∧
      ∃ calls, (generatePlot env s plot).state.objectsManager = s.objectsManager ++ calls ∧
        startedCanvases calls = []) := by
  cases hslot : s.mPlots plot.name with
  | none =>
    rw [generatePlot_free env s plot hslot]
    cases hc : plotCanvas env s plot with
    | none => exact Or.inr ⟨rfl, [], (List.append_nil _).symm, rfl⟩
    | some c => exact Or.inl ⟨c, rfl, rfl, rfl, [PublishCall.startPublishing c], rfl, rfl⟩
  | some slot =>
    by_cases hdel : slot.deleted = true
    · rw [generatePlot_deleted env s plot slot hslot hdel]
      exact Or.inr ⟨rfl, [PublishCall.stopPublishing plot.name], rfl, rfl⟩
    · rw [generatePlot_held env s plot slot hslot (by simpa using hdel)]
      cases hc : plotCanvas env s plot with
      | none => exact Or.inr ⟨rfl, [PublishCall.stopPublishing plot.name], rfl, rfl⟩
      | some c =>
        exact Or.inl ⟨c, rfl, rfl, rfl,
          [PublishCall.stopPublishing plot.name, PublishCall.startPublishing c], rfl, rfl⟩

theorem generatePlot_succeeds (env : Env Obj QObj) (s : State Obj QObj) (plot : Plot)
    (c : TCanvas) (hc : plotCanvas env s plot = some c)
    (hlive : ∀ slot, s.mPlots plot.name = some slot → slot.deleted = false) :
    (generatePlot env s plot).failed = false := by
  cases hslot : s.mPlots plot.name with
  | none => rw [generatePlot_free env s plot hslot, hc]; rfl
  | some slot => rw [generatePlot_held env s plot slot hslot (hlive slot hslot), hc]; rfl

theorem generatePlot_fails (env : Env Obj QObj) (s : State Obj QObj) (plot : Plot)
    (hc : plotCanvas env s plot = none) : (generatePlot env s plot).failed = true := by
  rcases generatePlot_outcome env s plot with ⟨c, h, _⟩ | ⟨h, _⟩
  · rw [hc] at h; exact absurd h (by simp)
  · exact h

/-- A run of the loop over the plots that completes: every plot gets its
canvas, these canvases are the ones whose publication is started, in the
order of the plots, and the canvas held under the name of each plot is not
deleted. -/
theorem plotsLoop_ok (env : Env Obj QObj) :
    ∀ (plots : List Plot) (s : State Obj QObj),
      (forEach (generatePlot env) plots s).failed = false →
      ∃ cs calls, plots.map (plotCanvas env s) = cs.map some ∧
        (forEach (generatePlot env) plots s).state.objectsManager
          = s.objectsManager ++ calls ∧
        startedCanvases calls = cs ∧
        ∀ n, (n ∈ plots.map Plot.name ∨
            ∃ c, s.mPlots n = some { canvas := c, deleted := false }) →
          ∃ c, (forEach (generatePlot env) plots s).state.mPlots n
            = some { canvas := c, deleted := false } := by
  intro plots
  induction plots with
  | nil =>
    intro s _
    refine ⟨[], [], rfl, (List.append_nil _).symm, rfl, ?_⟩
    intro n hn
    rcases hn with hn | hn
    · simp at hn
    · exact hn
  | cons p ps ih =>
    intro s hok
    have hstep : (generatePlot env s p).failed = false := by
      by_contra hf
      have hf' : (generatePlot env s p).failed = true := by simpa using hf
      have : (forEach (generatePlot env) (p :: ps) s).failed = true := by
        show ((generatePlot env s p).andThen (forEach (generatePlot env) ps)).failed = true
        rw [andThen_failed _ _ hf']; exact hf'
      rw [this] at hok; exact absurd hok (by simp)
    have heq : forEach (generatePlot env) (p :: ps) s
        = forEach (generatePlot env) ps (generatePlot env s p).state := by
      show (generatePlot env s p).andThen (forEach (generatePlot env) ps) = _
      rw [andThen_ok _ _ hstep]
    rw [heq] at hok ⊢
    rcases generatePlot_outcome env s p with ⟨c, hc, _, hpl, calls, hlog, hst⟩ | ⟨hf, _⟩
    · obtain ⟨cs, calls', h1, h2, h3, h4⟩ := ih _ hok
      have hsd := generatePlot_sameData env s p
      refine ⟨c :: cs, calls ++ calls', ?_, ?_, ?_, ?_⟩
      · rw [List.map_cons, List.map_cons, hc, ← h1]
        congr 1
        exact List.map_congr_left (fun q _ => (plotCanvas_congr env _ _ hsd q).symm)
      · rw [h2, hlog, List.append_assoc]
      · rw [startedCanvases_append, hst, h3]; rfl
      · intro n hn
        apply h4 n
        by_cases hnp : n = p.name
        · right; exact ⟨c, by rw [hpl, hnp, Function.update_same]⟩
        · rcases hn with hn | ⟨c0, hc0⟩
          · left
            rcases List.mem_map.mp hn with ⟨q, hq, hqn⟩
            rcases List.mem_cons.mp hq with e | e
            · exact absurd (by rw [← hqn, e]) hnp
            · exact List.mem_map.mpr ⟨q, e, hqn⟩
          · right; exact ⟨c0, by rw [hpl, Function.update_noteq hnp]; exact hc0⟩
    · rw [hf] at hstep; exact absurd hstep (by simp)

/-- The loop over the plots completes when every plot has a canvas and no
canvas held under the name of a plot is deleted. -/
theorem plotsLoop_succeeds (env : Env Obj QObj) :
    ∀ (plots : List Plot) (s : State Obj QObj),
      (∀ p ∈ plots, ∃ c, plotCanvas env s p = some c) →
      (∀ p ∈ plots, ∀ slot, s.mPlots p.name = some slot → slot.deleted = false) →
      (forEach (generatePlot env) plots s).failed = false := by
  intro plots
  induction plots with
  | nil => intro s _ _; rfl
  | cons p ps ih =>
    intro s hcs hlive
    obtain ⟨c, hc⟩ := hcs p (by simp)
    have hstep := generatePlot_succeeds env s p c hc (hlive p (by simp))
    show ((generatePlot env s p).andThen (forEach (generatePlot env) ps)).failed = false
    rw [andThen_ok _ _ hstep]
    have hsd := generatePlot_sameData env s p
    apply ih
    · intro q hq
      obtain ⟨c', hc'⟩ := hcs q (by simp [hq])
      exact ⟨c', by rw [plotCanvas_congr env _ _ hsd q]; exact hc'⟩
    · intro q hq slot hslot
      rcases generatePlot_outcome env s p with ⟨c1, _, _, hpl, _⟩ | ⟨hf, _⟩
      · rw [hpl] at hslot
        by_cases hqp : q.name = p.name
        · rw [hqp, Function.update_same] at hslot
          rw [← Option.some.inj hslot]
        · rw [Function.update_noteq hqp] at hslot
          exact hlive q (by simp [hq]) slot hslot
      · rw [hf] at hstep; exact absurd hstep (by simp)

theorem generatePlots_loop (env : Env Obj QObj) (s : State Obj QObj)
    (h : ¬ s.mTrend.GetEntries < 1) :
    generatePlots env s = forEach (generatePlot env) s.mConfig.plots s := by
  unfold generatePlots; rw [if_neg h]

/-- C12: on a task with at least one row, two calls of `generatePlots` in a
row leave the tree (the rows) and the slice counts as they were, the canvas
built for any plot from the members after the first call is the canvas built
from the members before it (same graphs, points and errors), and when the
first call completes so does the second one, and the canvases whose
publication the second call starts are those of the first call: the canvases
of the configured plots, in their order. -/
theorem generatePlots_idempotent (env : Env Obj QObj) (s : State Obj QObj)
    (hrows : 1 ≤ s.mTrend.GetEntries) :
    (generatePlots env s).state.mTrend = s.mTrend ∧
    (generatePlots env (generatePlots env s).state).state.mTrend = s.mTrend ∧
    (generatePlots env s).state.mNumberPads = s.mNumberPads ∧
    (generatePlots env (generatePlots env s).state).state.mNumberPads = s.mNumberPads ∧
    (∀ plot, plotCanvas env (generatePlots env s).state plot = plotCanvas env s plot) ∧
    ((generatePlots env s).failed = false →
      (generatePlots env (generatePlots env s).state).failed = false ∧
      ∃ cs calls1 calls2, s.mConfig.plots.map (plotCanvas env s) = cs.map some ∧
        (generatePlots env s).state.objectsManager = s.objectsManager ++ calls1 ∧
        (generatePlots env (generatePlots env s).state).state.objectsManager
          = (generatePlots env s).state.objectsManager ++ calls2 ∧
        startedCanvases calls1 = cs ∧ startedCanvases calls2 = cs) := by
  have hsd1 := generatePlots_sameData env s
  have hsd2 := generatePlots_sameData env (generatePlots env s).state
  have hsd := sameData_trans hsd1 hsd2
  refine ⟨hsd1.2.2.2.1, hsd.2.2.2.1, hsd1.2.2.2.2.2.2.2.2.1, hsd.2.2.2.2.2.2.2.2.1,
    fun plot => plotCanvas_congr env _ _ hsd1 plot, ?_⟩
  intro hok
  have hg : ¬ s.mTrend.GetEntries < 1 := by omega
  have hg' : ¬ (generatePlots env s).state.mTrend.GetEntries < 1 := by
    rw [hsd1.2.2.2.1]; exact hg
  have e1 : generatePlots env s = forEach (generatePlot env) s.mConfig.plots s :=
    generatePlots_loop env s hg
  have e2 : generatePlots env (generatePlots env s).state
      = forEach (generatePlot env) s.mConfig.plots (generatePlots env s).state := by
    rw [generatePlots_loop env _ hg', hsd1.1]
  rw [e1] at hok
  obtain ⟨cs, calls1, h1, h2, h3, h4⟩ := plotsLoop_ok env s.mConfig.plots s hok
  have hok2 : (forEach (generatePlot env) s.mConfig.plots (generatePlots env s).state).failed
      = false := by
    apply plotsLoop_succeeds
    · intro p hp
      rw [plotCanvas_congr env _ _ hsd1 p]
      have hmem : plotCanvas env s p ∈ cs.map some := by
        rw [← h1]; exact List.mem_map_of_mem _ hp
      obtain ⟨c, _, hc⟩ := List.mem_map.mp hmem
      exact ⟨c, hc.symm⟩
    · intro p hp slot hslot
      obtain ⟨c, hc⟩ := h4 p.name (Or.inl (List.mem_map_of_mem _ hp))
      rw [e1, hc] at hslot
      rw [← Option.some.inj hslot]
  obtain ⟨cs2, calls2, k1, k2, k3, _⟩ :=
    plotsLoop_ok env s.mConfig.plots (generatePlots env s).state hok2
  have hcs : cs2 = cs := by
    have : cs2.map some = cs.map some := by
      rw [← k1, ← h1]
      exact List.map_congr_left (fun q _ => plotCanvas_congr env _ _ hsd1 q)
    exact List.map_injective_iff.mpr (Option.some_injective _) this
  rw [e2]
  refine ⟨hok2, cs, calls1, calls2, h1, by rw [e1]; exact h2, k2, h3, by rw [k3, hcs]⟩

/-- C12, on the concrete task after one update. -/
theorem generatePlots_idempotent_witness :
    1 ≤ demoOne.mTrend.GetEntries ∧ (generatePlots demoEnv demoOne).failed = false ∧
    (generatePlots demoEnv demoOne).state.mTrend = demoOne.mTrend ∧
    (generatePlots demoEnv (generatePlots demoEnv demoOne).state).state.mTrend
      = demoOne.mTrend ∧
    (generatePlots demoEnv (generatePlots demoEnv demoOne).state).failed = false ∧
    ∃ cs calls1 calls2, demoOne.mConfig.plots.map (plotCanvas demoEnv demoOne) = cs.map some ∧
      (generatePlots demoEnv demoOne).state.objectsManager
        = demoOne.objectsManager ++ calls1 ∧
      (generatePlots demoEnv (generatePlots demoEnv demoOne).state).state.objectsManager
        = (generatePlots demoEnv demoOne).state.objectsManager ++ calls2 ∧
      startedCanvases calls1 = cs ∧ startedCanvases calls2 = cs :=
  ⟨by decide, by decide,
   (generatePlots_idempotent demoEnv demoOne (by decide)).1,
   (generatePlots_idempotent demoEnv demoOne (by decide)).2.1,
   ((generatePlots_idempotent demoEnv demoOne (by decide)).2.2.2.2.2 (by decide)).1,
   ((generatePlots_idempotent demoEnv demoOne (by decide)).2.2.2.2.2 (by decide)).2⟩

end Regeneration

/-! ## Plots on undeclared sources -/

section UndeclaredSources

variable {Obj QObj : Type}

theorem Branch_kind (t : TTree) (n m : String) (k k' : BranchKind)
    (h : (t.Branch n k).branches m = some k') : t.branches m = some k' ∨ m = n := by
  unfold TTree.Branch at h
  split at h
  · exact Or.inl h
  · by_cases hm : m = n
    · exact Or.inr hm
    · left; simpa [Function.update_noteq hm] using h

theorem initSource_kind (env : Env Obj QObj) (s : State Obj QObj) (x : DataSource)
    (m : String) (k' : BranchKind)
    (h : (initSource env s x).state.mTrend.branches m = some k') :
    s.mTrend.branches m = some k' ∨ m = x.name := by
  unfold initSource at h
  simp only at h
  split at h
  · exact Or.inl h
  · split at h
    · exact Branch_kind _ _ _ _ _ h
    · split at h
      · exact Branch_kind _ _ _ _ _ h
      · exact Or.inl h

theorem initSource_isMo (env : Env Obj QObj) (s : State Obj QObj) (x : DataSource)
    (n : String) (hn : n ≠ x.name) :
    (initSource env s x).state.mIsMoObject n = s.mIsMoObject n := by
  unfold initSource
  simp only
  split
  · rfl
  · split
    · simp only [Step.ok, Function.update_noteq hn]
    · split
      · simp only [Step.ok, Function.update_noteq hn]
      · rfl

theorem initializeTask_isMo (env : Env Obj QObj) (name : String)
    (config : TrendingTaskConfigTPC) (h : (initializeTask env name config).failed = false) :
    (initializeTask env name config).state.mIsMoObject
      = (forEach (initSource env) config.dataSources
          (configured env name config)).state.mIsMoObject := by
  unfold initializeTask
  rw [andThen_ok _ _ (initializeTask_loop env name config h).1]
  split <;> rfl

theorem hasReductors_sameData (s s' : State Obj QObj) (h : SameData s s')
    (hr : HasReductors s) : HasReductors s' := by
  intro ds hds
  rw [h.2.2.2.2.1]
  exact hr ds (by rw [← h.1]; exact hds)

theorem noUndeclared_sameData (s s' : State Obj QObj) (h : SameData s s')
    (hu : NoUndeclared s) : NoUndeclared s' := by
  intro n hn
  rw [h.1] at hn
  rw [h.2.2.2.1, h.2.2.2.2.2.2.2.1]
  exact hu n hn

theorem noUndeclared_init (env : Env Obj QObj) (name : String)
    (config : TrendingTaskConfigTPC) (hinit : (initializeTask env name config).failed = false) :
    NoUndeclared (initializeTask env name config).state := by
  obtain ⟨hcfg, h0, _⟩ := initializeTask_spec env name config hinit
  obtain ⟨_, htrend, _⟩ := initializeTask_loop env name config hinit
  have hmo := initializeTask_isMo env name config hinit
  have hinv := forEach_invariant_mem
    (fun s : State Obj QObj => ∀ n, n ∉ config.dataSources.map DataSource.name →
      s.mIsMoObject n = false ∧ s.mTrend.branches n ≠ some BranchKind.slices ∧
      s.mTrend.branches n ≠ some BranchKind.quality)
    (initSource env) config.dataSources
    (fun s x hx hs n hn => by
      have hne : n ≠ x.name := fun e => hn (e ▸ List.mem_map_of_mem _ hx)
      obtain ⟨a, b, c⟩ := hs n hn
      refine ⟨by rw [initSource_isMo env s x n hne]; exact a, ?_, ?_⟩
      · intro hk
        rcases initSource_kind env s x n _ hk with h' | h'
        · exact b h'
        · exact hne h'
      · intro hk
        rcases initSource_kind env s x n _ hk with h' | h'
        · exact c h'
        · exact hne h')
    (configured env name config)
    (fun n _ => by
      refine ⟨rfl, ?_, ?_⟩
      · intro hk
        rcases Branch_kind ((TTree.mk name (fun _ => none) []).Branch "meta"
          BranchKind.metaData) "time" n BranchKind.time _ hk with h1 | h1
        · rcases Branch_kind _ _ _ _ _ h1 with h2 | h2
          · simp at h2
          · subst h2; revert h1; simp [TTree.Branch]
        · subst h1; revert hk; unfold configured; simp [TTree.Branch]
      · intro hk
        rcases Branch_kind ((TTree.mk name (fun _ => none) []).Branch "meta"
          BranchKind.metaData) "time" n BranchKind.time _ hk with h1 | h1
        · rcases Branch_kind _ _ _ _ _ h1 with h2 | h2
          · simp at h2
          · subst h2; revert h1; simp [TTree.Branch]
        · subst h1; revert hk; unfold configured; simp [TTree.Branch])
  intro n hn
  rw [hcfg] at hn
  obtain ⟨a, b, c⟩ := hinv n hn
  refine ⟨by rw [hmo]; exact a, by rw [htrend]; exact b, by rw [htrend]; exact c, ?_⟩
  intro e he
  rw [h0] at he
  simp at he

theorem noUndeclared_trendValues (s : State Obj QObj) (t : Trigger)
    (qcdb : DatabaseInterface Obj QObj) (hred : HasReductors s) (hu : NoUndeclared s) :
    HasReductors (trendValues s t qcdb).state ∧ NoUndeclared (trendValues s t qcdb).state := by
  obtain ⟨f1, _, _, f4, f5, f6, _⟩ := trendValues_frame s t qcdb
  obtain ⟨row, h1, _, _, h4⟩ := trendValues_row s t qcdb hred
  refine ⟨?_, ?_⟩
  · intro ds hds
    rw [f5]
    exact hred ds (by rw [← f1]; exact hds)
  · intro n hn
    rw [f1] at hn
    obtain ⟨a, b, c, d⟩ := hu n hn
    refine ⟨by rw [f4]; exact a, by rw [f6]; exact b, by rw [f6]; exact c, ?_⟩
    intro e he
    rw [h1] at he
    rcases List.mem_append.mp he with he | he
    · exact d e he
    · rw [List.mem_singleton] at he
      rw [he, h4 n]
      cases hb : s.mTrend.branches n with
      | none => rfl
      | some k =>
        cases k with
        | metaData => rfl
        | time => rfl
        | slices => exact absurd hb b
        | quality => exact absurd hb c

theorem reachable_noUndeclared (env : Env Obj QObj) (name : String)
    (config : TrendingTaskConfigTPC) (s : State Obj QObj)
    (h : Reachable env name config s) :
    HasReductors s ∧ NoUndeclared s ∧ s.mConfig = config := by
  induction h with
  | afterInit hinit =>
    obtain ⟨hcfg, _, hred⟩ := initializeTask_spec env name config hinit
    exact ⟨hred, noUndeclared_init env name config hinit, hcfg⟩
  | afterUpdate s t qcdb _ ih =>
    obtain ⟨hr, hu, hc⟩ := ih
    obtain ⟨hr1, hu1⟩ := noUndeclared_trendValues s t qcdb hr hu
    have hc1 : (trendValues s t qcdb).state.mConfig = config :=
      (trendValues_frame s t qcdb).1.trans hc
    rcases update_state env s t qcdb with e | e
    · rw [e]; exact ⟨hr1, hu1, hc1⟩
    · rw [e]
      have hsd := generatePlots_sameData env (trendValues s t qcdb).state
      exact ⟨hasReductors_sameData _ _ hsd hr1, noUndeclared_sameData _ _ hsd hu1,
        hsd.1.trans hc1⟩
  | afterGeneratePlots s _ ih =>
    obtain ⟨hr, hu, hc⟩ := ih
    have hsd := generatePlots_sameData env s
    exact ⟨hasReductors_sameData _ _ hsd hr, noUndeclared_sameData _ _ hsd hu, hsd.1.trans hc⟩
  | afterFinalize s t _ ih =>
    obtain ⟨hr, hu, hc⟩ := ih
    have hsd0 : SameData s (if ¬ s.mConfig.producePlotsOnUpdate = true then
        { s with objectsManager :=
          s.objectsManager ++ [PublishCall.startPublishingTree s.mTrend.fName] } else s) := by
      split
      · exact ⟨rfl, rfl, rfl, rfl, rfl, rfl, rfl, rfl, rfl, rfl⟩
      · exact sameData_refl s
    have hsd : SameData s (finalize env s t).state :=
      sameData_trans hsd0 (generatePlots_sameData env _)
    exact ⟨hasReductors_sameData _ _ hsd hr, noUndeclared_sameData _ _ hsd hu, hsd.1.trans hc⟩

theorem getTrendVariables_source (v : String) (tv : TrendVariables)
    (h : getTrendVariables v = some tv) : substr v 0 (find v ".") = some tv.sourceName := by
  unfold getTrendVariables at h
  simp only [Option.bind_eq_bind, Option.bind_eq_some, Option.pure_def,
    Option.some.injEq] at h
  obtain ⟨a, h1, b, _, c, _, h4⟩ := h
  rw [h1, ← h4]

/-- The canvas of a plot on an undeclared source cannot be built: the reader
of `drawCanvasQO` finds no column of that name. -/
theorem plotCanvas_undeclared (env : Env Obj QObj) (s : State Obj QObj) (plot : Plot)
    (hu : NoUndeclared s) (hne : s.mTrend.entries ≠ [])
    (hbad : ∀ n ∈ s.mConfig.dataSources.map DataSource.name,
      substr plot.varexp 0 (find plot.varexp ".") ≠ some n) :
    plotCanvas env s plot = none := by
  unfold plotCanvas
  cases hv : substr plot.varexp 0 (find plot.varexp ".") with
  | none => rfl
  | some varName =>
    have hn : varName ∉ s.mConfig.dataSources.map DataSource.name :=
      fun hmem => hbad varName hmem hv
    obtain ⟨a, _, _, d⟩ := hu varName hn
    simp only [a, Bool.false_eq_true, if_false]
    have hq : drawCanvasQO s ⟨plot.name, plot.title, []⟩ plot.varexp plot.name plot.option
        = none := by
      unfold drawCanvasQO
      cases htv : getTrendVariables plot.varexp with
      | none => rfl
      | some tv =>
        have hsrc : tv.sourceName = varName := by
          have := getTrendVariables_source _ _ htv
          rw [hv] at this
          exact (Option.some.inj this).symm
        simp only [hsrc]
        have hg : qualityGraph s.mTrend.entries varName tv.variableName = none := by
          unfold qualityGraph
          cases hrows : s.mTrend.entries with
          | nil => exact absurd hrows hne
          | cons e es =>
            have he : e.quality varName = none := by
              unfold Entry.quality
              rw [d e (by rw [hrows]; simp)]
            rw [qualityLoop, he]
        rw [hg]
    rw [hq]

theorem forEach_append {σ α : Type} (f : σ → α → Step σ) :
    ∀ (xs ys : List α) (s : σ),
      forEach f (xs ++ ys) s = (forEach f xs s).andThen (forEach f ys) := by
  intro xs
  induction xs with
  | nil => intro ys s; rfl
  | cons x xs ih =>
    intro ys s
    show (f s x).andThen (forEach f (xs ++ ys)) = ((f s x).andThen (forEach f xs)).andThen _
    by_cases hf : (f s x).failed = true
    · rw [andThen_failed _ _ hf, andThen_failed _ _ hf, andThen_failed _ _ hf]
    · have hok : (f s x).failed = false := by simpa using hf
      rw [andThen_ok _ _ hok, andThen_ok _ _ hok, ih]

/-- The canvases whose publication a run of the loop over the plots starts
carry names of plots of the run. -/
theorem plotsLoop_log (env : Env Obj QObj) :
    ∀ (plots : List Plot) (s : State Obj QObj),
      ∃ calls, (forEach (generatePlot env) plots s).state.objectsManager
          = s.objectsManager ++ calls ∧
        ∀ c ∈ startedCanvases calls, c.fName ∈ plots.map Plot.name := by
  intro plots
  induction plots with
  | nil =>
    intro s
    exact ⟨[], (List.append_nil _).symm, fun c hc => by simp [startedCanvases] at hc⟩
  | cons p ps ih =>
    intro s
    show ∃ calls,
      ((generatePlot env s p).andThen (forEach (generatePlot env) ps)).state.objectsManager
        = _ ∧ _
    rcases generatePlot_outcome env s p with
      ⟨c, hc, hok, _, calls, hlog, hst⟩ | ⟨hf, calls, hlog, hst⟩
    · rw [andThen_ok _ _ hok]
      obtain ⟨calls', h1, h2⟩ := ih (generatePlot env s p).state
      refine ⟨calls ++ calls', by rw [h1, hlog, List.append_assoc], ?_⟩
      intro c' hc'
      rw [startedCanvases_append, hst] at hc'
      rcases List.mem_append.mp hc' with h | h
      · rw [List.mem_singleton] at h
        rw [h, plotCanvas_fName env s p c hc]
        simp
      · have := h2 c' h
        simp only [List.map_cons, List.mem_cons]
        exact Or.inr this
    · rw [andThen_failed _ _ hf]
      refine ⟨calls, hlog, ?_⟩
      intro c' hc'
      rw [hst] at hc'
      simp at hc'

/-- C14, amended: in every state of the life of a task with at least one
row, when a configured plot names a source that is not a declared data
source, `generatePlots` ends by an error (at that plot or before it), and the
only canvases whose publication it starts carry names of plots configured
before that plot: no canvas is published for that plot nor for the plots
configured after it. -/
theorem unresolvable_plot_stops_generation (env : Env Obj QObj) (name : String)
    (config : TrendingTaskConfigTPC) (s : State Obj QObj)
    (hreach : Reachable env name config s) (hrows : 1 ≤ s.mTrend.GetEntries)
    (pre post : List Plot) (bad : Plot) (hplots : config.plots = pre ++ bad :: post)
    (hbad : ∀ n ∈ config.dataSources.map DataSource.name,
      substr bad.varexp 0 (find bad.varexp ".") ≠ some n) :
    (generatePlots env s).failed = true ∧
    ∃ calls, (generatePlots env s).state.objectsManager = s.objectsManager ++ calls ∧
      ∀ c ∈ startedCanvases calls, c.fName ∈ pre.map Plot.name := by
  obtain ⟨_, hu, hcfg⟩ := reachable_noUndeclared env name config s hreach
  have hg : ¬ s.mTrend.GetEntries < 1 := by omega
  have hne : s.mTrend.entries ≠ [] := by
    intro e
    unfold TTree.GetEntries at hrows
    rw [e] at hrows
    exact absurd hrows (by decide)
  rw [generatePlots_loop env s hg, hcfg, hplots, forEach_append]
  obtain ⟨calls, hlog, hst⟩ := plotsLoop_log env pre s
  by_cases hf : (forEach (generatePlot env) pre s).failed = true
  · rw [andThen_failed _ _ hf]
    exact ⟨hf, calls, hlog, hst⟩
  · rw [andThen_ok _ _ (by simpa using hf)]
    have hsd : SameData s (forEach (generatePlot env) pre s).state :=
      forEach_invariant (fun s' : State Obj QObj => SameData s s') (generatePlot env)
        (fun s' x hs' => sameData_trans hs' (generatePlot_sameData env s' x)) pre s
        (sameData_refl s)
    have hu1 := noUndeclared_sameData _ _ hsd hu
    have hne1 : (forEach (generatePlot env) pre s).state.mTrend.entries ≠ [] := by
      rw [hsd.2.2.2.1]; exact hne
    have hnone := plotCanvas_undeclared env _ bad hu1 hne1 (by rw [hsd.1, hcfg]; exact hbad)
    have hfail := generatePlot_fails env _ bad hnone
    show ((generatePlot env _ bad).andThen (forEach (generatePlot env) post)).failed = true ∧
      ∃ calls', ((generatePlot env _ bad).andThen
        (forEach (generatePlot env) post)).state.objectsManager = _ ∧ _
    rw [andThen_failed _ _ hfail]
    refine ⟨hfail, ?_⟩
    rcases generatePlot_outcome env (forEach (generatePlot env) pre s).state bad with
      ⟨c, hc, _⟩ | ⟨_, calls2, hlog2, hst2⟩
    · rw [hnone] at hc; exact absurd hc (by simp)
    · refine ⟨calls ++ calls2, by rw [hlog2, hlog, List.append_assoc], ?_⟩
      intro c hc
      rw [startedCanvases_append, hst2, List.append_nil] at hc
      exact hst c hc

/-- C14 fails on the concrete task whose first plot names the undeclared
source "nosuch" and whose second plot names the declared source "src":
`generatePlots` ends by an error at the first plot and publishes nothing,
also not the second plot, which generates when it is taken alone. -/
theorem unresolvable_plot_counterexample :
    demoBad.mConfig.plots.map Plot.varexp = ["nosuch.val:time", "src.val:time"] ∧
    demoBad.mConfig.dataSources.map DataSource.name = ["src", "qual"] ∧
    demoBad.mTrend.GetEntries = 1 ∧
    (generatePlots demoEnv demoBad).failed = true ∧
    (generatePlots demoEnv demoBad).state.objectsManager = [] ∧
    publishedPlots (finalize demoEnv demoBad ⟨2000, demoActivity⟩).state.objectsManager = [] ∧
    (generatePlot demoEnv demoBad demoGoodPlot).failed = false ∧
    (publishedPlots (generatePlot demoEnv demoBad demoGoodPlot).state.objectsManager).map
      TCanvas.fName = ["good"] := by
  decide

/-- C14 amended, on the concrete task configured by `demoBadConfig`. -/
theorem unresolvable_plot_stops_generation_witness :
    Reachable demoEnv "trend" demoBadConfig demoBad ∧ 1 ≤ demoBad.mTrend.GetEntries ∧
    (generatePlots demoEnv demoBad).failed = true ∧
    ∃ calls, (generatePlots demoEnv demoBad).state.objectsManager
        = demoBad.objectsManager ++ calls ∧
      ∀ c ∈ startedCanvases calls, c.fName ∈ ([] : List Plot).map Plot.name :=
  ⟨Reachable.afterUpdate _ _ _ (Reachable.afterInit (by decide)), by decide,
   unresolvable_plot_stops_generation demoEnv "trend" demoBadConfig demoBad
    (Reachable.afterUpdate _ _ _ (Reachable.afterInit (by decide))) (by decide)
    [] [demoGoodPlot] demoBadPlot rfl (by decide)⟩

end UndeclaredSources

/-! ## The row header and expressions without a separator -/

section Resolvers

variable {Obj QObj : Type}

/-- C26: the row appended by `trendValues` for a trigger `t` stores the time
`(t.timestamp / 1000) mod 2^32` (the 64-bit milliseconds divided by 1000,
stored in the 32-bit `mTime`) and the run number -1, and both are the same
whatever activity the trigger carries. -/
theorem row_header (s : State Obj QObj) (t : Trigger) (qcdb : DatabaseInterface Obj QObj)
    (hred : HasReductors s) :
    ∃ row, (trendValues s t qcdb).failed = false ∧
      (trendValues s t qcdb).state.mTrend.entries = s.mTrend.entries ++ [row] ∧
      row.time = (t.timestamp / 1000) % 2 ^ 32 ∧ row.runNumber = -1 ∧
      ∀ activity : Activity, ∃ row',
        (trendValues s ⟨t.timestamp, activity⟩ qcdb).state.mTrend.entries
          = s.mTrend.entries ++ [row'] ∧
        row'.time = row.time ∧ row'.runNumber = row.runNumber := by
  obtain ⟨row, h1, h2, h3, _⟩ := trendValues_row s t qcdb hred
  refine ⟨row, (trendValues_spec s t qcdb hred).1, h1, h2, h3, ?_⟩
  intro activity
  obtain ⟨row', k1, k2, k3, _⟩ := trendValues_row s ⟨t.timestamp, activity⟩ qcdb hred
  exact ⟨row', k1, k2.trans h2.symm, k3.trans h3.symm⟩

/-- C26, on the concrete task at a trigger whose timestamp exceeds 2^32
seconds. -/
theorem row_header_witness :
    ∃ row, (trendValues demoInit ⟨4294967297999, demoActivity⟩ demoAbsent).failed = false ∧
      (trendValues demoInit ⟨4294967297999, demoActivity⟩ demoAbsent).state.mTrend.entries
        = demoInit.mTrend.entries ++ [row] ∧
      row.time = (4294967297999 / 1000) % 2 ^ 32 ∧ row.runNumber = -1 ∧
      ∀ activity : Activity, ∃ row',
        (trendValues demoInit ⟨4294967297999, activity⟩ demoAbsent).state.mTrend.entries
          = demoInit.mTrend.entries ++ [row'] ∧
        row'.time = row.time ∧ row'.runNumber = row.runNumber :=
  row_header demoInit ⟨4294967297999, demoActivity⟩ demoAbsent
    (initializeTask_spec demoEnv "trend" demoConfig (by decide)).2.2

theorem take_npos (l : List Char) (h : l.length < 2 ^ 64) : l.take npos = l := by
  apply List.take_of_length_le
  unfold npos; omega

theorem sizeAdd_npos : sizeAdd npos 1 = 0 := by decide

theorem substr_whole (v : String) (hlen : v.length < 2 ^ 64) : substr v 0 npos = some v := by
  rw [substr_data v 0 npos (Nat.zero_le _), List.drop_zero, take_npos _ hlen]

/-- C28: for an error expression without ':', `getTrendErrors` completes with
`errorX` and `errorY` both equal to the whole expression (the position
`npos + 1` wraps to 0); the empty expression yields two empty names. -/
theorem getTrendErrors_no_separator (v : String) (hcol : ':' ∉ v.data)
    (hlen : v.length < 2 ^ 64) :
    getTrendErrors v = some { errorX := v, errorY := v } ∧
    getTrendErrors "" = some { errorX := "", errorY := "" } := by
  have hfind : find v ":" = npos := findFrom_absent ':' v.data 0 hcol
  refine ⟨?_, by decide⟩
  unfold getTrendErrors
  simp only [hfind, sizeAdd_npos, substr_whole v hlen, Option.bind_eq_bind, Option.some_bind,
    Option.pure_def]

/-- C28, at the error expression "errY". -/
theorem getTrendErrors_no_separator_witness :
    getTrendErrors "errY" = some { errorX := "errY", errorY := "errY" } ∧
    getTrendErrors "" = some { errorX := "", errorY := "" } :=
  getTrendErrors_no_separator "errY" (by decide) (by decide)

/-- C27: for an expression without ':', `getTrendVariables` completes and the
trend mode is the whole expression (the position `npos + 1` wraps to 0); the
field is everything after the first '.', and the source is what stands before
it; when the expression has no '.' either, source and field are the whole
expression too. -/
theorem getTrendVariables_no_separator (v : String) (hcol : ':' ∉ v.data)
    (hlen : v.length < 2 ^ 64) :
    (∃ tv, getTrendVariables v = some tv ∧ tv.trend = v) ∧
    (∀ a b : String, v = a ++ "." ++ b → '.' ∉ a.data →
      getTrendVariables v = some { sourceName := a, variableName := b, trend := v }) ∧
    ('.' ∉ v.data →
      getTrendVariables v = some { sourceName := v, variableName := v, trend := v }) := by
  have hfind : find v ":" = npos := findFrom_absent ':' v.data 0 hcol
  have hA : ∀ a b : String, v = a ++ "." ++ b → '.' ∉ a.data →
      getTrendVariables v = some { sourceName := a, variableName := b, trend := v } := by
    intro a b hv ha
    have hdot : (".":String).data = ['.'] := rfl
    have hdata : v.data = a.data ++ '.' :: b.data := by
      rw [hv]
      simp only [String.data_append, hdot, List.append_assoc, List.cons_append,
        List.nil_append]
    have hL : v.length = a.length + 1 + b.length := by
      simp only [length_data, hdata, List.length_append, List.length_cons]; omega
    have hfd : find v "." = a.length := by
      unfold find; rw [hdata, hdot, findFrom_single '.' a.data b.data 0 ha]
      simp only [length_data]; omega
    rw [hL] at hlen
    have e1 : sizeAdd a.length 1 = a.length + 1 := by unfold sizeAdd; omega
    have e2 : sizeSub (sizeSub npos a.length) 1 = 2 ^ 64 - 2 - a.length := by
      unfold sizeSub npos; omega
    have s1 : substr v 0 a.length = some a := by
      rw [substr_data v 0 _ (Nat.zero_le _), List.drop_zero, hdata, length_data,
        List.take_left']
      rfl
    have s2 : substr v (a.length + 1) (2 ^ 64 - 2 - a.length) = some b := by
      rw [substr_data v _ _ (by omega), hdata, length_data a, drop_past,
        List.take_of_length_le (by
          have h1 := length_data a
          have h2 := length_data b
          omega)]
    have s3 : substr v 0 npos = some v := substr_whole v (by omega)
    unfold getTrendVariables
    simp only [hfind, hfd, sizeAdd_npos, e1, e2, s1, s2, s3, Option.bind_eq_bind,
      Option.some_bind, Option.pure_def]
  have hB : '.' ∉ v.data →
      getTrendVariables v = some { sourceName := v, variableName := v, trend := v } := by
    intro hd
    have hfd : find v "." = npos := findFrom_absent '.' v.data 0 hd
    have e2 : sizeSub (sizeSub npos npos) 1 = npos := by decide
    unfold getTrendVariables
    simp only [hfind, hfd, sizeAdd_npos, e2, substr_whole v hlen, Option.bind_eq_bind,
      Option.some_bind, Option.pure_def]
  refine ⟨?_, hA, hB⟩
  by_cases hd : '.' ∈ v.data
  · obtain ⟨as, bs, hv, has⟩ := List.eq_append_cons_of_mem hd
    have := hA ⟨as⟩ ⟨bs⟩ (by
      apply String.ext
      simp only [String.data_append, hv]
      show as ++ '.' :: bs = as ++ ['.'] ++ bs
      simp) has
    exact ⟨_, this, rfl⟩
  · exact ⟨_, hB hd, rfl⟩

/-- C27, at the expression "src.val". -/
theorem getTrendVariables_no_separator_witness :
    (∃ tv, getTrendVariables "src.val" = some tv ∧ tv.trend = "src.val") ∧
    (∀ a b : String, "src.val" = a ++ "." ++ b → '.' ∉ a.data →
      getTrendVariables "src.val"
        = some { sourceName := a, variableName := b, trend := "src.val" }) ∧
    ('.' ∉ ("src.val" : String).data →
      getTrendVariables "src.val"
        = some { sourceName := "src.val", variableName := "src.val", trend := "src.val" }) :=
  getTrendVariables_no_separator "src.val" (by decide) (by decide)

end Resolvers

end TrendingTaskTPC

/-! # The histogram that is updated instead of merged: theorems -/

namespace CPV

section
variable {H : Type}

theorem merge_some (this other : IntensiveTH2F H) :
    this.merge (some other)
      = some (if this.mCycleNumber < other.mCycleNumber then other else this) := by
  show (if this.mCycleNumber < other.mCycleNumber then some other else some this) = _
  split <;> rfl

/-- C21: `merge` is an update, not a sum: the histogram becomes the incoming
one (contents and cycle number) when its cycle number is smaller than the
incoming cycle number, and stays as it is otherwise, in particular when the
two cycle numbers are equal. -/
theorem merge_is_update (this other : IntensiveTH2F H) :
    this.merge (some other)
      = some (if this.mCycleNumber < other.mCycleNumber then other else this) ∧
    (this.mCycleNumber < other.mCycleNumber → this.merge (some other) = some other) ∧
    (¬ this.mCycleNumber < other.mCycleNumber → this.merge (some other) = some this) ∧
    (this.mCycleNumber = other.mCycleNumber → this.merge (some other) = some this) := by
  have h0 : this.merge (some other)
      = some (if this.mCycleNumber < other.mCycleNumber then other else this) :=
    merge_some this other
  refine ⟨h0, ?_, ?_, ?_⟩
  · intro h; rw [h0, if_pos h]
  · intro h; rw [h0, if_neg h]
  · intro h; rw [h0, if_neg (by omega)]

/-- C21, on the concrete histograms with the cycle numbers 3 and 5. -/
theorem merge_is_update_witness :
    demoOld.merge (some demoNew) = some demoNew ∧
    demoNew.merge (some demoOld) = some demoNew ∧
    demoOld.merge (some demoOld) = some demoOld :=
  ⟨(merge_is_update demoOld demoNew).2.1 (by decide),
   (merge_is_update demoNew demoOld).2.2.1 (by decide),
   (merge_is_update demoOld demoOld).2.2.2 rfl⟩

theorem mergeAll_cons (h x : IntensiveTH2F H) (xs : List (IntensiveTH2F H)) :
    mergeAll h (x :: xs)
      = mergeAll (if h.mCycleNumber < x.mCycleNumber then x else h) xs := by
  unfold mergeAll
  rw [List.foldl_cons]
  congr 1
  show h.merge (some x) = _
  exact merge_some h x

/-- The result of merging a list of histograms: the histogram itself or one
of the list, of the largest cycle number. -/
theorem mergeAll_spec : ∀ (l : List (IntensiveTH2F H)) (h : IntensiveTH2F H),
    ∃ r, mergeAll h l = some r ∧ (r = h ∨ r ∈ l) ∧ h.mCycleNumber ≤ r.mCycleNumber ∧
      (∀ y ∈ l, y.mCycleNumber ≤ r.mCycleNumber) ∧
      r.mCycleNumber = (l.map IntensiveTH2F.mCycleNumber).foldl max h.mCycleNumber ∧
      ((∀ y ∈ l, y.mCycleNumber ≤ h.mCycleNumber) → r = h) := by
  intro l
  induction l with
  | nil =>
    intro h
    exact ⟨h, rfl, Or.inl rfl, Nat.le_refl _, fun y hy => by simp at hy, rfl, fun _ => rfl⟩
  | cons x xs ih =>
    intro h
    rw [mergeAll_cons]
    by_cases hlt : h.mCycleNumber < x.mCycleNumber
    · rw [if_pos hlt]
      obtain ⟨r, h1, h2, h3, h4, h5, _⟩ := ih x
      refine ⟨r, h1, ?_, by omega, ?_, ?_, ?_⟩
      · rcases h2 with e | e
        · exact Or.inr (by rw [e]; simp)
        · exact Or.inr (by simp [e])
      · intro y hy
        rcases List.mem_cons.mp hy with e | e
        · rw [e]; exact h3
        · exact h4 y e
      · rw [h5, List.map_cons, List.foldl_cons, Nat.max_eq_right (Nat.le_of_lt hlt)]
      · intro hall
        have := hall x (by simp)
        omega
    · rw [if_neg hlt]
      obtain ⟨r, h1, h2, h3, h4, h5, h6⟩ := ih h
      refine ⟨r, h1, ?_, h3, ?_, ?_, ?_⟩
      · rcases h2 with e | e
        · exact Or.inl e
        · exact Or.inr (by simp [e])
      · intro y hy
        rcases List.mem_cons.mp hy with e | e
        · rw [e]; omega
        · exact h4 y e
      · rw [h5, List.map_cons, List.foldl_cons, Nat.max_eq_left (by omega)]
      · intro hall
        exact h6 (fun y hy => hall y (by simp [hy]))

/-- Merging a list of histograms of pairwise distinct cycle numbers gives the
one of the largest cycle number, when it exceeds that of the histogram. -/
theorem mergeAll_max (l : List (IntensiveTH2F H)) (h x : IntensiveTH2F H)
    (hnd : (l.map IntensiveTH2F.mCycleNumber).Nodup) (hx : x ∈ l)
    (hlt : h.mCycleNumber < x.mCycleNumber)
    (hmax : ∀ y ∈ l, y.mCycleNumber ≤ x.mCycleNumber) : mergeAll h l = some x := by
  obtain ⟨r, h1, h2, _, h4, _, _⟩ := mergeAll_spec l h
  rw [h1]
  congr 1
  have hrx := h4 x hx
  rcases h2 with e | e
  · rw [e] at hrx; omega
  · exact List.inj_on_of_nodup_map hnd e hx (Nat.le_antisymm (hmax r e) hrx)

/-- C29: for incoming histograms of pairwise distinct cycle numbers, the
result of merging them into `h` one after the other does not depend on their
order; it is the incoming histogram of the largest cycle number when that
number exceeds the cycle number of `h`, and `h` otherwise; its cycle number
is the maximum of all the cycle numbers; and merging a histogram a second
time changes nothing. -/
theorem merge_order_independent (h : IntensiveTH2F H) (l : List (IntensiveTH2F H))
    (hnd : (l.map IntensiveTH2F.mCycleNumber).Nodup) :
    (∀ l', l'.Perm l → mergeAll h l' = mergeAll h l) ∧
    (∀ x ∈ l, h.mCycleNumber < x.mCycleNumber →
      (∀ y ∈ l, y.mCycleNumber ≤ x.mCycleNumber) → mergeAll h l = some x) ∧
    ((∀ y ∈ l, y.mCycleNumber ≤ h.mCycleNumber) → mergeAll h l = some h) ∧
    (∃ r, mergeAll h l = some r ∧
      r.mCycleNumber = (l.map IntensiveTH2F.mCycleNumber).foldl max h.mCycleNumber ∧
      h.mCycleNumber ≤ r.mCycleNumber ∧ ∀ y ∈ l, y.mCycleNumber ≤ r.mCycleNumber) ∧
    (∀ x : IntensiveTH2F H,
      (h.merge (some x)).bind (fun this => this.merge (some x)) = h.merge (some x)) := by
  obtain ⟨r, h1, h2, h3, h4, h5, h6⟩ := mergeAll_spec l h
  refine ⟨?_, fun x hx hlt hmax => mergeAll_max l h x hnd hx hlt hmax,
    fun hall => by rw [h1, h6 hall], ⟨r, h1, h5, h3, h4⟩, ?_⟩
  · intro l' hp
    have hnd' : (l'.map IntensiveTH2F.mCycleNumber).Nodup :=
      (hp.map _).nodup_iff.mpr hnd
    by_cases hall : ∀ y ∈ l, y.mCycleNumber ≤ h.mCycleNumber
    · obtain ⟨r', k1, _, _, _, _, k6⟩ := mergeAll_spec l' h
      rw [h1, k1, h6 hall, k6 (fun y hy => hall y (hp.mem_iff.mp hy))]
    · have hex : ∃ y ∈ l, h.mCycleNumber < y.mCycleNumber := by
        by_contra hne
        apply hall
        intro y hy
        by_contra hlt
        exact hne ⟨y, hy, by omega⟩
      obtain ⟨y, hy, hylt⟩ := hex
      have hry := h4 y hy
      have hrl : r ∈ l := by
        rcases h2 with e | e
        · rw [e] at hry; omega
        · exact e
      rw [h1]
      exact mergeAll_max l' h r hnd' (hp.mem_iff.mpr hrl) (by omega)
        (fun z hz => h4 z (hp.mem_iff.mp hz))
  · intro x
    rw [merge_some]
    by_cases hlt : h.mCycleNumber < x.mCycleNumber
    · simp only [if_pos hlt, Option.some_bind, merge_some, Nat.lt_irrefl, if_false]
    · simp only [if_neg hlt, Option.some_bind, merge_some]

/-- C29, on the three concrete histograms, merged into the one of cycle
number 0. -/
theorem merge_order_independent_witness :
    ([demoOld, demoNew].map IntensiveTH2F.mCycleNumber).Nodup ∧
    (∀ l', l'.Perm [demoOld, demoNew] → mergeAll demoFresh l' = some demoNew) ∧
    mergeAll demoFresh [demoNew, demoOld] = some demoNew ∧
    mergeAll demoNew [demoOld] = some demoNew :=
  ⟨by decide,
   fun l' hp =>
    ((merge_order_independent demoFresh [demoOld, demoNew] (by decide)).1 l' hp).trans
      ((merge_order_independent demoFresh [demoOld, demoNew] (by decide)).2.1 demoNew
        (by simp) (by decide) (by
          intro y hy
          simp only [List.mem_cons, List.mem_singleton, List.not_mem_nil, or_false] at hy
          rcases hy with e | e <;> subst e <;> decide)),
   (merge_order_independent demoFresh [demoNew, demoOld] (by decide)).2.1 demoNew
      (by simp) (by decide) (by
        intro y hy
        simp only [List.mem_cons, List.mem_singleton, List.not_mem_nil, or_false] at hy
        rcases hy with e | e <;> subst e <;> decide),
   (merge_order_independent demoNew [demoOld] (by decide)).2.2.1 (by
      intro y hy
      simp only [List.mem_singleton] at hy
      rw [hy]; decide)⟩

end

end CPV

/-! # The check of the pads: configuration -/

namespace CheckOfPads

open TrendingTaskTPC (npos find substr sizeSub)
section
variable {F : Type}

/-- Loading a number into a member other than the check choice and the two
thresholds of the empty pads leaves these three alone and only adds to the
messages. -/
theorem loadParam_frame (env : Env F) (key : String) (set : State F → F → State F)
    (fallback : F) (message : String) (s : State F)
    (hset : ∀ a v, (set a v).mCheckChoice = a.mCheckChoice ∧
      (set a v).mFracEmptyPadsMedium = a.mFracEmptyPadsMedium ∧
      (set a v).mFracEmptyPadsBad = a.mFracEmptyPadsBad ∧ (set a v).log = a.log) :
    (loadParam env key set fallback message s).mCheckChoice = s.mCheckChoice ∧
    (loadParam env key set fallback message s).mFracEmptyPadsMedium = s.mFracEmptyPadsMedium ∧
    (loadParam env key set fallback message s).mFracEmptyPadsBad = s.mFracEmptyPadsBad ∧
    ∀ m ∈ s.log, m ∈ (loadParam env key set fallback message s).log := by
  unfold loadParam
  split
  · obtain ⟨a, b, c, d⟩ := hset s (env.atof ‹String›)
    exact ⟨a, b, c, fun m hm => by rw [d]; exact hm⟩
  · obtain ⟨a, b, c, d⟩ := hset s fallback
    refine ⟨a, b, c, fun m hm => ?_⟩
    show m ∈ (set s fallback).log ++ [message]
    rw [d]
    exact List.mem_append_left _ hm

theorem configureExpectedValue_frame (env : Env F) (s : State F) :
    (configureExpectedValue env s).mCheckChoice = s.mCheckChoice ∧
    (configureExpectedValue env s).mFracEmptyPadsMedium = s.mFracEmptyPadsMedium ∧
    (configureExpectedValue env s).mFracEmptyPadsBad = s.mFracEmptyPadsBad ∧
    ∀ m ∈ s.log, m ∈ (configureExpectedValue env s).log := by
  unfold configureExpectedValue
  split
  · obtain ⟨a1, a2, a3, a4⟩ := loadParam_frame env "ExpectedValue"
      (fun a v => { a with mExpectedValue := v }) (env.arith.lit 10 1)
      "Chosen check requires ExpectedValue which is not given. Setting to default 1 ."
      s (fun _ _ => ⟨rfl, rfl, rfl, rfl⟩)
    obtain ⟨b1, b2, b3, b4⟩ := loadParam_frame env "ExpectedValueSigmaMedium"
      (fun a v => { a with mExpectedValueMediumSigmas := v }) (env.arith.lit 3 0)
      "Chosen check requires ExpectedValueSigmaMedium which is not given. Setting to default 3 sigma ."
      _ (fun _ _ => ⟨rfl, rfl, rfl, rfl⟩)
    obtain ⟨c1, c2, c3, c4⟩ := loadParam_frame env "ExpectedValueSigmaBad"
      (fun a v => { a with mExpectedValueBadSigmas := v }) (env.arith.lit 6 0)
      "Chosen check requires ExpectedValueSigmaBad which is not given. Setting to default 6 sigma ."
      _ (fun _ _ => ⟨rfl, rfl, rfl, rfl⟩)
    exact ⟨c1.trans (b1.trans a1), c2.trans (b2.trans a2), c3.trans (b3.trans a3),
      fun m hm => c4 m (b4 m (a4 m hm))⟩
  · exact ⟨rfl, rfl, rfl, fun m hm => hm⟩

theorem configureMean_frame (env : Env F) (s : State F) :
    (configureMean env s).mCheckChoice = s.mCheckChoice ∧
    (configureMean env s).mFracEmptyPadsMedium = s.mFracEmptyPadsMedium ∧
    (configureMean env s).mFracEmptyPadsBad = s.mFracEmptyPadsBad ∧
    ∀ m ∈ s.log, m ∈ (configureMean env s).log := by
  unfold configureMean
  split
  · obtain ⟨a1, a2, a3, a4⟩ := loadParam_frame env "MeanSigmaMedium"
      (fun a v => { a with mMeanMediumSigmas := v }) (env.arith.ofInt 3)
      "Chosen check requires MeanSigmaMedium which is not given. Setting to default 3 sigma ."
      s (fun _ _ => ⟨rfl, rfl, rfl, rfl⟩)
    obtain ⟨b1, b2, b3, b4⟩ := loadParam_frame env "MeanSigmaBad"
      (fun a v => { a with mMeanBadSigmas := v }) (env.arith.ofInt 6)
      "Chosen check requires MeanSigmaBad which is not given. Setting to default 6 sigma ."
      _ (fun _ _ => ⟨rfl, rfl, rfl, rfl⟩)
    exact ⟨b1.trans a1, b2.trans a2, b3.trans a3, fun m hm => b4 m (a4 m hm)⟩
  · exact ⟨rfl, rfl, rfl, fun m hm => hm⟩

theorem configureErrorHandling_frame (env : Env F) (s : State F) :
    (configureErrorHandling env s).mCheckChoice = s.mCheckChoice ∧
    (configureErrorHandling env s).mFracEmptyPadsMedium = s.mFracEmptyPadsMedium ∧
    (configureErrorHandling env s).mFracEmptyPadsBad = s.mFracEmptyPadsBad ∧
    ∀ m ∈ s.log, m ∈ (configureErrorHandling env s).log := by
  unfold configureErrorHandling
  split
  · exact ⟨rfl, rfl, rfl, fun m hm => hm⟩
  · exact ⟨rfl, rfl, rfl, fun m hm => List.mem_append_left _ hm⟩

theorem configureNames_frame (s : State F) :
    (configureNames s).mCheckChoice = s.mCheckChoice ∧
    (configureNames s).mFracEmptyPadsMedium = s.mFracEmptyPadsMedium ∧
    (configureNames s).mFracEmptyPadsBad = s.mFracEmptyPadsBad ∧
    ∀ m ∈ s.log, m ∈ (configureNames s).log := by
  unfold configureNames
  split
  · exact ⟨rfl, rfl, rfl, fun m hm => hm⟩
  · exact ⟨rfl, rfl, rfl, fun m hm => hm⟩

/-- What `configure` keeps of the members left by the reading of
"CheckChoice". -/
theorem configure_frame (env : Env F) (s : State F) :
    (configure env s).mCheckChoice = (configureChoice env s).mCheckChoice ∧
    (configure env s).mFracEmptyPadsMedium = (configureChoice env s).mFracEmptyPadsMedium ∧
    (configure env s).mFracEmptyPadsBad = (configureChoice env s).mFracEmptyPadsBad ∧
    ∀ m ∈ (configureChoice env s).log, m ∈ (configure env s).log := by
  obtain ⟨a1, a2, a3, a4⟩ := configureExpectedValue_frame env (configureChoice env s)
  obtain ⟨b1, b2, b3, b4⟩ := configureMean_frame env
    (configureExpectedValue env (configureChoice env s))
  obtain ⟨c1, c2, c3, c4⟩ := configureErrorHandling_frame env
    (configureMean env (configureExpectedValue env (configureChoice env s)))
  obtain ⟨d1, d2, d3, d4⟩ := configureNames_frame (configureErrorHandling env
    (configureMean env (configureExpectedValue env (configureChoice env s))))
  unfold configure
  exact ⟨d1.trans (c1.trans (b1.trans a1)), d2.trans (c2.trans (b2.trans a2)),
    d3.trans (c3.trans (b3.trans a3)), fun m hm => d4 m (c4 m (b4 m (a4 m hm)))⟩

/-- The check choice left by the reading of a "CheckChoice" that names the
empty pads: the two thresholds are loaded and the choice is "EmptyPads",
unless the parameter also names the mean. -/
theorem configureChoice_emptyPads (env : Env F) (s : State F) (str : String)
    (hc : s.mCustomParameters "CheckChoice" = some str) (he : find str "EmptyPads" ≠ npos)
    (hm : s.mCustomParameters "FracEmptyPadsMedium" = none)
    (hb : s.mCustomParameters "FracEmptyPadsBad" = none) :
    (configureChoice env s).mFracEmptyPadsMedium = env.arith.lit 1 1 ∧
    (configureChoice env s).mFracEmptyPadsBad = env.arith.lit 3 1 ∧
    (configureChoice env s).mCheckChoice
      = (if find str "Mean" ≠ npos then "Mean" else "EmptyPads") ∧
    (configureChoice env s).log = s.log ++
      ["Chosen check requires FracEmptyPadsMedium which is not given. Setting to default 0.3.",
       "Chosen check requires FracEmptyPadsBad which is not given. Setting to default 0.3."] := by
  have n1 : ¬ ("EmptyPads" : String) = "ExpectedValue" := by decide
  have n2 : ¬ ("EmptyPads" : String) = "NULL" := by decide
  have n3 : ¬ ("Mean" : String) = "NULL" := by decide
  unfold configureChoice
  simp only [hc, he, ne_eq, not_false_eq_true, if_true, loadParam, hm, hb, State.ilog, n1,
    if_false]
  by_cases hmean : find str "Mean" = npos
  · simp only [hmean, not_true_eq_false, if_false, n2, List.append_assoc, List.singleton_append,
      and_self]
  · simp only [hmean, not_false_eq_true, if_true, n3, if_false, List.append_assoc,
      List.singleton_append, and_self]

/-- C22 fails: when "CheckChoice" names the empty pads and neither threshold
is given, `configure` sets the bad threshold to 0.3 but the medium threshold
to 0.1, while both warnings it logs announce the default 0.3. -/
theorem emptyPads_default_thresholds (env : Env F) (s : State F) (str : String)
    (hc : s.mCustomParameters "CheckChoice" = some str) (he : find str "EmptyPads" ≠ npos)
    (hm : s.mCustomParameters "FracEmptyPadsMedium" = none)
    (hb : s.mCustomParameters "FracEmptyPadsBad" = none) :
    (configure env s).mFracEmptyPadsMedium = env.arith.lit 1 1 ∧
    (configure env s).mFracEmptyPadsBad = env.arith.lit 3 1 ∧
    "Chosen check requires FracEmptyPadsMedium which is not given. Setting to default 0.3."
      ∈ (configure env s).log ∧
    "Chosen check requires FracEmptyPadsBad which is not given. Setting to default 0.3."
      ∈ (configure env s).log := by
  obtain ⟨a1, a2, _, a4⟩ := configureChoice_emptyPads env s str hc he hm hb
  obtain ⟨_, f2, f3, f4⟩ := configure_frame env s
  refine ⟨f2.trans a1, f3.trans a2, f4 _ ?_, f4 _ ?_⟩
  · rw [a4]; simp
  · rw [a4]; simp

/-- C22, on the concrete check with the choice "EmptyPads" and no threshold
given: in the fixed-point stand-in the medium threshold is 100 thousandths
and the bad threshold 300 thousandths. -/
theorem emptyPads_default_thresholds_witness :
    (demoCheck demoEnv "EmptyPads").mFracEmptyPadsMedium = demoEnv.arith.lit 1 1 ∧
    (demoCheck demoEnv "EmptyPads").mFracEmptyPadsBad = demoEnv.arith.lit 3 1 ∧
    "Chosen check requires FracEmptyPadsMedium which is not given. Setting to default 0.3."
      ∈ (demoCheck demoEnv "EmptyPads").log ∧
    "Chosen check requires FracEmptyPadsBad which is not given. Setting to default 0.3."
      ∈ (demoCheck demoEnv "EmptyPads").log :=
  emptyPads_default_thresholds demoEnv (fresh demoEnv (demoParams "EmptyPads")) "EmptyPads"
    (by decide) (by decide) (by decide) (by decide)

theorem loadParam_choice (env : Env F) (key : String) (set : State F → F → State F)
    (fallback : F) (message : String) (s : State F)
    (hset : ∀ a v, (set a v).mCheckChoice = a.mCheckChoice) :
    (loadParam env key set fallback message s).mCheckChoice = s.mCheckChoice := by
  unfold loadParam
  split
  · exact hset _ _
  · exact hset _ _

/-- C23, amended: for every "CheckChoice" string that contains "Mean" and
"ExpectedValue" and does not contain "EmptyPads" the choice selected by
`configure` is "Both"; when the string contains "Mean" and "EmptyPads" the
choice is "Mean", whether or not it contains "ExpectedValue"; and when the
parameter is absent the choice is "Both". -/
theorem checkChoice_selection (env : Env F) (s : State F) :
    (∀ str, s.mCustomParameters "CheckChoice" = some str → find str "Mean" ≠ npos →
      find str "ExpectedValue" ≠ npos → find str "EmptyPads" = npos →
      (configure env s).mCheckChoice = "Both") ∧
    (∀ str, s.mCustomParameters "CheckChoice" = some str → find str "Mean" ≠ npos →
      find str "EmptyPads" ≠ npos → (configure env s).mCheckChoice = "Mean") ∧
    (s.mCustomParameters "CheckChoice" = none → (configure env s).mCheckChoice = "Both") := by
  have n1 : ¬ ("Both" : String) = "NULL" := by decide
  have n3 : ¬ ("Mean" : String) = "NULL" := by decide
  have n4 : ¬ ("EmptyPads" : String) = "ExpectedValue" := by decide
  refine ⟨?_, ?_, ?_⟩
  · intro str hc hmean hev hempty
    rw [(configure_frame env s).1]
    unfold configureChoice
    simp only [hc, hempty, hev, hmean, ne_eq, not_true_eq_false, not_false_eq_true, if_true,
      if_false, n1]
  · intro str hc hmean hempty
    rw [(configure_frame env s).1]
    have hl : (loadParam env "FracEmptyPadsBad" (fun a v => { a with mFracEmptyPadsBad := v })
        (env.arith.lit 3 1)
        "Chosen check requires FracEmptyPadsBad which is not given. Setting to default 0.3."
        (loadParam env "FracEmptyPadsMedium"
          (fun a v => { a with mFracEmptyPadsMedium := v }) (env.arith.lit 1 1)
          "Chosen check requires FracEmptyPadsMedium which is not given. Setting to default 0.3."
          { s with mCheckChoice := "EmptyPads" })).mCheckChoice = "EmptyPads" := by
      refine (loadParam_choice env "FracEmptyPadsBad" _ _ _ _ ?_).trans ?_
      · intro a v; rfl
      · refine (loadParam_choice env "FracEmptyPadsMedium" _ _ _ _ ?_).trans rfl
        intro a v; rfl
    unfold configureChoice
    simp only [hc, hempty, hmean, ne_eq, not_false_eq_true, if_true, hl, n4, if_false, n3]
  · intro hc
    rw [(configure_frame env s).1]
    unfold configureChoice
    simp only [hc]
    rfl

/-- C23 fails for the "CheckChoice" string "EmptyPads,Mean,ExpectedValue",
which contains both "Mean" and "ExpectedValue": the choice selected is
"Mean"; for "Mean,ExpectedValue" it is "Both". -/
theorem checkChoice_counterexample :
    find "EmptyPads,Mean,ExpectedValue" "Mean" ≠ npos ∧
    find "EmptyPads,Mean,ExpectedValue" "ExpectedValue" ≠ npos ∧
    (demoCheck demoEnv "EmptyPads,Mean,ExpectedValue").mCheckChoice = "Mean" ∧
    (demoCheck demoEnv "Mean,ExpectedValue").mCheckChoice = "Both" := by
  decide

/-- C23 amended, on the concrete checks with the parameter
"Mean,ExpectedValue", with the parameter "EmptyPads,Mean" and without the
parameter. -/
theorem checkChoice_selection_witness :
    (configure demoEnv (fresh demoEnv (demoParams "Mean,ExpectedValue"))).mCheckChoice
      = "Both" ∧
    (configure demoEnv (fresh demoEnv (demoParams "EmptyPads,Mean"))).mCheckChoice = "Mean" ∧
    (configure demoEnv (fresh demoEnv (fun _ => none))).mCheckChoice = "Both" :=
  ⟨(checkChoice_selection demoEnv (fresh demoEnv (demoParams "Mean,ExpectedValue"))).1
      "Mean,ExpectedValue" (by decide) (by decide) (by decide) (by decide),
   (checkChoice_selection demoEnv (fresh demoEnv (demoParams "EmptyPads,Mean"))).2.1
      "EmptyPads,Mean" (by decide) (by decide) (by decide),
   (checkChoice_selection demoEnv (fresh demoEnv (fun _ => none))).2.2 rfl⟩

end

end CheckOfPads

/-! # The check of the pads: the qualities -/

namespace CheckOfPads

open TrendingTaskTPC (npos find substr sizeSub)
section
variable {F : Type}

theorem ends_mono {σ : Type} {P P' : σ → Prop} {R R' : Quality → σ → Prop} {a a' : Prop}
    (hP : ∀ s, P s → P' s) (hR : ∀ q s, R q s → R' q s) (ha : a → a') (fl : Flow σ)
    (h : Flow.Ends P R a fl) : Flow.Ends P' R' a' fl := by
  cases fl with
  | next s => exact hP s h
  | ret q s => exact hR q s h
  | abort => exact ha h

theorem forFlow_ends {σ α : Type} (P : σ → Prop) (R : Quality → σ → Prop) (a : Prop)
    (f : σ → α → Flow σ) :
    ∀ (xs : List α), (∀ s x, x ∈ xs → P s → Flow.Ends P R a (f s x)) →
      ∀ s, P s → Flow.Ends P R a (forFlow f xs s) := by
  intro xs
  induction xs with
  | nil => intro _ s hs; exact hs
  | cons x xs ih =>
    intro hf s hs
    have hx := hf s x (by simp) hs
    unfold forFlow
    cases hfx : f s x with
    | next s1 =>
      rw [hfx] at hx
      exact ih (fun s' y hy hs' => hf s' y (by simp [hy]) hs') s1 hx
    | ret q s1 => rw [hfx] at hx; exact hx
    | abort => rw [hfx] at hx; exact hx

/-- The body of the loop over the pads never ends by an error; it leaves the
check choice and the names of the objects alone, keeps the three vectors of
statistics aligned, and the only quality it returns is `Null`. -/
theorem checkPad_ends (env : Env F) (moName histSubName : String) (canv : TCanvas F)
    (c : String) (l : List String) (al : Prop) (s : State F) (tpads : Nat)
    (hs : s.mCheckChoice = c ∧ s.mMOsToCheck2D = l ∧ (al → Aligned s)) :
    Flow.Ends
      (fun s1 : State F => s1.mCheckChoice = c ∧ s1.mMOsToCheck2D = l ∧ (al → Aligned s1))
      (fun q _ => q = Quality.Null) False
      (checkPad env moName histSubName canv s tpads) := by
  obtain ⟨h1, h2, h3⟩ := hs
  unfold checkPad
  simp only
  split
  · exact ⟨h1, h2, h3⟩
  · split
    · exact ⟨h1, h2, h3⟩
    · split
      · refine ⟨h1, h2, fun hal => ?_⟩
        obtain ⟨k1, k2⟩ := h3 hal
        refine ⟨?_, ?_⟩
        · show (_ ++ [_]).length = (_ ++ [_]).length
          rw [List.length_append, List.length_append, k1]; rfl
        · show (_ ++ [_]).length = (_ ++ [_]).length
          rw [List.length_append, List.length_append, k2]; rfl
      · split
        · refine ⟨h1, h2, fun hal => ?_⟩
          obtain ⟨k1, k2⟩ := h3 hal
          refine ⟨?_, ?_⟩
          · show (_ ++ [_]).length = (_ ++ [_]).length
            rw [List.length_append, List.length_append, k1]; rfl
          · show (_ ++ [_]).length = (_ ++ [_]).length
            rw [List.length_append, List.length_append, k2]; rfl
        · rfl

theorem weightsLoop_some (A : Arith F) (means stdevs : List F)
    (hlen : stdevs.length = means.length) :
    ∀ (its : List Nat), (∀ it ∈ its, it < means.length) → ∀ acc,
      ∃ w, weightsLoop A means stdevs its acc = some w := by
  intro its
  induction its with
  | nil => intro _ acc; exact ⟨acc, rfl⟩
  | cons it its ih =>
    intro h acc
    have hit := h it (by simp)
    unfold weightsLoop
    rw [List.getElem?_eq_getElem hit, List.getElem?_eq_getElem (by omega)]
    exact ih (fun j hj => h j (by simp [hj])) _

theorem emptyStep_inv (env : Env F) (c : String) (l : List String) (M S E : List F)
    (g : Quality) (p : Results × State F) (it : Nat) (hp : QualityInv c l M S E g p) :
    (∀ p', emptyStep env p it = some p' → QualityInv c l M S E g p') ∧
    (it < E.length → ∃ p', emptyStep env p it = some p') := by
  obtain ⟨h1, h2, h3, h4, h5, h6⟩ := hp
  unfold emptyStep
  simp only
  split
  · cases hf : p.2.mEmptyPadsFracs[it]? with
    | none =>
      refine ⟨fun p' h => by simp at h, fun hit => ?_⟩
      rw [h5, List.getElem?_eq_getElem hit] at hf
      exact absurd hf (by simp)
    | some frac =>
      refine ⟨fun p' h => ?_, fun _ => ⟨_, rfl⟩⟩
      rw [← Option.some.inj h]
      exact ⟨h1, h2, h3, h4, h5, h6⟩
  · exact ⟨fun p' h => by rw [← Option.some.inj h]; exact ⟨h1, h2, h3, h4, h5, h6⟩,
      fun _ => ⟨_, rfl⟩⟩

theorem expectedStep_inv (env : Env F) (c : String) (l : List String) (M S E : List F)
    (g : Quality) (p : Results × State F) (it : Nat) (hp : QualityInv c l M S E g p) :
    (∀ p', expectedStep env p it = some p' → QualityInv c l M S E g p') ∧
    (it < M.length → S.length = M.length → ∃ p', expectedStep env p it = some p') := by
  obtain ⟨h1, h2, h3, h4, h5, h6⟩ := hp
  unfold expectedStep
  simp only
  split
  · cases hm : p.2.mPadMeans[it]? with
    | none =>
      refine ⟨fun p' h => by simp at h, fun hit _ => ?_⟩
      rw [h3, List.getElem?_eq_getElem hit] at hm
      exact absurd hm (by simp)
    | some mean =>
      cases hs : p.2.mPadStdev[it]? with
      | none =>
        refine ⟨fun p' h => by simp at h, fun hit hlen => ?_⟩
        rw [h4, List.getElem?_eq_getElem (by omega)] at hs
        exact absurd hs (by simp)
      | some stdev =>
        refine ⟨fun p' h => ?_, fun _ _ => ⟨_, rfl⟩⟩
        rw [← Option.some.inj h]
        exact ⟨h1, h2, h3, h4, h5, h6⟩
  · exact ⟨fun p' h => by rw [← Option.some.inj h]; exact ⟨h1, h2, h3, h4, h5, h6⟩,
      fun _ _ => ⟨_, rfl⟩⟩

theorem meanStep_inv (env : Env F) (c : String) (l : List String) (M S E : List F)
    (g : Quality) (p : Results × State F) (it : Nat) (hp : QualityInv c l M S E g p) :
    (∀ p', meanStep env p it = some p' → QualityInv c l M S E g p') ∧
    (it < M.length → S.length = M.length → ∃ p', meanStep env p it = some p') := by
  obtain ⟨h1, h2, h3, h4, h5, h6⟩ := hp
  unfold meanStep
  simp only
  split
  · cases hm : p.2.mPadMeans[it]? with
    | none =>
      refine ⟨fun p' h => by simp at h, fun hit _ => ?_⟩
      rw [h3, List.getElem?_eq_getElem hit] at hm
      exact absurd hm (by simp)
    | some mean =>
      cases hs : p.2.mPadStdev[it]? with
      | none =>
        refine ⟨fun p' h => by simp at h, fun hit hlen => ?_⟩
        rw [h4, List.getElem?_eq_getElem (by omega)] at hs
        exact absurd hs (by simp)
      | some stdev =>
        refine ⟨fun p' h => ?_, fun _ _ => ⟨_, rfl⟩⟩
        rw [← Option.some.inj h]
        exact ⟨h1, h2, h3, h4, h5, h6⟩
  · exact ⟨fun p' h => by rw [← Option.some.inj h]; exact ⟨h1, h2, h3, h4, h5, h6⟩,
      fun _ _ => ⟨_, rfl⟩⟩

/-- The global quality is written only under the choice "Both". -/
theorem globalStep_inv (env : Env F) (c : String) (l : List String) (M S E : List F)
    (g : Quality) (p : Results × State F) (hc : c ≠ "Both")
    (hp : QualityInv c l M S E g p) : QualityInv c l M S E g (globalStep env p) := by
  obtain ⟨h1, h2, h3, h4, h5, h6⟩ := hp
  have hb : ¬ p.2.mCheckChoice = "Both" := by rw [h1]; exact hc
  unfold globalStep
  simp only [hb, if_false]
  split
  · exact ⟨h1, h2, h3, h4, h5, h6⟩
  · split
    · exact ⟨h1, h2, h3, h4, h5, h6⟩
    · split
      · exact ⟨h1, h2, h3, h4, h5, h6⟩
      · exact ⟨h1, h2, h3, h4, h5, h6⟩

theorem qualityStep_inv (env : Env F) (c : String) (l : List String) (M S E : List F)
    (g : Quality) (p : Results × State F) (it : Nat) (hc : c ≠ "Both")
    (hp : QualityInv c l M S E g p) :
    (∀ p', qualityStep env p it = some p' → QualityInv c l M S E g p') ∧
    (it < M.length → S.length = M.length → E.length = M.length →
      ∃ p', qualityStep env p it = some p') := by
  obtain ⟨a1, a2⟩ := emptyStep_inv env c l M S E g p it hp
  unfold qualityStep
  cases h1 : emptyStep env p it with
  | none =>
    refine ⟨fun p' h => by simp at h, fun hit _ hE => ?_⟩
    obtain ⟨p', hp'⟩ := a2 (by omega)
    rw [h1] at hp'; exact absurd hp' (by simp)
  | some p1 =>
    have i1 := a1 p1 h1
    obtain ⟨b1, b2⟩ := expectedStep_inv env c l M S E g p1 it i1
    simp only
    cases h2 : expectedStep env p1 it with
    | none =>
      refine ⟨fun p' h => by simp at h, fun hit hS _ => ?_⟩
      obtain ⟨p', hp'⟩ := b2 hit hS
      rw [h2] at hp'; exact absurd hp' (by simp)
    | some p2 =>
      have i2 := b1 p2 h2
      obtain ⟨c1, c2⟩ := meanStep_inv env c l M S E g p2 it i2
      simp only
      cases h3 : meanStep env p2 it with
      | none =>
        refine ⟨fun p' h => by simp at h, fun hit hS _ => ?_⟩
        obtain ⟨p', hp'⟩ := c2 hit hS
        rw [h3] at hp'; exact absurd hp' (by simp)
      | some p3 =>
        have i3 := c1 p3 h3
        refine ⟨fun p' h => ?_, fun _ _ _ => ⟨_, rfl⟩⟩
        rw [← Option.some.inj h]
        exact globalStep_inv env c l M S E g p3 hc i3

theorem qualityLoop_inv (env : Env F) (c : String) (l : List String) (M S E : List F)
    (g : Quality) (hc : c ≠ "Both") :
    ∀ (its : List Nat) (p : Results × State F), QualityInv c l M S E g p →
      (∀ p', qualityLoop env its p = some p' → QualityInv c l M S E g p') ∧
      ((∀ it ∈ its, it < M.length) → S.length = M.length → E.length = M.length →
        ∃ p', qualityLoop env its p = some p') := by
  intro its
  induction its with
  | nil =>
    intro p hp
    exact ⟨fun p' h => by rw [← Option.some.inj h]; exact hp, fun _ _ _ => ⟨p, rfl⟩⟩
  | cons it its ih =>
    intro p hp
    obtain ⟨a1, a2⟩ := qualityStep_inv env c l M S E g p it hc hp
    unfold qualityLoop
    cases h1 : qualityStep env p it with
    | none =>
      refine ⟨fun p' h => by simp at h, fun hits hS hE => ?_⟩
      obtain ⟨p', hp'⟩ := a2 (hits it (by simp)) hS hE
      rw [h1] at hp'; exact absurd hp' (by simp)
    | some p1 =>
      obtain ⟨b1, b2⟩ := ih p1 (a1 p1 h1)
      exact ⟨b1, fun hits hS hE => b2 (fun j hj => hits j (by simp [hj])) hS hE⟩

theorem substr_seven (name : String) (n : Nat) (h : 7 ≤ name.length) :
    ∃ sub, substr name 7 n = some sub := by
  unfold substr
  rw [if_neg (by omega)]
  exact ⟨_, rfl⟩

/-- The body of the loop over the monitor objects, under a check choice other
than "Both": the global quality stays `Null`, the only quality returned from
inside is `Null`, and the body ends by an error only when the vectors of the
statistics are not aligned or the name of a checked object has fewer than 7
characters. -/
theorem checkObject_ends (env : Env F) (c : String) (l : List String) (hc : c ≠ "Both")
    (p : Results × State F) (moObj : String × Option (MonitorObject F))
    (hp : p.2.mCheckChoice = c ∧ p.2.mMOsToCheck2D = l ∧ p.1.result_Global = Quality.Null) :
    Flow.Ends
      (fun p1 : Results × State F =>
        (p1.2.mCheckChoice = c ∧ p1.2.mMOsToCheck2D = l ∧
          p1.1.result_Global = Quality.Null) ∧ (Aligned p.2 → Aligned p1.2))
      (fun q _ => q = Quality.Null)
      (¬ (Aligned p.2 ∧ ∀ m, moObj.2 = some m → m.name ∈ l → 7 ≤ m.name.length))
      (checkObject env p moObj) := by
  obtain ⟨h1, h2, h3⟩ := hp
  unfold checkObject
  simp only
  cases hmo : moObj.2 with
  | none => exact ⟨⟨h1, h2, h3⟩, fun h => h⟩
  | some mo =>
    simp only
    by_cases hin : mo.name ∈ p.2.mMOsToCheck2D
    · rw [if_pos hin]
      cases hsub : substr mo.name 7 (sizeSub (find mo.name "_2D") 7) with
      | none =>
        intro hok
        obtain ⟨sub, hs⟩ := substr_seven mo.name (sizeSub (find mo.name "_2D") 7)
          (hok.2 mo rfl (by rw [← h2]; exact hin))
        rw [hsub] at hs; exact absurd hs (by simp)
      | some histSubName =>
        simp only
        cases hobj : mo.object with
        | none => exact ⟨⟨h1, h2, h3⟩, fun h => h⟩
        | some canv =>
          simp only
          have hpads := forFlow_ends
            (fun s1 : State F => s1.mCheckChoice = c ∧ s1.mMOsToCheck2D = l ∧
              (Aligned p.2 → Aligned s1))
            (fun q _ => q = Quality.Null) False
            (checkPad env mo.name histSubName canv)
            ((List.range 72).map (fun i => i + 1))
            (fun s x _ hs => checkPad_ends env mo.name histSubName canv c l (Aligned p.2) s x hs)
            { p.2 with mTotalMean := env.arith.lit 0 0 } ⟨h1, h2, fun h => h⟩
          cases hloop : forFlow (checkPad env mo.name histSubName canv)
              ((List.range 72).map (fun i => i + 1))
              { p.2 with mTotalMean := env.arith.lit 0 0 } with
          | abort => rw [hloop] at hpads; exact absurd hpads (by simp [Flow.Ends])
          | ret q s2 => rw [hloop] at hpads; exact hpads
          | next s2 =>
            rw [hloop] at hpads
            obtain ⟨k1, k2, k3⟩ := hpads
            simp only
            cases hw : weightsLoop env.arith s2.mPadMeans s2.mPadStdev
                (List.range s2.mPadMeans.length) (s2.mTotalMean, env.arith.lit 0 0) with
            | none =>
              intro hok
              obtain ⟨w, hw'⟩ := weightsLoop_some env.arith s2.mPadMeans s2.mPadStdev
                (k3 hok.1).1 (List.range s2.mPadMeans.length)
                (fun it hit => List.mem_range.mp hit) (s2.mTotalMean, env.arith.lit 0 0)
              rw [hw] at hw'; exact absurd hw' (by simp)
            | some w =>
              simp only
              obtain ⟨q1, q2⟩ := qualityLoop_inv env c l s2.mPadMeans s2.mPadStdev
                s2.mEmptyPadsFracs Quality.Null hc (List.range s2.mPadMeans.length)
                ({ p.1 with result_EV := Quality.Good, result_Mean := Quality.Good },
                  { s2 with
                    mTotalStdev := env.arith.sqrt (env.arith.div (env.arith.ofInt 1) w.2),
                    mTotalMean := env.arith.div w.1 w.2 })
                ⟨k1, k2, rfl, rfl, rfl, h3⟩
              cases hq : qualityLoop env (List.range s2.mPadMeans.length)
                  ({ p.1 with result_EV := Quality.Good, result_Mean := Quality.Good },
                    { s2 with
                      mTotalStdev := env.arith.sqrt (env.arith.div (env.arith.ofInt 1) w.2),
                      mTotalMean := env.arith.div w.1 w.2 }) with
              | none =>
                intro hok
                obtain ⟨p', hp'⟩ := q2 (fun it hit => List.mem_range.mp hit)
                  (k3 hok.1).1 (k3 hok.1).2
                rw [hq] at hp'; exact absurd hp' (by simp)
              | some p1 =>
                obtain ⟨i1, i2, i3, i4, i5, i6⟩ := q1 p1 hq
                refine ⟨⟨i1, i2, i6⟩, fun hal => ?_⟩
                obtain ⟨a1, a2⟩ := k3 hal
                exact ⟨by rw [i4, i3]; exact a1, by rw [i5, i3]; exact a2⟩
    · rw [if_neg hin]
      exact ⟨⟨h1, h2, h3⟩, fun h => h⟩

/-- C24: under a check choice other than "Both" (such as "Mean",
"ExpectedValue" or "EmptyPads") every quality that `check` returns is
`Quality::Null`, whatever the monitor objects hold; and `check` does return
it whenever the vectors of the statistics of the pads are aligned and the
name of every checked object has at least 7 characters. -/
theorem check_null_unless_both (env : Env F) (s : State F)
    (moMap : List (String × Option (MonitorObject F))) (hchoice : s.mCheckChoice ≠ "Both") :
    (∀ q s', check env s moMap = some (q, s') → q = Quality.Null) ∧
    (Aligned s →
      (∀ mo ∈ moMap, ∀ m, mo.2 = some m → m.name ∈ s.mMOsToCheck2D → 7 ≤ m.name.length) →
      ∃ s', check env s moMap = some (Quality.Null, s')) := by
  refine ⟨?_, ?_⟩
  · have hloop := forFlow_ends
      (fun p1 : Results × State F => p1.2.mCheckChoice = s.mCheckChoice ∧
        p1.2.mMOsToCheck2D = s.mMOsToCheck2D ∧ p1.1.result_Global = Quality.Null)
      (fun q _ => q = Quality.Null) True (checkObject env) moMap
      (fun p x _ hp => ends_mono (fun _ h => h.1) (fun _ _ h => h) (fun _ => trivial) _
        (checkObject_ends env s.mCheckChoice s.mMOsToCheck2D hchoice p x hp))
      (⟨Quality.Null, Quality.Null, Quality.Null, Quality.Null⟩, s) ⟨rfl, rfl, rfl⟩
    intro q s' h
    unfold check at h
    cases hf : forFlow (checkObject env) moMap
        (⟨Quality.Null, Quality.Null, Quality.Null, Quality.Null⟩, s) with
    | next p =>
      rw [hf] at h hloop
      simp only [Option.some.injEq, Prod.mk.injEq] at h
      rw [← h.1]; exact hloop.2.2
    | ret q' p =>
      rw [hf] at h hloop
      simp only [Option.some.injEq, Prod.mk.injEq] at h
      rw [← h.1]; exact hloop
    | abort => rw [hf] at h; simp at h
  · intro hal hnames
    have hloop := forFlow_ends
      (fun p1 : Results × State F => (p1.2.mCheckChoice = s.mCheckChoice ∧
        p1.2.mMOsToCheck2D = s.mMOsToCheck2D ∧ p1.1.result_Global = Quality.Null) ∧
        Aligned p1.2)
      (fun q _ => q = Quality.Null) False (checkObject env) moMap
      (fun p x hx hp => ends_mono (fun _ h => ⟨h.1, h.2 hp.2⟩) (fun _ _ h => h)
        (fun h => h ⟨hp.2, hnames x hx⟩) _
        (checkObject_ends env s.mCheckChoice s.mMOsToCheck2D hchoice p x hp.1))
      (⟨Quality.Null, Quality.Null, Quality.Null, Quality.Null⟩, s) ⟨⟨rfl, rfl, rfl⟩, hal⟩
    unfold check
    cases hf : forFlow (checkObject env) moMap
        (⟨Quality.Null, Quality.Null, Quality.Null, Quality.Null⟩, s) with
    | next p =>
      rw [hf] at hloop
      exact ⟨p.2, by simp only [hloop.1.2.2]⟩
    | ret q' p =>
      rw [hf] at hloop
      have hq : q' = Quality.Null := hloop
      exact ⟨p.2, by simp only [hq]⟩
    | abort => rw [hf] at hloop; exact absurd hloop (by simp [Flow.Ends])

/-- C24, on the concrete check with the choice "Mean" and the canvas that
holds two pads: the quality returned is `Null`, although both sectors were
given the quality `Good`; under the choice "Both" the same canvas gives a
quality other than `Null`. -/
theorem check_null_unless_both_witness :
    (demoCheck demoEnv "Mean").mCheckChoice ≠ "Both" ∧
    (∀ q s', check demoEnv (demoCheck demoEnv "Mean")
        [("c_ROCs_Q_2D", some (demoObject demoEnv))] = some (q, s') → q = Quality.Null) ∧
    (∃ s', check demoEnv (demoCheck demoEnv "Mean")
        [("c_ROCs_Q_2D", some (demoObject demoEnv))] = some (Quality.Null, s')) ∧
    (check demoEnv (demoCheck demoEnv "Mean")
        [("c_ROCs_Q_2D", some (demoObject demoEnv))]).map (fun r => r.2.mSectorsQuality)
      = some [Quality.Good, Quality.Good] ∧
    (check demoEnv (demoCheck demoEnv "Mean,ExpectedValue")
        [("c_ROCs_Q_2D", some (demoObject demoEnv))]).map (fun r => r.1)
      = some Quality.Good :=
  ⟨by decide,
   (check_null_unless_both demoEnv (demoCheck demoEnv "Mean")
      [("c_ROCs_Q_2D", some (demoObject demoEnv))] (by decide)).1,
   (check_null_unless_both demoEnv (demoCheck demoEnv "Mean")
      [("c_ROCs_Q_2D", some (demoObject demoEnv))] (by decide)).2 ⟨rfl, rfl⟩
      (by
        intro mo hmo m hm _
        rw [List.mem_singleton] at hmo
        rw [hmo] at hm
        rw [← Option.some.inj hm]
        decide),
   by decide, by decide⟩

/-- C25 fails on the concrete check with the choice "Mean" and the canvas on
which the pad 1 and the pads 4 to 72 are missing: after `check` the vector
`mSectorsName` has 72 entries ("notitle" for every missing pad) while
`mSectorsQuality` has 2 entries, one per pad that was found (the 70 `Null`
placeholders went to `mSectorsQuality_EV`); the index that `beautify` derives
for the pad 2 is 1, the entry of the pad 3, and the index it derives for the
pad 3 is 2, beyond the end of `mSectorsQuality`, so `beautify` ends by an
invalid access. -/
theorem sector_vectors_misaligned :
    (check demoEnv (demoCheck demoEnv "Mean")
        [("c_ROCs_Q_2D", some (demoObject demoEnv))]).map
      (fun r => (r.2.mSectorsName.length, r.2.mSectorsQuality.length,
        r.2.mSectorsQuality_EV.length, r.2.mSectorsName.take 4))
      = some (72, 2, 70, ["notitle", "IROC_A01", "OROC_A02", "notitle"]) ∧
    (check demoEnv (demoCheck demoEnv "Mean")
        [("c_ROCs_Q_2D", some (demoObject demoEnv))]).map
      (fun r => (findIndex r.2.mSectorsName "IROC_A01", findIndex r.2.mSectorsName "OROC_A02",
        r.2.mSectorsQuality[2]?))
      = some (some 1, some 2, none) ∧
    ((check demoEnv (demoCheck demoEnv "Mean")
        [("c_ROCs_Q_2D", some (demoObject demoEnv))]).bind
      (fun r => beautify r.2 (demoObject demoEnv))).isNone = true := by
  decide

end

end CheckOfPads
